import Mathlib

/-!
# Media frames: capture / ownership arbitration

A shallow embedding of `src/systems/bit-media-frames.js` (the per-tick media
frame system of the room client) together with the properties its
specification states about it.

Conventions of the embedding

* Entities, network ids, scene-graph objects and physics bodies are natural
  numbers; `0` is the falsy entity / network id, as in the source.
* The entity store (`world`), the physics system handed to the system and the
  module-level maps (`frame2mixer`, `takeOwnershipOnTimeout`) are gathered in
  one record, `World`, that every function receives and returns.
* A JavaScript exception is the result `Except.error Fault.typeError`; the
  only loop of the source that is not bounded by a list (`isAncestor`) runs on
  fuel and reports `Fault.outOfFuel` when it is exhausted.
* JavaScript numbers are binary64 values, `JSNum`; arithmetic rounds to
  nearest, ties to even. Signed zeros are not distinguished. A number written
  into a float32 typed array of a component is rounded to binary32.
* The matrix operations of three.js (`decompose`, `compose`,
  `setFromMatrixScale`) are parameters, `Three`.
-/

namespace MediaFrames

/-! ## JavaScript numbers -/

/-- A binary64 value: a finite rational on the binary64 grid, an infinity, or NaN. -/
inductive JSNum where
  | fin (q : ℚ)
  | posInf
  | negInf
  | nan
deriving DecidableEq, Repr

/-- Floor of the base-2 logarithm of a natural number, by repeated halving. -/
def log2Fuel : Nat → Nat → Nat
  | 0, _ => 0
  | fuel + 1, n => if 2 ≤ n then log2Fuel fuel (n / 2) + 1 else 0

/-- The rational `2 ^ e` for an integer exponent. -/
def pow2 (e : ℤ) : ℚ :=
  if 0 ≤ e then ((2 ^ e.toNat : ℕ) : ℚ) else 1 / ((2 ^ (-e).toNat : ℕ) : ℚ)

/-- Floor of the base-2 logarithm of the absolute value of a non-zero rational. -/
def ilog2 (q : ℚ) : ℤ :=
  let k : ℤ := (log2Fuel q.num.natAbs q.num.natAbs : ℤ) - (log2Fuel q.den q.den : ℤ)
  if pow2 k ≤ |q| then k else k - 1

/-- Rounding of a rational to the nearest integer, ties to the even one. -/
def roundHalfEven (x : ℚ) : ℤ :=
  let f := ⌊x⌋
  let r := x - f
  if r < 1 / 2 then f else if 1 / 2 < r then f + 1 else if f % 2 = 0 then f else f + 1

/-- Rounding of an exact result to binary64: 53 significant bits, gradual
underflow below `2 ^ (-1022)`, overflow to an infinity from `2 ^ 1024`. -/
def fl (q : ℚ) : JSNum :=
  if q = 0 then .fin 0 else
    let e := max (ilog2 q) (-1022)
    let ulp := pow2 (e - 52)
    let r := (roundHalfEven (q / ulp) : ℚ) * ulp
    if pow2 1024 ≤ |r| then (if 0 < q then .posInf else .negInf) else .fin r

/-- Rounding of an exact value to binary32, the element type of a `Float32Array`:
24 significant bits, gradual underflow below `2 ^ (-126)`, overflow to an
infinity from `2 ^ 128`. -/
def fround (q : ℚ) : JSNum :=
  if q = 0 then .fin 0 else
    let e := max (ilog2 q) (-126)
    let ulp := pow2 (e - 23)
    let r := (roundHalfEven (q / ulp) : ℚ) * ulp
    if pow2 128 ≤ |r| then (if 0 < q then .posInf else .negInf) else .fin r

namespace JSNum

/-- The value read back after a number is stored in an element of a `Float32Array`. -/
def toFloat32 : JSNum → JSNum
  | fin q => fround q
  | posInf => posInf
  | negInf => negInf
  | nan => nan

/-- The JavaScript operator `/` on numbers. -/
def div : JSNum → JSNum → JSNum
  | nan, _ => nan
  | _, nan => nan
  | fin x, fin y =>
    if y = 0 then (if x = 0 then nan else if 0 < x then posInf else negInf) else fl (x / y)
  | fin _, posInf => fin 0
  | fin _, negInf => fin 0
  | posInf, fin y => if 0 ≤ y then posInf else negInf
  | negInf, fin y => if 0 ≤ y then negInf else posInf
  | posInf, posInf => nan
  | posInf, negInf => nan
  | negInf, posInf => nan
  | negInf, negInf => nan

/-- The JavaScript operator `*` on numbers. -/
def mul : JSNum → JSNum → JSNum
  | nan, _ => nan
  | _, nan => nan
  | fin x, fin y => fl (x * y)
  | fin x, posInf => if x = 0 then nan else if 0 < x then posInf else negInf
  | fin x, negInf => if x = 0 then nan else if 0 < x then negInf else posInf
  | posInf, fin y => if y = 0 then nan else if 0 < y then posInf else negInf
  | negInf, fin y => if y = 0 then nan else if 0 < y then negInf else posInf
  | posInf, posInf => posInf
  | posInf, negInf => negInf
  | negInf, posInf => negInf
  | negInf, negInf => posInf

/-- The smaller of two numbers as `Math.min` computes it: NaN if either is NaN. -/
def min2 : JSNum → JSNum → JSNum
  | nan, _ => nan
  | _, nan => nan
  | negInf, _ => negInf
  | _, negInf => negInf
  | posInf, b => b
  | a, posInf => a
  | fin x, fin y => if x ≤ y then fin x else fin y

end JSNum

/-- The variadic `Math.min`: `+Infinity` on no arguments, NaN as soon as one argument is NaN. -/
def mathMin (args : List JSNum) : JSNum :=
  args.foldl JSNum.min2 JSNum.posInf

/-- A `THREE.Vector3`, also used for the three-element arrays of the components. -/
structure Vec3 where
  x : JSNum
  y : JSNum
  z : JSNum
deriving DecidableEq, Repr

namespace Vec3

/-- The array `zero = [0, 0, 0]` of the source. -/
def zero : Vec3 := ⟨.fin 0, .fin 0, .fin 0⟩

/-- The method `Vector3.multiplyScalar`. -/
def multiplyScalar (v : Vec3) (s : JSNum) : Vec3 :=
  ⟨v.x.mul s, v.y.mul s, v.z.mul s⟩

/-- The three numbers as they are held by a three-element `Float32Array` after
`Vector3.toArray` has written them into it. -/
def toFloat32 (v : Vec3) : Vec3 :=
  ⟨v.x.toFloat32, v.y.toFloat32, v.z.toFloat32⟩

end Vec3

/-! ## Data model -/

abbrev Eid := Nat
abbrev Nid := Nat
abbrev ObjId := Nat
abbrev Uuid := Nat

/-- Ways in which a run of the source does not return. -/
inductive Fault where
  | typeError
  | outOfFuel
deriving DecidableEq, Repr

/-- The operations of three.js on `Matrix4` that the system uses. The library is
not part of the repository, so the operations are parameters. -/
structure Three (Mat : Type) where
  Quat : Type
  identity : Mat
  decompose : Mat → Vec3 × Quat × Vec3
  compose : Vec3 → Quat → Vec3 → Mat
  setFromMatrixScale : Mat → Vec3

/-- The values of `MediaType` (utils/media-utils) that the system reads. -/
structure MediaTypeBits where
  MODEL : Nat
  VIDEO : Nat
  IMAGE : Nat
  PDF : Nat
deriving DecidableEq, Repr

/-- What the system reads from the A-Frame element of a legacy entity. -/
structure El where
  gltfModelPlus : Bool
  mediaVideo : Bool
  mediaImage : Bool
  mediaPdf : Bool
  mediaLoader : Option (Option Vec3)
  loopAnimationPlaying : Bool
  mesh : Option ObjId
  networkOwnerIsScene : Bool
deriving DecidableEq, Repr

/-- A scene-graph object: parent link, entity id, optional element, world
matrix, and the two pieces of guide state the system writes. -/
structure Object3D (Mat : Type) where
  parent : Option ObjId
  eid : Eid
  el : Option El
  matrixWorld : Mat
  visible : Bool
  color : Nat

/-- Simulation mode of a rigid body. -/
inductive BodyType where
  | dynamic
  | kinematic
  | static
deriving DecidableEq, Repr

/-- An entry of `physicsSystem.bodyUuidToData`. -/
structure BodyData where
  object3D : Option ObjId
deriving DecidableEq, Repr

/-- The physics system as the media frame system uses it. -/
structure PhysicsSystem where
  getCollisions : Uuid → List Uuid
  bodyUuidToData : Uuid → Option BodyData
  bodyType : Eid → BodyType

/-- The component `MediaFrame`. -/
structure MediaFrameStore where
  mediaType : Eid → Nat
  bounds : Eid → Vec3
  guide : Eid → Eid
  preview : Eid → Eid
  previewingNid : Eid → Nid
  capturedNid : Eid → Nid
  scale : Eid → Vec3

/-- The component `NetworkedMediaFrame`. Its `scale` is a three-element float32
typed array per entity (the component declaration is in `bit-components`): a
number computed by the system is rounded to binary32 when it is written there,
while `zero` and a copy from another float32 array are stored as they are. -/
structure NetworkedMediaFrameStore where
  capturedNid : Eid → Nid
  scale : Eid → Vec3

/-- The component `Networked`. -/
structure NetworkedStore where
  id : Eid → Nid
  owner : Eid → Nat

/-- The component `Rigidbody`. -/
structure RigidbodyStore where
  bodyId : Eid → Uuid

/-- The state the system runs on: the entity store, the scene graph, the
physics system, the replication requests issued so far, and the module-level
maps and timers of the source file. -/
structure World (Mat : Type) where
  nextEid : Eid
  entityExists : Eid → Bool
  AEntity : Eid → Bool
  Owned : Eid → Bool
  Held : Eid → Bool
  MediaLoading : Eid → Bool
  GLTFModel : Eid → Bool
  MediaVideo : Eid → Bool
  MediaImage : Eid → Bool
  MediaPDF : Eid → Bool
  MediaFrame : MediaFrameStore
  NetworkedMediaFrame : NetworkedMediaFrameStore
  Networked : NetworkedStore
  Rigidbody : RigidbodyStore
  MediaType : MediaTypeBits
  mediaFramesQuery : List Eid
  enteredMediaFramesQuery : List Eid
  exitedMediaFramesQuery : List Eid
  heldQuery : List Eid
  nid2eid : Nid → Option Eid
  deletedNids : Nid → Bool
  eid2obj : Eid → Option ObjId
  objects : ObjId → Object3D Mat
  nextObj : ObjId
  scene : ObjId
  findChildWithMediaLoaded : Eid → Option Eid
  findAncestorWithDeleting : Eid → Option Eid
  MediaContentBounds : Eid → Option Vec3
  reticulumSid : Nat
  ownershipClaims : List Eid
  softOwnershipClaims : List Eid
  physicsSystem : PhysicsSystem
  frame2mixer : Eid → Bool
  takeOwnershipOnTimeout : Eid → Option Nat
  nextTimeout : Nat
  pendingTimeouts : List (Nat × Eid)

/-! ## Helpers for JavaScript idioms -/

/-- Dereferencing a value that may be `undefined`: a `TypeError` when it is. -/
def deref {α : Type} : Option α → Except Fault α
  | some a => pure a
  | none => throw Fault.typeError

/-- Truthiness of an entity id that may be `null` or `undefined`. -/
def truthy : Option Eid → Bool
  | some e => e != 0
  | none => false

/-- The value of `flag && bit` once or-ed into a 32-bit mask. -/
def bitIf (flag : Bool) (bit : Nat) : Nat :=
  if flag then bit else 0

variable {Mat : Type}

/-- The call `hasComponent(world, C, eid)` for an entity id that may be `undefined`. -/
def hasComponentOpt (C : Eid → Bool) : Option Eid → Bool
  | some e => C e
  | none => false

/-- The expression `world.eid2obj.get(eid).el` followed by a property read on the element. -/
def elOf (w : World Mat) (eid : Eid) : Except Fault El := do
  let obj ← deref (w.eid2obj eid)
  deref (w.objects obj).el

/-! ## Collaborators that are not part of the sources -/

/-- Modelled from the spec: `takeOwnership` (utils/take-ownership) is the
replication collaborator's `claimOwnership(entity)`, a best-effort request; the
request is recorded, in order. -/
def takeOwnership (w : World Mat) (eid : Eid) : World Mat :=
  { w with ownershipClaims := w.ownershipClaims ++ [eid] }

/-- Modelled from the spec: `takeSoftOwnership` (utils/take-soft-ownership) is
the replication collaborator's `forceClaimOwnership(entity)`, the soft takeover
used by the watchdog; the request is recorded, in order. -/
def takeSoftOwnership (w : World Mat) (eid : Eid) : World Mat :=
  { w with softOwnershipClaims := w.softOwnershipClaims ++ [eid] }

/-- Modelled from the spec: `physicsSystem.updateRigidBodyOptions(eid, { type })`
is the physics collaborator's `setSimulationMode(bodyHandle, kinematic|dynamic)`. -/
def updateRigidBodyOptions (w : World Mat) (eid : Eid) (type : BodyType) : World Mat :=
  { w with physicsSystem :=
      { w.physicsSystem with bodyType := Function.update w.physicsSystem.bodyType eid type } }

/-- Modelled from the spec: `physicsSystem.updateBodyOptions(eid, { type })`, the
call the reconciliation step makes, is the same `setSimulationMode` of the
physics collaborator. -/
def updateBodyOptions (w : World Mat) (eid : Eid) (type : BodyType) : World Mat :=
  { w with physicsSystem :=
      { w.physicsSystem with bodyType := Function.update w.physicsSystem.bodyType eid type } }

/-- Modelled from the spec: `setMatrixWorld(obj, m)` (utils/three-utils) applies
the composed transform to the object, making `m` its world matrix; it reads the
object, so an `undefined` object is a `TypeError`. -/
def setMatrixWorld (w : World Mat) (obj : Option ObjId) (m : Mat) : Except Fault (World Mat) := do
  let o ← deref obj
  pure { w with objects := Function.update w.objects o { w.objects o with matrixWorld := m } }

/-- Modelled from the spec: `addObject3DComponent(world, eid, obj)`
(utils/jsx-entity) makes `obj` the scene-graph object of the entity. -/
def addObject3DComponent (w : World Mat) (eid : Eid) (obj : ObjId) : World Mat :=
  { w with
    eid2obj := Function.update w.eid2obj eid (some obj)
    objects := Function.update w.objects obj { w.objects obj with eid := eid } }

/-- The call `addEntity(world)` of bitecs: a fresh entity id. -/
def addEntity (w : World Mat) : World Mat × Eid :=
  ({ w with nextEid := w.nextEid + 1
            entityExists := Function.update w.entityExists w.nextEid true }, w.nextEid)

/-! ## The functions of `bit-media-frames.js` -/

def EMPTY_COLOR : Nat := 0x6fc0fd
def HOVER_COLOR : Nat := 0x2f80ed
def FULL_COLOR : Nat := 0x808080

/-- The media-type bit mask of an entity. -/
def mediaTypeMaskFor (w : World Mat) (eid : Eid) : Except Fault Nat :=
  if w.AEntity eid then do
    let el ← elOf w eid
    pure ((((0 ||| bitIf el.gltfModelPlus w.MediaType.MODEL)
      ||| bitIf el.mediaVideo w.MediaType.VIDEO)
      ||| bitIf el.mediaImage w.MediaType.IMAGE)
      ||| bitIf el.mediaPdf w.MediaType.PDF)
  else
    let mediaEid := w.findChildWithMediaLoaded eid
    pure ((((0 ||| bitIf (hasComponentOpt w.GLTFModel mediaEid) w.MediaType.MODEL)
      ||| bitIf (hasComponentOpt w.MediaVideo mediaEid) w.MediaType.VIDEO)
      ||| bitIf (hasComponentOpt w.MediaImage mediaEid) w.MediaType.IMAGE)
      ||| bitIf (hasComponentOpt w.MediaPDF mediaEid) w.MediaType.PDF)

/-- The `while (ancestor)` loop of `isAncestor`, on fuel. -/
def isAncestorLoop (objects : ObjId → Object3D Mat) (a : ObjId) :
    Nat → Option ObjId → Except Fault Bool
  | _, none => pure false
  | 0, some _ => throw Fault.outOfFuel
  | fuel + 1, some ancestor =>
    if ancestor = a then pure true else isAncestorLoop objects a fuel (objects ancestor).parent

/-- Whether `a` is reached from `b` by parent links. -/
def isAncestor (w : World Mat) (fuel : Nat) (a b : ObjId) : Except Fault Bool :=
  isAncestorLoop w.objects a fuel (w.objects b).parent

/-- Whether the entity is owned by the fallback identity. -/
def isOwnedByRet (w : World Mat) (eid : Eid) : Except Fault Bool :=
  if w.AEntity eid then do
    let networkedEl ← elOf w eid
    pure networkedEl.networkOwnerIsScene
  else
    pure (w.Networked.owner eid == w.reticulumSid)

/-- The `for (const frame of frames)` loop of `inOtherFrame`. -/
def inOtherFrameLoop (w : World Mat) (ignoredFrame eid : Eid) : List Eid → Bool
  | [] => false
  | frame :: rest =>
    if frame = ignoredFrame then inOtherFrameLoop w ignoredFrame eid rest
    else if w.MediaFrame.capturedNid frame = w.Networked.id eid
        ∨ w.MediaFrame.previewingNid frame = w.Networked.id eid then true
    else inOtherFrameLoop w ignoredFrame eid rest

/-- Whether a frame other than `ignoredFrame` lists the entity as captured or previewed. -/
def inOtherFrame (w : World Mat) (ignoredFrame eid : Eid) : Bool :=
  inOtherFrameLoop w ignoredFrame eid w.mediaFramesQuery

/-- The `for` loop of `getCapturableEntity` over the collisions of the frame's body. -/
def getCapturableEntityLoop (w : World Mat) (fuel : Nat) (frame : Eid) :
    List Uuid → Except Fault (Option Eid)
  | [] => pure none
  | collision :: rest => do
    let bodyData ← deref (w.physicsSystem.bodyUuidToData collision)
    let object3D ← deref bodyData.object3D
    let eid := (w.objects object3D).eid
    let mask ← mediaTypeMaskFor w eid
    if w.MediaFrame.mediaType frame &&& mask ≠ 0
        ∧ w.MediaLoading eid = false
        ∧ inOtherFrame w frame eid = false then do
      let frameObj ← deref (w.eid2obj frame)
      let ancestor ← isAncestor w fuel object3D frameObj
      if ancestor = false then pure (some eid)
      else getCapturableEntityLoop w fuel frame rest
    else getCapturableEntityLoop w fuel frame rest

/-- The first colliding entity the frame may capture, or `null`. -/
def getCapturableEntity (w : World Mat) (fuel : Nat) (frame : Eid) : Except Fault (Option Eid) :=
  getCapturableEntityLoop w fuel frame (w.physicsSystem.getCollisions (w.Rigidbody.bodyId frame))

/-- The expression `bodyData && bodyData.object3D && bodyData.object3D.eid`. -/
def collidedEid (w : World Mat) (collision : Uuid) : Option Eid :=
  match w.physicsSystem.bodyUuidToData collision with
  | none => none
  | some bodyData =>
    match bodyData.object3D with
    | none => none
    | some object3D => some (w.objects object3D).eid

/-- The `for` loop of `isColliding`. -/
def isCollidingLoop (w : World Mat) (eidB : Eid) : List Uuid → Bool
  | [] => false
  | collision :: rest =>
    if collidedEid w collision = some eidB then true else isCollidingLoop w eidB rest

/-- Whether the body of `eidA` collides with a body of entity `eidB`. -/
def isColliding (w : World Mat) (eidA eidB : Eid) : Bool :=
  isCollidingLoop w eidB (w.physicsSystem.getCollisions (w.Rigidbody.bodyId eidA))

/-- The content bounds of an entity, `undefined` when there are none. -/
def getEntityBounds (w : World Mat) (target : Eid) : Except Fault (Option Vec3) :=
  if w.AEntity target then do
    let el ← elOf w target
    let mediaLoader ← deref el.mediaLoader
    pure mediaLoader
  else
    match w.findChildWithMediaLoaded target with
    | none => pure none
    | some mediaEid => pure (w.MediaContentBounds mediaEid)

/-- The aspect-fit factor; reading `.x` of `undefined` item bounds is a `TypeError`. -/
def scaleForAspectFit (containerSize : Vec3) (itemSize : Option Vec3) : Except Fault JSNum := do
  let item ← deref itemSize
  pure (mathMin [containerSize.x.div item.x, containerSize.y.div item.y, containerSize.z.div item.z])

/-- The matrix `snapToFrame` composes for the target: frame position, frame
rotation, frame scale times the aspect-fit factor. -/
def snapMatrix (T : Three Mat) (frameMatrix : Mat) (factor : JSNum) : Mat :=
  let d := T.decompose frameMatrix
  T.compose d.1 d.2.1 (d.2.2.multiplyScalar factor)

/-- Move the target into the frame. -/
def snapToFrame (T : Three Mat) (w : World Mat) (frame target : Eid)
    (contentBounds : Option Vec3) : Except Fault (World Mat) := do
  let frameObj ← deref (w.eid2obj frame)
  let targetObj := w.eid2obj target
  let factor ← scaleForAspectFit (w.MediaFrame.bounds frame) contentBounds
  setMatrixWorld w targetObj
    (snapMatrix T (w.objects frameObj).matrixWorld factor)

/-- Replace the scale of the object's world matrix, keeping position and rotation. -/
def setMatrixScale (T : Three Mat) (w : World Mat) (obj : Option ObjId) (scaleArray : Vec3) :
    Except Fault (World Mat) := do
  let o ← deref obj
  let d := T.decompose (w.objects o).matrixWorld
  setMatrixWorld w (some o) (T.compose d.1 d.2.1 scaleArray)

/-- The element `createPreviewMesh` reads for a legacy entity: `world.eid2obj.get(capturable).el`
and its components; no element is read for other entities. -/
def previewSourceEl (w : World Mat) (capturable : Eid) : Except Fault (Option El) :=
  if w.AEntity capturable then do
    let e ← elOf w capturable
    pure (some e)
  else pure none

/-- The value of `isVideo` in `createPreviewMesh`. -/
def previewIsVideo (w : World Mat) (capturable : Eid) (el : Option El) : Bool :=
  match el with
  | some e => e.mediaVideo
  | none => hasComponentOpt w.MediaVideo (w.findChildWithMediaLoaded capturable)

/-- The value of `srcMesh` in `createPreviewMesh`. -/
def previewSrcMesh (w : World Mat) (capturable : Eid) (el : Option El) : Option ObjId :=
  match el with
  | some e => e.mesh
  | none =>
    match w.findChildWithMediaLoaded capturable with
    | some mediaEid => w.eid2obj mediaEid
    | none => none

/-- Whether `createPreviewMesh` registers an animation mixer for the frame. -/
def previewHasMixer (w : World Mat) (capturable : Eid) (el : Option El) : Bool :=
  match el with
  | some e => !previewIsVideo w capturable el && e.loopAnimationPlaying
  | none => false

/-- The preview object for a capturable entity: a new group under the scene
that holds the translucent clone (or, for a video, the textured plane). Cloning
reads the source mesh, so a missing mesh is a `TypeError`; a playing loop
animation of a legacy entity registers a mixer for the frame. -/
def createPreviewMesh (T : Three Mat) (w : World Mat) (frame capturable : Eid) :
    Except Fault (World Mat × ObjId) := do
  let el ← previewSourceEl w capturable
  let _ ← deref (previewSrcMesh w capturable el)
  let cloneObj := w.nextObj
  pure ({ w with
          nextObj := w.nextObj + 1
          objects := Function.update w.objects cloneObj
            { parent := some w.scene, eid := 0, el := el, matrixWorld := T.identity,
              visible := true, color := 0 }
          frame2mixer := if previewHasMixer w capturable el
            then Function.update w.frame2mixer frame true else w.frame2mixer }, cloneObj)

/-- Create the preview of `capturable` for the frame and snap it into the frame. -/
def showPreview (T : Three Mat) (w : World Mat) (frame capturable : Eid) :
    Except Fault (World Mat) := do
  let created ← createPreviewMesh T w frame capturable
  let added := addEntity created.1
  let w3 := addObject3DComponent added.1 added.2 created.2
  let w4 : World Mat := { w3 with MediaFrame := { w3.MediaFrame with
    preview := Function.update w3.MediaFrame.preview frame added.2
    previewingNid := Function.update w3.MediaFrame.previewingNid frame
      (w3.Networked.id capturable) } }
  let bounds ← getEntityBounds w4 capturable
  snapToFrame T w4 frame added.2 bounds

/-- Remove the preview of the frame, if any. -/
def hidePreview (w : World Mat) (frame : Eid) : World Mat :=
  let eid := w.MediaFrame.preview frame
  let objects :=
    match w.eid2obj eid with
    | some previewMesh =>
      Function.update w.objects previewMesh { w.objects previewMesh with parent := none }
    | none => w.objects
  { w with
    objects := objects
    MediaFrame := { w.MediaFrame with
      preview := Function.update w.MediaFrame.preview frame 0
      previewingNid := Function.update w.MediaFrame.previewingNid frame 0 }
    frame2mixer := Function.update w.frame2mixer frame false }

/-- The value of `shouldPreviewBeVisible` in `display`. -/
def shouldPreviewBeVisible (w : World Mat) (capturable : Option Eid) (captured : Eid) : Bool :=
  (truthy capturable && hasComponentOpt w.Held capturable) || (captured != 0 && w.Held captured)

/-- The guide part of `display`: visibility and colour of the frame's guide object. -/
def displayGuide (w : World Mat) (frame : Eid) (capturable : Option Eid) (heldMediaTypes : Nat) :
    Except Fault (World Mat) := do
  let guideEid := w.MediaFrame.guide frame
  let guideObj ← deref (w.eid2obj guideEid)
  let visible : Bool := w.MediaFrame.mediaType frame &&& heldMediaTypes != 0
  let captured := (w.nid2eid (w.MediaFrame.capturedNid frame)).getD 0
  let isHoldingObjectOfInterest : Bool :=
    (captured != 0 && w.Held captured) || (truthy capturable && hasComponentOpt w.Held capturable)
  let color :=
    if visible then
      (if isHoldingObjectOfInterest then HOVER_COLOR
       else if w.MediaFrame.capturedNid frame != 0 then FULL_COLOR else EMPTY_COLOR)
    else (w.objects guideObj).color
  let guideNew : Object3D Mat := { w.objects guideObj with visible := visible, color := color }
  pure { w with objects := Function.update w.objects guideObj guideNew }

/-- The value of `capturable` in `display`:
`!MediaFrame.capturedNid[frame] && getCapturableEntity(world, physicsSystem, frame)`. -/
def displayCapturable (w : World Mat) (fuel : Nat) (frame : Eid) : Except Fault (Option Eid) :=
  if w.MediaFrame.capturedNid frame = 0 then getCapturableEntity w fuel frame else pure none

/-- The `if / else if` of `display` that creates or removes the preview. -/
def displayPreview (T : Three Mat) (w : World Mat) (frame : Eid) (capturable : Option Eid)
    (captured : Eid) : Except Fault (World Mat) :=
  if shouldPreviewBeVisible w capturable captured && w.MediaFrame.preview frame == 0 then
    showPreview T w frame (if truthy capturable then capturable.getD 0 else captured)
  else if !shouldPreviewBeVisible w capturable captured && w.MediaFrame.preview frame != 0 then
    pure (hidePreview w frame)
  else pure w

/-- Reconcile the preview of the frame with what should be visible, then update the guide. -/
def display (T : Three Mat) (w : World Mat) (fuel : Nat) (frame captured : Eid)
    (heldMediaTypes : Nat) : Except Fault (World Mat) := do
  let capturable ← displayCapturable w fuel frame
  let w1 ← displayPreview T w frame capturable captured
  displayGuide w1 frame capturable heldMediaTypes

/-- The union of the media-type masks of the entities. -/
def mediaTypesOf (w : World Mat) (entities : List Eid) : Except Fault Nat :=
  entities.foldlM (fun mask eid => do
    let m ← mediaTypeMaskFor w eid
    pure (mask ||| m)) 0

/-! ## One frame of `mediaFramesSystem` -/

/-- The value of `captured` at the head of the loop body:
`world.nid2eid.get(MediaFrame.capturedNid[frame]) || 0`. -/
def capturedOf (w : World Mat) (frame : Eid) : Eid :=
  (w.nid2eid (w.MediaFrame.capturedNid frame)).getD 0

/-- The value of `colliding` at the head of the loop body. -/
def collidingOf (w : World Mat) (frame : Eid) : Bool :=
  capturedOf w frame != 0 && isColliding w frame (capturedOf w frame)

/-- The value of `isFrameDeleting` at the head of the loop body. -/
def isFrameDeleting (w : World Mat) (frame : Eid) : Bool :=
  truthy (w.findAncestorWithDeleting frame)

/-- The condition of the first clause: re-snap. -/
def resnapCond (w : World Mat) (frame : Eid) : Bool :=
  capturedOf w frame != 0 && w.Owned (capturedOf w frame) && !w.Held (capturedOf w frame)
    && !isFrameDeleting w frame && collidingOf w frame

/-- The condition of the second clause: evict. -/
def evictCond (w : World Mat) (frame : Eid) : Bool :=
  (w.Owned frame && w.MediaFrame.capturedNid frame != 0
      && w.deletedNids (w.MediaFrame.capturedNid frame))
    || (capturedOf w frame != 0 && w.Owned (capturedOf w frame) && !collidingOf w frame)
    || isFrameDeleting w frame

/-- The condition of the third clause: stale reference cleanup. -/
def staleCond (w : World Mat) (frame : Eid) : Bool :=
  w.Owned frame && w.MediaFrame.capturedNid frame != 0 && capturedOf w frame == 0

/-- The two writes `NetworkedMediaFrame.capturedNid[frame] = 0` and
`NetworkedMediaFrame.scale[frame].set(zero)`; zero is stored exactly. -/
def clearCaptured (w : World Mat) (frame : Eid) : World Mat :=
  { w with NetworkedMediaFrame :=
    { capturedNid := Function.update w.NetworkedMediaFrame.capturedNid frame 0
      scale := Function.update w.NetworkedMediaFrame.scale frame Vec3.zero } }

/-- The disjunction `hasComponent(world, Owned, capturable) ||
(isOwnedByRet(world, capturable) && isFrameOwned)` of the fourth clause. -/
def ownershipStanding (w : World Mat) (frame capturable : Eid) : Except Fault Bool :=
  if w.Owned capturable then pure true
  else do
    let ret ← isOwnedByRet w capturable
    pure (ret && w.Owned frame)

/-- The guard of the capture inside the fourth clause, for a truthy `capturable`. -/
def captureGuard (w : World Mat) (frame capturable : Eid) : Except Fault Bool := do
  let standing ← ownershipStanding w frame capturable
  pure (standing && !w.Held capturable && !inOtherFrame w frame capturable)

/-- The body of the capture inside the fourth clause. The call
`tmpVec3.setFromMatrixScale(obj.matrixWorld).toArray(NetworkedMediaFrame.scale[frame])`
writes the world scale into the float32 array of the component, which rounds
each of the three numbers to binary32. -/
def capture (T : Three Mat) (w : World Mat) (frame capturable : Eid) : Except Fault (World Mat) := do
  let w1 := takeOwnership w frame
  let w2 := takeOwnership w1 capturable
  let w3 : World Mat := { w2 with NetworkedMediaFrame := { w2.NetworkedMediaFrame with
    capturedNid := Function.update w2.NetworkedMediaFrame.capturedNid frame
      (w2.Networked.id capturable) } }
  let obj ← deref (w3.eid2obj capturable)
  let w4 : World Mat := { w3 with NetworkedMediaFrame := { w3.NetworkedMediaFrame with
    scale := Function.update w3.NetworkedMediaFrame.scale frame
      (T.setFromMatrixScale (w3.objects obj).matrixWorld).toFloat32 } }
  let bounds ← getEntityBounds w4 capturable
  let w5 ← snapToFrame T w4 frame capturable bounds
  pure (updateRigidBodyOptions w5 capturable BodyType.kinematic)

/-- The fourth clause: new capture. -/
def newCapture (T : Three Mat) (w : World Mat) (fuel : Nat) (frame : Eid) :
    Except Fault (World Mat) := do
  let capturable ← getCapturableEntity w fuel frame
  if truthy capturable then do
    let ok ← captureGuard w frame (capturable.getD 0)
    if ok then capture T w frame (capturable.getD 0) else pure w
  else pure w

/-- The `if / else if` chain of the loop body: re-snap, evict, stale cleanup, new capture. -/
def arbitrate (T : Three Mat) (w : World Mat) (fuel : Nat) (frame : Eid) :
    Except Fault (World Mat) :=
  if resnapCond w frame then do
    let bounds ← getEntityBounds w (capturedOf w frame)
    let w1 ← snapToFrame T w frame (capturedOf w frame) bounds
    pure (updateRigidBodyOptions w1 (capturedOf w frame) BodyType.kinematic)
  else if evictCond w frame then
    pure (clearCaptured (takeOwnership w frame) frame)
  else if staleCond w frame then
    pure (clearCaptured w frame)
  else if w.NetworkedMediaFrame.capturedNid frame = 0 then
    newCapture T w fuel frame
  else pure w

/-- The reconciliation step: when the confirmed id differs from the local one
and the locally captured entity exists and is owned, restore its scale and make
it dynamic. `captured` and `isCapturedOwned` are the values from the head of the
loop body. -/
def reconcile (T : Three Mat) (w : World Mat) (frame captured : Eid) (isCapturedOwned : Bool) :
    Except Fault (World Mat) :=
  if w.NetworkedMediaFrame.capturedNid frame != w.MediaFrame.capturedNid frame
      && captured != 0 && w.entityExists captured && isCapturedOwned then do
    let w1 ← setMatrixScale T w (w.eid2obj captured) (w.MediaFrame.scale frame)
    pure (updateBodyOptions w1 captured BodyType.dynamic)
  else pure w

/-- The two writes that copy the confirmed id and scale into the local fields. The scale is
copied with `.set` from one float32 array of a component into another, which changes no
number. -/
def syncLocal (w : World Mat) (frame : Eid) : World Mat :=
  { w with MediaFrame := { w.MediaFrame with
    capturedNid := Function.update w.MediaFrame.capturedNid frame
      (w.NetworkedMediaFrame.capturedNid frame)
    scale := Function.update w.MediaFrame.scale frame (w.NetworkedMediaFrame.scale frame) } }

/-- The body of the `for` loop over the frames. The call `frame2mixer.forEach(mixer.update)`
advances animation clocks only and changes none of the state kept here. -/
def processFrame (T : Three Mat) (fuel : Nat) (heldMediaTypes : Nat) (w : World Mat)
    (frame : Eid) : Except Fault (World Mat) := do
  let captured := capturedOf w frame
  let isCapturedOwned := w.Owned captured
  let w1 ← arbitrate T w fuel frame
  let w2 ← reconcile T w1 frame captured isCapturedOwned
  let w3 := syncLocal w2 frame
  display T w3 fuel frame captured heldMediaTypes

/-! ## The watchdog and the system -/

/-- The callback the watchdog timer runs for a frame. -/
def timeoutCallback (w : World Mat) (eid : Eid) : World Mat :=
  let w1 := if w.Networked.owner eid = w.reticulumSid then takeSoftOwnership w eid else w
  { w1 with takeOwnershipOnTimeout := Function.update w1.takeOwnershipOnTimeout eid none }

/-- The scheduler fires the pending timer `id`: its callback runs and the timer is spent. -/
def fireTimeout (w : World Mat) (id : Nat) : World Mat :=
  match w.pendingTimeouts.find? (fun t => t.1 == id) with
  | none => w
  | some t =>
    timeoutCallback { w with pendingTimeouts := w.pendingTimeouts.filter (fun u => u.1 != id) } t.2

/-- The body of `enteredMediaFramesQuery(world).forEach`. -/
def onEntered (w : World Mat) (eid : Eid) : Except Fault (World Mat) := do
  let w1 : World Mat :=
    if w.Networked.owner eid = w.reticulumSid then
      { w with
        nextTimeout := w.nextTimeout + 1
        pendingTimeouts := w.pendingTimeouts ++ [(w.nextTimeout, eid)]
        takeOwnershipOnTimeout := Function.update w.takeOwnershipOnTimeout eid (some w.nextTimeout) }
    else w
  let guide := w1.eid2obj (w1.MediaFrame.guide eid)
  let frameObj ← deref (w1.eid2obj eid)
  match guide with
  | some g =>
    if g = frameObj then pure w1
    else
      let guideNew : Object3D Mat := { w1.objects g with parent := some frameObj }
      pure { w1 with objects := Function.update w1.objects g guideNew }
  | none => pure w1

/-- The body of `exitedMediaFramesQuery(world).forEach`. -/
def onExited (w : World Mat) (eid : Eid) : World Mat :=
  match w.takeOwnershipOnTimeout eid with
  | some timeout =>
    if timeout != 0 then
      { w with
        pendingTimeouts := w.pendingTimeouts.filter (fun u => u.1 != timeout)
        takeOwnershipOnTimeout := Function.update w.takeOwnershipOnTimeout eid none }
    else w
  | none => w

/-- One run of the system: entered frames, exited frames, then every frame in query order. -/
def mediaFramesSystem (T : Three Mat) (w : World Mat) (fuel : Nat) : Except Fault (World Mat) := do
  let w1 ← w.enteredMediaFramesQuery.foldlM onEntered w
  let w2 := w1.exitedMediaFramesQuery.foldl onExited w1
  let heldMediaTypes ← mediaTypesOf w2 w2.heldQuery
  w2.mediaFramesQuery.foldlM (processFrame T fuel heldMediaTypes) w2

/-! ## Auxiliary definitions for the statements -/

/-- Equality of results is decidable when equality of values and faults is. -/
instance exceptDecEq {ε α : Type} [DecidableEq ε] [DecidableEq α] : DecidableEq (Except ε α)
  | .ok a, .ok b =>
    if h : a = b then isTrue (by rw [h]) else isFalse (fun e => h (Except.ok.inj e))
  | .error a, .error b =>
    if h : a = b then isTrue (by rw [h]) else isFalse (fun e => h (Except.error.inj e))
  | .ok _, .error _ => isFalse (fun e => by cases e)
  | .error _, .ok _ => isFalse (fun e => by cases e)

namespace JSNum

/-- The JavaScript comparison `<=` on numbers: false as soon as one side is NaN. -/
def le : JSNum → JSNum → Bool
  | nan, _ => false
  | _, nan => false
  | negInf, _ => true
  | _, posInf => true
  | posInf, _ => false
  | _, negInf => false
  | fin x, fin y => decide (x ≤ y)

end JSNum

/-- A number that is finite or `+Infinity`. -/
def JSNum.Upper (a : JSNum) : Prop := (∃ r, a = JSNum.fin r) ∨ a = JSNum.posInf

/-- The world in which object `o` has world matrix `m` and nothing else differs. -/
def withMatrix {Mat : Type} (w : World Mat) (o : ObjId) (m : Mat) : World Mat :=
  { w with objects := Function.update w.objects o { w.objects o with matrixWorld := m } }

/-- A postcondition of a run that returns. -/
def holdsAfter {α : Type} (r : Except Fault α) (P : α → Prop) : Prop :=
  match r with
  | .ok a => P a
  | .error _ => False

instance holdsAfterDecidable {α : Type} (r : Except Fault α) (P : α → Prop) [DecidablePred P] :
    Decidable (holdsAfter r P) := by
  unfold holdsAfter
  cases r <;> infer_instance

/-- The scene-graph relation "`a` is reached from `b` by one or more parent steps". -/
inductive IsProperAncestor {Mat : Type} (objects : ObjId → Object3D Mat) (a : ObjId) :
    ObjId → Prop where
  | parent {b : ObjId} : (objects b).parent = some a → IsProperAncestor objects a b
  | step {b p : ObjId} : (objects b).parent = some p → IsProperAncestor objects a p →
      IsProperAncestor objects a b

/-- The parent chain that starts at `start` ends within `n` steps. -/
def chainWithin {Mat : Type} (objects : ObjId → Object3D Mat) : Nat → Option ObjId → Bool
  | _, none => true
  | 0, some _ => false
  | n + 1, some p => chainWithin objects n (objects p).parent

/-- The four eligibility conditions of a colliding body `collision` whose object carries
entity `e`: the frame accepts its media type, it is not loading, no other frame lists it, and
its object is not an ancestor of the frame's object. -/
def Eligible {Mat : Type} (w : World Mat) (frame : Eid) (collision : Uuid) (e : Eid) : Prop :=
  ∃ bodyData o mask fo, w.physicsSystem.bodyUuidToData collision = some bodyData
    ∧ bodyData.object3D = some o ∧ (w.objects o).eid = e
    ∧ mediaTypeMaskFor w e = .ok mask ∧ w.MediaFrame.mediaType frame &&& mask ≠ 0
    ∧ w.MediaLoading e = false ∧ inOtherFrame w frame e = false
    ∧ w.eid2obj frame = some fo ∧ ¬ IsProperAncestor w.objects o fo

/-- Everything `display` may change: `w1` is `w` except for the scene-graph objects, the
allocation counters, the entity store entries of a new preview entity, the mixer map and the
two preview fields of `MediaFrame`; the world matrix of every object that existed is kept. -/
def DisplayShape {Mat : Type} (w w1 : World Mat) : Prop :=
  ∃ (objs : ObjId → Object3D Mat) (nextObj : ObjId) (mixer : Eid → Bool) (nextEid : Eid)
    (entityExists : Eid → Bool) (eid2obj : Eid → Option ObjId) (preview : Eid → Eid)
    (previewingNid : Eid → Nid),
    w1 = { w with
           objects := objs
           nextObj := nextObj
           frame2mixer := mixer
           nextEid := nextEid
           entityExists := entityExists
           eid2obj := eid2obj
           MediaFrame := { w.MediaFrame with preview := preview, previewingNid := previewingNid } }
    ∧ ∀ o, o ≠ w.nextObj → (objs o).matrixWorld = (w.objects o).matrixWorld

/-- The world after the bookkeeping writes of a capture, before the candidate is snapped:
the two ownership requests, the confirmed id and the recorded scale. -/
def recordCapture {Mat : Type} (w : World Mat) (frame capturable : Eid) (scale : Vec3) :
    World Mat :=
  { w with
    ownershipClaims := w.ownershipClaims ++ [frame] ++ [capturable]
    NetworkedMediaFrame :=
      { capturedNid := Function.update w.NetworkedMediaFrame.capturedNid frame
          (w.Networked.id capturable)
        scale := Function.update w.NetworkedMediaFrame.scale frame scale } }

/-- Everything the clause chain and the reconciliation step may change: objects, physics
state, ownership requests, and the confirmed id and scale of the frame being processed. -/
def ArbitrateShape {Mat : Type} (w w1 : World Mat) (frame : Eid) : Prop :=
  ∃ (objs : ObjId → Object3D Mat) (ps : PhysicsSystem) (claims : List Eid)
    (nmf : NetworkedMediaFrameStore),
    w1 = { w with
           objects := objs
           physicsSystem := ps
           ownershipClaims := claims
           NetworkedMediaFrame := nmf }
    ∧ ∀ g, g ≠ frame → nmf.capturedNid g = w.NetworkedMediaFrame.capturedNid g
        ∧ nmf.scale g = w.NetworkedMediaFrame.scale g

/-- Everything the two `forEach` loops over entered and exited frames may change: the watchdog
timers and the scene-graph objects. -/
def PreludeShape {Mat : Type} (w w1 : World Mat) : Prop :=
  ∃ (objs : ObjId → Object3D Mat) (nextTimeout : Nat) (pending : List (Nat × Eid))
    (timeouts : Eid → Option Nat),
    w1 = { w with
           objects := objs
           nextTimeout := nextTimeout
           pendingTimeouts := pending
           takeOwnershipOnTimeout := timeouts }

/-! ### Concrete worlds -/

/-- A stand-in for three.js matrices: a matrix is its position, rotation and scale. -/
abbrev TRS := Vec3 × Nat × Vec3

/-- The matrix operations on `TRS`. -/
def trsThree : Three TRS where
  Quat := Nat
  identity := (Vec3.zero, 0, ⟨.fin 1, .fin 1, .fin 1⟩)
  decompose := fun m => m
  compose := fun p q s => (p, q, s)
  setFromMatrixScale := fun m => m.2.2

/-- The vector with the given finite components. -/
def v3 (a b c : ℚ) : Vec3 := ⟨.fin a, .fin b, .fin c⟩

/-- A room with two image frames (entities 1 and 5, guide 3) and one image object (entity 2,
network id 42, media child 4, content bounds 2 x 1 x 1) that touches frame 1. The object is
locally owned and not held; nothing is captured. -/
def demoWorld : World TRS where
  nextEid := 100
  entityExists := fun e => decide (e ∈ [1, 2, 3, 4, 5])
  AEntity := fun _ => false
  Owned := fun e => decide (e = 2)
  Held := fun _ => false
  MediaLoading := fun _ => false
  GLTFModel := fun _ => false
  MediaVideo := fun _ => false
  MediaImage := fun e => decide (e = 4)
  MediaPDF := fun _ => false
  MediaFrame :=
    { mediaType := fun _ => 2, bounds := fun _ => v3 1 1 1, guide := fun _ => 3,
      preview := fun _ => 0, previewingNid := fun _ => 0, capturedNid := fun _ => 0,
      scale := fun _ => Vec3.zero }
  NetworkedMediaFrame := { capturedNid := fun _ => 0, scale := fun _ => Vec3.zero }
  Networked := { id := fun e => if e = 2 then 42 else 0, owner := fun _ => 7 }
  Rigidbody := { bodyId := fun e => e + 10 }
  MediaType := { MODEL := 1, VIDEO := 4, IMAGE := 2, PDF := 8 }
  mediaFramesQuery := [1]
  enteredMediaFramesQuery := []
  exitedMediaFramesQuery := []
  heldQuery := []
  nid2eid := fun n => if n = 42 then some 2 else none
  deletedNids := fun _ => false
  eid2obj := fun e => if e ∈ [1, 2, 3, 4, 5] then some e else none
  objects := fun o =>
    { parent := if o = 0 then none else some 0, eid := o, el := none,
      matrixWorld := (v3 o 0 0, o, v3 3 3 3), visible := false, color := 0 }
  nextObj := 100
  scene := 0
  findChildWithMediaLoaded := fun e => if e = 2 then some 4 else none
  findAncestorWithDeleting := fun _ => none
  MediaContentBounds := fun e => if e = 4 then some (v3 2 1 1) else none
  reticulumSid := 9
  ownershipClaims := []
  softOwnershipClaims := []
  physicsSystem :=
    { getCollisions := fun b => if b = 11 then [12] else []
      bodyUuidToData := fun u => if u = 12 then some ⟨some 2⟩ else none
      bodyType := fun _ => BodyType.dynamic }
  frame2mixer := fun _ => false
  takeOwnershipOnTimeout := fun _ => none
  nextTimeout := 1
  pendingTimeouts := []

/-- The demo room in which the image object is parented to frame 1. -/
def childWorld : World TRS :=
  { demoWorld with
    objects := fun o =>
      { parent := if o = 0 then none else if o = 2 then some 1 else some 0, eid := o, el := none,
        matrixWorld := (v3 o 0 0, o, v3 3 3 3), visible := false, color := 0 } }

/-- The demo room seen by a participant that has just learnt that frame 5 holds the image
object (confirmed id 42, local id still 0) while the object touches frame 1. -/
def raceWorld : World TRS :=
  { demoWorld with
    mediaFramesQuery := [1, 5]
    NetworkedMediaFrame :=
      { capturedNid := fun f => if f = 5 then 42 else 0, scale := fun _ => Vec3.zero } }

/-- The demo room in which the image object is owned by another participant. -/
def unownedWorld : World TRS :=
  { demoWorld with Owned := fun _ => false }

/-- The demo room in which every object has the world scale 0.1 on each axis, that is the
binary64 number nearest to one tenth. -/
def tenthWorld : World TRS :=
  { demoWorld with
    objects := fun o =>
      { parent := if o = 0 then none else some 0, eid := o, el := none,
        matrixWorld := (v3 o 0 0, o,
          v3 (3602879701896397 / 36028797018963968) (3602879701896397 / 36028797018963968)
            (3602879701896397 / 36028797018963968)),
        visible := false, color := 0 } }

/-- The demo room in which frame 1, not locally owned, lists the unresolvable network id 77. -/
def staleWorld : World TRS :=
  { demoWorld with
    MediaFrame := { demoWorld.MediaFrame with capturedNid := fun f => if f = 1 then 77 else 0 }
    NetworkedMediaFrame :=
      { capturedNid := fun f => if f = 1 then 77 else 0, scale := fun _ => Vec3.zero } }

/-- The room `staleWorld` with frame 1 locally owned. -/
def staleOwnedWorld : World TRS :=
  { staleWorld with Owned := fun e => decide (e = 1) }

/-- The demo room after frame 1 captured the image object (local id 42, remembered scale
2 x 2 x 2) and the confirmed id was overwritten to 0 from outside. -/
def releaseWorld : World TRS :=
  { demoWorld with
    MediaFrame := { demoWorld.MediaFrame with
      capturedNid := fun f => if f = 1 then 42 else 0
      scale := fun f => if f = 1 then v3 2 2 2 else Vec3.zero } }

/-- The room `releaseWorld` with both frames in the query, the image object touching frame 1
only. -/
def releaseTwoWorld : World TRS :=
  { releaseWorld with mediaFramesQuery := [1, 5] }

/-- The room `releaseWorld` with both frames in the query and the image object touching both
of them. -/
def releaseBothWorld : World TRS :=
  { releaseWorld with
    mediaFramesQuery := [1, 5]
    physicsSystem :=
      { demoWorld.physicsSystem with
        getCollisions := fun b => if b = 11 ∨ b = 15 then [12] else [] } }

/-- The demo room with the image object captured by frame 1 and no longer touching it. -/
def evictWorld : World TRS :=
  { demoWorld with
    MediaFrame := { demoWorld.MediaFrame with
      capturedNid := fun f => if f = 1 then 42 else 0
      scale := fun f => if f = 1 then v3 2 2 2 else Vec3.zero }
    NetworkedMediaFrame :=
      { capturedNid := fun f => if f = 1 then 42 else 0
        scale := fun f => if f = 1 then v3 2 2 2 else Vec3.zero }
    physicsSystem := { demoWorld.physicsSystem with getCollisions := fun _ => [] } }

/-- The world in which the frame lists `captured` as its local captured id and `previewing` as
its previewing id, and nothing else differs. -/
def withClaimedIds {Mat : Type} (w : World Mat) (frame : Eid) (captured previewing : Nid) :
    World Mat :=
  { w with MediaFrame := { w.MediaFrame with
    capturedNid := Function.update w.MediaFrame.capturedNid frame captured
    previewingNid := Function.update w.MediaFrame.previewingNid frame previewing } }

/-- A run that does not return but fails with the given fault. -/
def failsWith {α : Type} (r : Except Fault α) (f : Fault) : Prop :=
  match r with
  | .ok _ => False
  | .error e => e = f

instance failsWithDecidable {α : Type} (r : Except Fault α) (f : Fault) :
    Decidable (failsWith r f) := by
  unfold failsWith
  cases r <;> infer_instance

/-- What happens to the system over time, as far as the watchdog is concerned: a run of the
system in which the enter and exit queries report the given frames, or the scheduler firing a
pending timer. -/
inductive WatchdogEvent where
  | tick (entered exited : List Eid)
  | timeout (id : Nat)
deriving DecidableEq, Repr

/-- One event applied to the world. -/
def runEvent {Mat : Type} (T : Three Mat) (fuel : Nat) (w : World Mat) :
    WatchdogEvent → Except Fault (World Mat)
  | .tick entered exited =>
    mediaFramesSystem T
      { w with enteredMediaFramesQuery := entered, exitedMediaFramesQuery := exited } fuel
  | .timeout id => pure (fireTimeout w id)

/-- A sequence of events applied to the world, in order. -/
def runEvents {Mat : Type} (T : Three Mat) (fuel : Nat) (w : World Mat)
    (events : List WatchdogEvent) : Except Fault (World Mat) :=
  events.foldlM (runEvent T fuel) w

/-- The demo room in which the content bounds of the image object are not known. -/
def noBoundsWorld : World TRS :=
  { demoWorld with MediaContentBounds := fun _ => none }

/-- The demo room with nothing touching the frames and every entity owned by the fallback
identity (session id 9). -/
def watchdogWorld : World TRS :=
  { demoWorld with
    Networked := { id := demoWorld.Networked.id, owner := fun _ => 9 }
    physicsSystem := { demoWorld.physicsSystem with getCollisions := fun _ => [] } }

/-- The demo room with the image object captured by frame 1 and still touching it, frame 1
locally owned, and network id 42 in the deleted set. -/
def resnapDeletedWorld : World TRS :=
  { demoWorld with
    Owned := fun e => decide (e = 1 ∨ e = 2)
    deletedNids := fun n => decide (n = 42)
    MediaFrame := { demoWorld.MediaFrame with
      capturedNid := fun f => if f = 1 then 42 else 0
      scale := fun f => if f = 1 then v3 2 2 2 else Vec3.zero }
    NetworkedMediaFrame :=
      { capturedNid := fun f => if f = 1 then 42 else 0
        scale := fun f => if f = 1 then v3 2 2 2 else Vec3.zero } }

/-- The visibility predicate of `display`, on the state and the `captured` entity it receives:
the frame's captured id is zero and `getCapturableEntity` yields a candidate that is held, or
the captured entity is non-zero and held. -/
def VisibilityPredicate {Mat : Type} (w : World Mat) (fuel : Nat) (frame captured : Eid) : Prop :=
  (w.MediaFrame.capturedNid frame = 0
      ∧ ∃ e, getCapturableEntity w fuel frame = .ok (some e) ∧ e ≠ 0 ∧ w.Held e = true)
    ∨ (captured ≠ 0 ∧ w.Held captured = true)

/-- The demo room in which the image object is held by a participant. -/
def hoverWorld : World TRS :=
  { demoWorld with Held := fun e => decide (e = 2), heldQuery := [2] }

/-- A room in which frame 1 shows a preview (entity 6) made for the image object 2 (network id
42), which has since moved away, while another image object (entity 7, network id 43, media
child 8) is held and touches the frame. -/
def swapWorld : World TRS :=
  { demoWorld with
    entityExists := fun e => decide (e ∈ [1, 2, 3, 4, 5, 6, 7, 8])
    Held := fun e => decide (e = 7)
    heldQuery := [7]
    MediaImage := fun e => decide (e = 4 ∨ e = 8)
    Networked := { id := fun e => if e = 2 then 42 else if e = 7 then 43 else 0,
                   owner := fun _ => 7 }
    MediaFrame := { demoWorld.MediaFrame with
      preview := fun f => if f = 1 then 6 else 0
      previewingNid := fun f => if f = 1 then 42 else 0 }
    nid2eid := fun n => if n = 42 then some 2 else if n = 43 then some 7 else none
    eid2obj := fun e => if e ∈ [1, 2, 3, 4, 5, 6, 7, 8] then some e else none
    findChildWithMediaLoaded := fun e => if e = 2 then some 4 else if e = 7 then some 8 else none
    MediaContentBounds := fun e => if e = 4 ∨ e = 8 then some (v3 2 1 1) else none
    physicsSystem :=
      { getCollisions := fun b => if b = 11 then [17] else []
        bodyUuidToData := fun u => if u = 17 then some ⟨some 7⟩ else none
        bodyType := fun _ => BodyType.dynamic } }

/-- The world after a participant lets go of entity `e`: the entity is no longer held. -/
def releaseHeld {Mat : Type} (w : World Mat) (e : Eid) : World Mat :=
  { w with Held := Function.update w.Held e false }

/-- The room `unownedWorld` with frame 1 being torn down. -/
def teardownWorld : World TRS :=
  { unownedWorld with findAncestorWithDeleting := fun e => if e = 1 then some 1 else none }

/-- The demo room with the image object captured by frame 1 (confirmed and local id 42,
remembered scale 2 x 2 x 2), still touching it, and held by a participant. -/
def graspWorld : World TRS :=
  { demoWorld with
    Held := fun e => decide (e = 2)
    heldQuery := [2]
    MediaFrame := { demoWorld.MediaFrame with
      capturedNid := fun f => if f = 1 then 42 else 0
      scale := fun f => if f = 1 then v3 2 2 2 else Vec3.zero }
    NetworkedMediaFrame :=
      { capturedNid := fun f => if f = 1 then 42 else 0
        scale := fun f => if f = 1 then v3 2 2 2 else Vec3.zero } }

/-- The demo room seen by a participant that owns neither frame 1 nor the image object and has
just learnt that frame 1 holds the object: confirmed id 42 and scale 2 x 2 x 2, local id still
0. -/
def passiveWorld : World TRS :=
  { unownedWorld with
    NetworkedMediaFrame :=
      { capturedNid := fun f => if f = 1 then 42 else 0
        scale := fun f => if f = 1 then v3 2 2 2 else Vec3.zero } }

/-- The part of a run of the system that comes before the pass of the loop body for the frame
that follows `pre` in the query: the two `forEach` loops, the held media types, and the passes
for the frames of `pre`. It yields the state in which the next pass starts, and the held media
types. -/
def runBefore {Mat : Type} (T : Three Mat) (w : World Mat) (fuel : Nat) (pre : List Eid) :
    Except Fault (World Mat × Nat) := do
  let w1 ← w.enteredMediaFramesQuery.foldlM onEntered w
  let w2 := w1.exitedMediaFramesQuery.foldl onExited w1
  let heldMediaTypes ← mediaTypesOf w2 w2.heldQuery
  let wF ← pre.foldlM (processFrame T fuel heldMediaTypes) w2
  pure (wF, heldMediaTypes)

/-- None of the passes of the loop body for the given frames, run in order from the given
state, has `target` as its captured entity when it starts, or gets `target` from
`getCapturableEntity` when it starts. -/
def LaterPassesLeave {Mat : Type} (T : Three Mat) (fuel heldMediaTypes : Nat) (target : Eid) :
    List Eid → World Mat → Prop
  | [], _ => True
  | g :: rest, u =>
    capturedOf u g ≠ target ∧ getCapturableEntity u fuel g ≠ .ok (some target)
      ∧ ∀ u1, processFrame T fuel heldMediaTypes u g = .ok u1 →
          LaterPassesLeave T fuel heldMediaTypes target rest u1
/-! ## Lemmas -/

theorem fl_of_pos {q : ℚ} (hq : 0 < q) : (∃ r, fl q = JSNum.fin r) ∨ fl q = JSNum.posInf := by
  unfold fl
  rw [if_neg (ne_of_gt hq)]
  simp only [hq, if_true]
  split
  · exact Or.inr rfl
  · exact Or.inl ⟨_, rfl⟩

theorem div_of_pos {x y : ℚ} (hx : 0 < x) (hy : 0 < y) :
    (∃ r, (JSNum.fin x).div (JSNum.fin y) = JSNum.fin r)
      ∨ (JSNum.fin x).div (JSNum.fin y) = JSNum.posInf := by
  have h : (JSNum.fin x).div (JSNum.fin y) = fl (x / y) := by
    simp [JSNum.div, ne_of_gt hy]
  rw [h]
  exact fl_of_pos (div_pos hx hy)

theorem min2_upper {a b : JSNum} (ha : a.Upper) (hb : b.Upper) :
    (JSNum.min2 a b).Upper ∧ (JSNum.min2 a b = a ∨ JSNum.min2 a b = b)
      ∧ (JSNum.min2 a b).le a = true ∧ (JSNum.min2 a b).le b = true := by
  rcases ha with ⟨x, rfl⟩ | rfl <;> rcases hb with ⟨y, rfl⟩ | rfl
  · by_cases h : x ≤ y
    · simp [JSNum.min2, h, JSNum.le, JSNum.Upper]
    · have h2 : y ≤ x := le_of_lt (not_le.mp h)
      simp [JSNum.min2, h, h2, JSNum.le, JSNum.Upper]
  · simp [JSNum.min2, JSNum.le, JSNum.Upper]
  · simp [JSNum.min2, JSNum.le, JSNum.Upper]
  · simp [JSNum.min2, JSNum.le, JSNum.Upper]

theorem le_trans_upper {a b c : JSNum} (ha : a.Upper) (hb : b.Upper) (hc : c.Upper)
    (hab : a.le b = true) (hbc : b.le c = true) : a.le c = true := by
  rcases ha with ⟨x, rfl⟩ | rfl <;> rcases hb with ⟨y, rfl⟩ | rfl <;>
    rcases hc with ⟨z, rfl⟩ | rfl <;> simp_all [JSNum.le]
  exact le_trans hab hbc

theorem mathMin_three {a b c : JSNum} (ha : a.Upper) (hb : b.Upper) (hc : c.Upper) :
    (mathMin [a, b, c] = a ∨ mathMin [a, b, c] = b ∨ mathMin [a, b, c] = c)
      ∧ (mathMin [a, b, c]).le a = true ∧ (mathMin [a, b, c]).le b = true
      ∧ (mathMin [a, b, c]).le c = true := by
  have h0 : JSNum.min2 JSNum.posInf a = a := by
    rcases ha with ⟨x, rfl⟩ | rfl <;> rfl
  have e : mathMin [a, b, c] = JSNum.min2 (JSNum.min2 a b) c := by
    simp [mathMin, List.foldl, h0]
  obtain ⟨u1, c1, l1, l2⟩ := min2_upper ha hb
  obtain ⟨u2, c2, l3, l4⟩ := min2_upper u1 hc
  rw [e]
  refine ⟨?_, le_trans_upper u2 u1 ha l3 l1, le_trans_upper u2 u1 hb l3 l2, l4⟩
  rcases c2 with h | h
  · rcases c1 with h1 | h1
    · exact Or.inl (h.trans h1)
    · exact Or.inr (Or.inl (h.trans h1))
  · exact Or.inr (Or.inr h)

theorem mathMin_three_fin (x y z : ℚ) :
    mathMin [JSNum.fin x, JSNum.fin y, JSNum.fin z] = JSNum.fin (min (min x y) z) := by
  simp only [mathMin, List.foldl, JSNum.min2]
  by_cases h : x ≤ y
  · by_cases h2 : x ≤ z
    · simp [h, h2]
    · simp [h, h2, le_of_lt (not_le.mp h2)]
  · by_cases h2 : y ≤ z
    · simp [h, h2, le_of_lt (not_le.mp h)]
    · simp [h, h2, le_of_lt (not_le.mp h), le_of_lt (not_le.mp h2)]

theorem deref_eq_ok {α : Type} (o : Option α) (a : α) : deref o = .ok a ↔ o = some a := by
  cases o <;> simp [deref, pure, Except.pure, throw, throwThe, MonadExceptOf.throw]

theorem bind_eq_ok {α β : Type} (x : Except Fault α) (f : α → Except Fault β) (b : β) :
    (x >>= f) = .ok b ↔ ∃ a, x = .ok a ∧ f a = .ok b := by
  cases x <;> simp [bind, Except.bind]

theorem pure_eq_ok {α : Type} (a b : α) : (pure a : Except Fault α) = .ok b ↔ a = b := by
  simp [pure, Except.pure]

theorem setMatrixWorld_some (w : World Mat) (o : ObjId) (m : Mat) :
    setMatrixWorld w (some o) m
      = .ok (withMatrix w o m) :=
  rfl

theorem setMatrixWorld_eq_ok (w w1 : World Mat) (obj : Option ObjId) (m : Mat) :
    setMatrixWorld w obj m = .ok w1 ↔ ∃ o, obj = some o ∧
      w1 = withMatrix w o m := by
  cases obj with
  | none => simp [setMatrixWorld, deref, bind, Except.bind, throw, throwThe, MonadExceptOf.throw]
  | some o =>
    rw [setMatrixWorld_some]
    constructor
    · intro h
      exact ⟨o, rfl, (Except.ok.inj h).symm⟩
    · rintro ⟨o2, h1, h2⟩
      cases h1
      rw [h2]

theorem snapToFrame_eq_ok (T : Three Mat) (w w1 : World Mat) (frame target : Eid)
    (contentBounds : Option Vec3) :
    snapToFrame T w frame target contentBounds = .ok w1 ↔
      ∃ f t b, w.eid2obj frame = some f ∧ w.eid2obj target = some t ∧ contentBounds = some b ∧
        w1 = withMatrix w t (snapMatrix T (w.objects f).matrixWorld
              (mathMin [(w.MediaFrame.bounds frame).x.div b.x, (w.MediaFrame.bounds frame).y.div b.y,
                (w.MediaFrame.bounds frame).z.div b.z])) := by
  unfold snapToFrame scaleForAspectFit
  simp only [bind_eq_ok, deref_eq_ok, pure_eq_ok, setMatrixWorld_eq_ok]
  constructor
  · rintro ⟨f, hf, s, ⟨b, hb, rfl⟩, t, ht, rfl⟩
    exact ⟨f, t, b, hf, ht, hb, rfl⟩
  · rintro ⟨f, t, b, hf, ht, hb, rfl⟩
    exact ⟨f, hf, _, ⟨b, hb, rfl⟩, t, ht, rfl⟩

theorem withMatrix_idem (w : World Mat) (o : ObjId) (m m2 : Mat) :
    withMatrix (withMatrix w o m) o m2 = withMatrix w o m2 := by
  simp [withMatrix]

/-! ### The ancestor walk -/

/-- The walk that starts at `start` meets `a`. -/
theorem isAncestorLoop_sound (objects : ObjId → Object3D Mat) (a : ObjId) :
    ∀ (fuel : Nat) (start : Option ObjId) (r : Bool),
      isAncestorLoop objects a fuel start = .ok r →
      (r = true ↔ ∃ p, start = some p ∧ (p = a ∨ IsProperAncestor objects a p)) := by
  intro fuel
  induction fuel with
  | zero =>
    intro start r h
    cases start with
    | none =>
      simp only [isAncestorLoop, pure_eq_ok] at h
      subst h
      simp
    | some p => simp [isAncestorLoop, throw, throwThe, MonadExceptOf.throw] at h
  | succ n ih =>
    intro start r h
    cases start with
    | none =>
      simp only [isAncestorLoop, pure_eq_ok] at h
      subst h
      simp
    | some p =>
      simp only [isAncestorLoop] at h
      by_cases hp : p = a
      · rw [if_pos hp, pure_eq_ok] at h
        subst h
        simp [hp]
      · rw [if_neg hp] at h
        rw [ih _ _ h]
        constructor
        · rintro ⟨q, hq, hq2⟩
          refine ⟨p, rfl, Or.inr ?_⟩
          rcases hq2 with rfl | hq2
          · exact IsProperAncestor.parent hq
          · exact IsProperAncestor.step hq hq2
        · rintro ⟨q, hq, hq2⟩
          cases hq
          rcases hq2 with hq2 | hq2
          · exact absurd hq2 hp
          · cases hq2 with
            | parent h1 => exact ⟨a, h1, Or.inl rfl⟩
            | step h1 h2 => exact ⟨_, h1, Or.inr h2⟩

theorem isProperAncestor_iff (objects : ObjId → Object3D Mat) (a b : ObjId) :
    IsProperAncestor objects a b ↔
      ∃ p, (objects b).parent = some p ∧ (p = a ∨ IsProperAncestor objects a p) := by
  constructor
  · intro h
    cases h with
    | parent h1 => exact ⟨a, h1, Or.inl rfl⟩
    | step h1 h2 => exact ⟨_, h1, Or.inr h2⟩
  · rintro ⟨p, hp, rfl | h⟩
    · exact IsProperAncestor.parent hp
    · exact IsProperAncestor.step hp h

theorem isAncestor_sound (w : World Mat) (fuel : Nat) (a b : ObjId) (r : Bool)
    (h : isAncestor w fuel a b = .ok r) : r = true ↔ IsProperAncestor w.objects a b := by
  rw [isProperAncestor_iff]
  exact isAncestorLoop_sound w.objects a fuel _ r h

theorem isAncestorLoop_total (objects : ObjId → Object3D Mat) (a : ObjId) :
    ∀ (fuel : Nat) (start : Option ObjId), chainWithin objects fuel start = true →
      ∃ r, isAncestorLoop objects a fuel start = .ok r := by
  intro fuel
  induction fuel with
  | zero =>
    intro start h
    cases start with
    | none => exact ⟨false, rfl⟩
    | some p => simp [chainWithin] at h
  | succ n ih =>
    intro start h
    cases start with
    | none => exact ⟨false, rfl⟩
    | some p =>
      simp only [chainWithin] at h
      simp only [isAncestorLoop]
      by_cases hp : p = a
      · exact ⟨true, by rw [if_pos hp]; rfl⟩
      · rw [if_neg hp]
        exact ih _ h

/-! ### The capturable-entity query -/

theorem getCapturableEntityLoop_cons_ok (w : World Mat) (fuel : Nat) (frame : Eid)
    (c : Uuid) (rest : List Uuid) (r : Option Eid)
    (h : getCapturableEntityLoop w fuel frame (c :: rest) = .ok r) :
    ∃ bodyData o mask, w.physicsSystem.bodyUuidToData c = some bodyData
      ∧ bodyData.object3D = some o ∧ mediaTypeMaskFor w (w.objects o).eid = .ok mask
      ∧ ((w.MediaFrame.mediaType frame &&& mask ≠ 0 ∧ w.MediaLoading (w.objects o).eid = false
            ∧ inOtherFrame w frame (w.objects o).eid = false
            ∧ ∃ fo anc, w.eid2obj frame = some fo ∧ isAncestor w fuel o fo = .ok anc
              ∧ ((anc = false ∧ r = some (w.objects o).eid)
                ∨ (anc = true ∧ getCapturableEntityLoop w fuel frame rest = .ok r)))
          ∨ (¬ (w.MediaFrame.mediaType frame &&& mask ≠ 0
                ∧ w.MediaLoading (w.objects o).eid = false
                ∧ inOtherFrame w frame (w.objects o).eid = false)
              ∧ getCapturableEntityLoop w fuel frame rest = .ok r)) := by
  simp only [getCapturableEntityLoop, bind_eq_ok, deref_eq_ok] at h
  obtain ⟨bd, hbd, o, ho, mask, hmask, h⟩ := h
  refine ⟨bd, o, mask, hbd, ho, hmask, ?_⟩
  by_cases hc : w.MediaFrame.mediaType frame &&& mask ≠ 0
      ∧ w.MediaLoading (w.objects o).eid = false ∧ inOtherFrame w frame (w.objects o).eid = false
  · rw [if_pos hc] at h
    simp only [bind_eq_ok, deref_eq_ok] at h
    obtain ⟨fo, hfo, anc, hanc, h⟩ := h
    refine Or.inl ⟨hc.1, hc.2.1, hc.2.2, fo, anc, hfo, hanc, ?_⟩
    cases anc with
    | false =>
      simp only [if_true, pure_eq_ok] at h
      exact Or.inl ⟨rfl, h.symm⟩
    | true =>
      simp only [Bool.true_eq_false, if_false] at h
      exact Or.inr ⟨rfl, h⟩
  · rw [if_neg hc] at h
    exact Or.inr ⟨hc, h⟩

theorem getCapturableEntityLoop_spec (w : World Mat) (fuel : Nat) (frame : Eid) :
    ∀ (cs : List Uuid) (r : Option Eid), getCapturableEntityLoop w fuel frame cs = .ok r →
      (∀ e, r = some e → ∃ pre c post, cs = pre ++ c :: post ∧ Eligible w frame c e
          ∧ ∀ c2 ∈ pre, ∀ e2, ¬ Eligible w frame c2 e2)
      ∧ (r = none → ∀ c ∈ cs, ∀ e2, ¬ Eligible w frame c e2) := by
  intro cs
  induction cs with
  | nil =>
    intro r h
    simp only [getCapturableEntityLoop, pure_eq_ok] at h
    subst h
    simp
  | cons c rest ih =>
    intro r h
    obtain ⟨bd, o, mask, hbd, ho, hmask, hcase⟩ := getCapturableEntityLoop_cons_ok w fuel frame c rest r h
    have hnot : (¬ (w.MediaFrame.mediaType frame &&& mask ≠ 0
          ∧ w.MediaLoading (w.objects o).eid = false
          ∧ inOtherFrame w frame (w.objects o).eid = false)
        ∨ ∃ fo, w.eid2obj frame = some fo ∧ IsProperAncestor w.objects o fo) →
        ∀ e2, ¬ Eligible w frame c e2 := by
      rintro hfail e2 ⟨bd2, o2, mask2, fo2, h1, h2, h3, h4, h5, h6, h7, h8, h9⟩
      rw [hbd] at h1
      cases h1
      rw [ho] at h2
      cases h2
      subst h3
      rw [hmask] at h4
      cases h4
      rcases hfail with hfail | ⟨fo, hfo, hanc⟩
      · exact hfail ⟨h5, h6, h7⟩
      · rw [hfo] at h8
        cases h8
        exact h9 hanc
    have hrest : (getCapturableEntityLoop w fuel frame rest = .ok r) →
        (∀ e2, ¬ Eligible w frame c e2) →
        (∀ e, r = some e → ∃ pre c1 post, c :: rest = pre ++ c1 :: post ∧ Eligible w frame c1 e
            ∧ ∀ c2 ∈ pre, ∀ e2, ¬ Eligible w frame c2 e2)
        ∧ (r = none → ∀ c1 ∈ c :: rest, ∀ e2, ¬ Eligible w frame c1 e2) := by
      intro hr hc
      obtain ⟨ih1, ih2⟩ := ih r hr
      constructor
      · intro e he
        obtain ⟨pre, c1, post, hsplit, hel, hpre⟩ := ih1 e he
        refine ⟨c :: pre, c1, post, by rw [hsplit]; rfl, hel, ?_⟩
        intro c2 hc2
        rcases List.mem_cons.mp hc2 with rfl | hc2
        · exact hc
        · exact hpre c2 hc2
      · intro hn c1 hc1
        rcases List.mem_cons.mp hc1 with rfl | hc1
        · exact hc
        · exact ih2 hn c1 hc1
    rcases hcase with ⟨hm, hl, hi, fo, anc, hfo, hanc, hres⟩ | ⟨hfail, hr⟩
    · rcases hres with ⟨hfalse, hr⟩ | ⟨htrue, hr⟩
      · subst hr
        constructor
        · intro e he
          cases he
          refine ⟨[], c, rest, rfl, ⟨bd, o, mask, fo, hbd, ho, rfl, hmask, hm, hl, hi, hfo, ?_⟩, ?_⟩
          · intro hpa
            have := (isAncestor_sound w fuel o fo anc hanc).2 hpa
            rw [hfalse] at this
            cases this
          · intro c2 hc2
            cases hc2
        · intro hn
          cases hn
      · exact hrest hr (hnot (Or.inr ⟨fo, hfo, (isAncestor_sound w fuel o fo anc hanc).1 htrue⟩))
    · exact hrest hr (hnot (Or.inl hfail))

theorem getCapturableEntityLoop_total (w : World Mat) (fuel : Nat) (frame : Eid) (fo : ObjId)
    (hfo : w.eid2obj frame = some fo)
    (hchain : chainWithin w.objects fuel (w.objects fo).parent = true) :
    ∀ cs : List Uuid,
      (∀ c ∈ cs, ∃ bodyData o mask, w.physicsSystem.bodyUuidToData c = some bodyData
        ∧ bodyData.object3D = some o ∧ mediaTypeMaskFor w (w.objects o).eid = .ok mask) →
      ∃ r, getCapturableEntityLoop w fuel frame cs = .ok r := by
  intro cs
  induction cs with
  | nil => intro _; exact ⟨none, rfl⟩
  | cons c rest ih =>
    intro hres
    obtain ⟨bd, o, mask, hbd, ho, hmask⟩ := hres c (List.mem_cons_self _ _)
    obtain ⟨r, hr⟩ := ih (fun c2 hc2 => hres c2 (List.mem_cons_of_mem _ hc2))
    obtain ⟨anc, hanc⟩ := isAncestorLoop_total w.objects o fuel _ hchain
    simp only [getCapturableEntityLoop, bind_eq_ok, deref_eq_ok]
    by_cases hc : w.MediaFrame.mediaType frame &&& mask ≠ 0
      ∧ w.MediaLoading (w.objects o).eid = false ∧ inOtherFrame w frame (w.objects o).eid = false
    · cases anc with
      | false =>
        refine ⟨some (w.objects o).eid, bd, hbd, o, ho, mask, hmask, ?_⟩
        rw [if_pos hc]
        simp only [bind_eq_ok, deref_eq_ok]
        exact ⟨fo, hfo, false, hanc, rfl⟩
      | true =>
        refine ⟨r, bd, hbd, o, ho, mask, hmask, ?_⟩
        rw [if_pos hc]
        simp only [bind_eq_ok, deref_eq_ok]
        exact ⟨fo, hfo, true, hanc, by simpa using hr⟩
    · refine ⟨r, bd, hbd, o, ho, mask, hmask, ?_⟩
      rw [if_neg hc]
      exact hr

/-! ### What `display` can change -/

theorem createPreviewMesh_eq_ok (T : Three Mat) (w w1 : World Mat) (frame capturable : Eid)
    (obj : ObjId) (h : createPreviewMesh T w frame capturable = .ok (w1, obj)) :
    obj = w.nextObj ∧ ∃ (o3 : Object3D Mat) (mixer : Eid → Bool),
      w1 = { w with nextObj := w.nextObj + 1
                    objects := Function.update w.objects w.nextObj o3
                    frame2mixer := mixer } := by
  simp only [createPreviewMesh, bind_eq_ok, pure_eq_ok] at h
  obtain ⟨el, _, src, _, h⟩ := h
  simp only [Prod.mk.injEq] at h
  obtain ⟨h1, h2⟩ := h
  exact ⟨h2.symm, _, _, h1.symm⟩

theorem displayShape_refl (w : World Mat) : DisplayShape w w :=
  ⟨w.objects, w.nextObj, w.frame2mixer, w.nextEid, w.entityExists, w.eid2obj,
    w.MediaFrame.preview, w.MediaFrame.previewingNid, rfl, fun _ _ => rfl⟩

theorem showPreview_shape (T : Three Mat) (w w1 : World Mat) (frame capturable : Eid)
    (h : showPreview T w frame capturable = .ok w1) : DisplayShape w w1 := by
  simp only [showPreview, bind_eq_ok] at h
  obtain ⟨⟨wc, obj⟩, hc, bounds, _, hs⟩ := h
  obtain ⟨hobj, o3, mixer, hwc⟩ := createPreviewMesh_eq_ok T w wc frame capturable obj hc
  subst hobj
  subst hwc
  rw [snapToFrame_eq_ok] at hs
  obtain ⟨f, t, b, _, ht, _, hw1⟩ := hs
  have ht2 : t = w.nextObj := by
    simp [addEntity, addObject3DComponent] at ht
    exact ht.symm
  subst hw1
  subst ht2
  refine ⟨_, _, _, _, _, _, _, _, rfl, ?_⟩
  intro o ho
  simp [withMatrix, addEntity, addObject3DComponent, Function.update_noteq ho]

theorem hidePreview_shape (w : World Mat) (frame : Eid) : DisplayShape w (hidePreview w frame) := by
  refine ⟨_, _, _, _, _, _, _, _, rfl, ?_⟩
  intro o _
  cases hp : w.eid2obj (w.MediaFrame.preview frame) with
  | none => simp [hp]
  | some p =>
    simp only [hp]
    by_cases hop : o = p
    · subst hop; simp
    · simp [Function.update_noteq hop]

theorem displayPreview_shape (T : Three Mat) (w w1 : World Mat) (frame : Eid)
    (capturable : Option Eid) (captured : Eid)
    (h : displayPreview T w frame capturable captured = .ok w1) : DisplayShape w w1 := by
  unfold displayPreview at h
  split at h
  · exact showPreview_shape T w w1 frame _ h
  · split at h
    · rw [pure_eq_ok] at h
      subst h
      exact hidePreview_shape w frame
    · rw [pure_eq_ok] at h
      subst h
      exact displayShape_refl w

theorem display_shape (T : Three Mat) (w w1 : World Mat) (fuel : Nat) (frame captured : Eid)
    (heldMediaTypes : Nat) (h : display T w fuel frame captured heldMediaTypes = .ok w1) :
    DisplayShape w w1 := by
  simp only [display, bind_eq_ok] at h
  obtain ⟨capturable, _, w2, hp, hg⟩ := h
  obtain ⟨objs, no, mx, ne, ee, e2o, pv, pn, hw2, hm⟩ := displayPreview_shape T w w2 frame _ _ hp
  simp only [displayGuide, bind_eq_ok, deref_eq_ok, pure_eq_ok] at hg
  obtain ⟨g, _, hw1⟩ := hg
  subst hw1
  subst hw2
  refine ⟨_, _, _, _, _, _, _, _, rfl, ?_⟩
  intro o ho
  by_cases hog : o = g
  · subst hog
    simp [hm o ho]
  · simp [Function.update_noteq hog, hm o ho]

/-! ### The clause chain -/

theorem getEntityBounds_congr (w w1 : World Mat) (target : Eid)
    (h1 : w1.AEntity = w.AEntity) (h2 : w1.eid2obj = w.eid2obj)
    (h3 : ∀ o, (w1.objects o).el = (w.objects o).el)
    (h4 : w1.findChildWithMediaLoaded = w.findChildWithMediaLoaded)
    (h5 : w1.MediaContentBounds = w.MediaContentBounds) :
    getEntityBounds w1 target = getEntityBounds w target := by
  simp only [getEntityBounds, elOf, h1, h2, h3, h4, h5]

theorem capture_eq_ok (T : Three Mat) (w w1 : World Mat) (frame c : Eid) :
    capture T w frame c = .ok w1 ↔
      ∃ o f b, w.eid2obj c = some o ∧ w.eid2obj frame = some f
        ∧ getEntityBounds w c = .ok (some b)
        ∧ w1 = updateRigidBodyOptions
            (withMatrix (recordCapture w frame c (T.setFromMatrixScale (w.objects o).matrixWorld).toFloat32) o
              (snapMatrix T (w.objects f).matrixWorld
                (mathMin [(w.MediaFrame.bounds frame).x.div b.x,
                  (w.MediaFrame.bounds frame).y.div b.y, (w.MediaFrame.bounds frame).z.div b.z])))
            c BodyType.kinematic := by
  simp only [capture, bind_eq_ok, deref_eq_ok, pure_eq_ok, snapToFrame_eq_ok]
  constructor
  · rintro ⟨o, ho, bounds, hb, w5, ⟨f, t, b, hf, ht, rfl, rfl⟩, rfl⟩
    have ho2 : w.eid2obj c = some o := ho
    have ht2 : w.eid2obj c = some t := ht
    rw [ho2] at ht2
    cases ht2
    exact ⟨o, f, b, ho, hf, hb, rfl⟩
  · rintro ⟨o, f, b, ho, hf, hb, rfl⟩
    exact ⟨o, ho, some b, hb, _, ⟨f, o, b, hf, ho, rfl, rfl⟩, rfl⟩

theorem newCapture_cases (T : Three Mat) (w w1 : World Mat) (fuel : Nat) (frame : Eid)
    (h : newCapture T w fuel frame = .ok w1) :
    (w1 = w ∧ ∃ r, getCapturableEntity w fuel frame = .ok r
        ∧ (truthy r = false ∨ captureGuard w frame (r.getD 0) = .ok false))
    ∨ ∃ c, getCapturableEntity w fuel frame = .ok (some c) ∧ c ≠ 0
        ∧ captureGuard w frame c = .ok true ∧ capture T w frame c = .ok w1 := by
  simp only [newCapture, bind_eq_ok] at h
  obtain ⟨r, hr, h⟩ := h
  cases ht : truthy r with
  | false =>
    rw [ht] at h
    simp only [Bool.false_eq_true, if_false, pure_eq_ok] at h
    exact Or.inl ⟨h.symm, r, hr, Or.inl ht⟩
  | true =>
    rw [ht] at h
    simp only [if_true, bind_eq_ok] at h
    obtain ⟨ok, hok, h⟩ := h
    cases ok with
    | false =>
      simp only [Bool.false_eq_true, if_false, pure_eq_ok] at h
      exact Or.inl ⟨h.symm, r, hr, Or.inr hok⟩
    | true =>
      simp only [if_true] at h
      cases r with
      | none => simp [truthy] at ht
      | some c =>
        refine Or.inr ⟨c, hr, ?_, hok, h⟩
        simpa [truthy] using ht

theorem arbitrate_cases (T : Three Mat) (w w1 : World Mat) (fuel : Nat) (frame : Eid)
    (h : arbitrate T w fuel frame = .ok w1) :
    (resnapCond w frame = true ∧ ∃ f t b, w.eid2obj frame = some f
        ∧ w.eid2obj (capturedOf w frame) = some t
        ∧ getEntityBounds w (capturedOf w frame) = .ok (some b)
        ∧ w1 = updateRigidBodyOptions
            (withMatrix w t (snapMatrix T (w.objects f).matrixWorld
              (mathMin [(w.MediaFrame.bounds frame).x.div b.x,
                (w.MediaFrame.bounds frame).y.div b.y, (w.MediaFrame.bounds frame).z.div b.z])))
            (capturedOf w frame) BodyType.kinematic)
    ∨ (resnapCond w frame = false ∧ evictCond w frame = true
        ∧ w1 = clearCaptured (takeOwnership w frame) frame)
    ∨ (resnapCond w frame = false ∧ evictCond w frame = false ∧ staleCond w frame = true
        ∧ w1 = clearCaptured w frame)
    ∨ (resnapCond w frame = false ∧ evictCond w frame = false ∧ staleCond w frame = false
        ∧ w.NetworkedMediaFrame.capturedNid frame = 0 ∧ newCapture T w fuel frame = .ok w1)
    ∨ (resnapCond w frame = false ∧ evictCond w frame = false ∧ staleCond w frame = false
        ∧ w.NetworkedMediaFrame.capturedNid frame ≠ 0 ∧ w1 = w) := by
  unfold arbitrate at h
  cases h1 : resnapCond w frame with
  | true =>
    rw [h1] at h
    simp only [if_true, bind_eq_ok, pure_eq_ok, snapToFrame_eq_ok] at h
    obtain ⟨bounds, hb, w2, ⟨f, t, b, hf, ht, rfl, rfl⟩, rfl⟩ := h
    exact Or.inl ⟨rfl, f, t, b, hf, ht, hb, rfl⟩
  | false =>
    rw [h1] at h
    simp only [Bool.false_eq_true, if_false] at h
    cases h2 : evictCond w frame with
    | true =>
      rw [h2] at h
      simp only [if_true, pure_eq_ok] at h
      exact Or.inr (Or.inl ⟨rfl, rfl, h.symm⟩)
    | false =>
      rw [h2] at h
      simp only [Bool.false_eq_true, if_false] at h
      cases h3 : staleCond w frame with
      | true =>
        rw [h3] at h
        simp only [if_true, pure_eq_ok] at h
        exact Or.inr (Or.inr (Or.inl ⟨rfl, rfl, rfl, h.symm⟩))
      | false =>
        rw [h3] at h
        simp only [Bool.false_eq_true, if_false] at h
        by_cases h4 : w.NetworkedMediaFrame.capturedNid frame = 0
        · rw [if_pos h4] at h
          exact Or.inr (Or.inr (Or.inr (Or.inl ⟨rfl, rfl, rfl, h4, h⟩)))
        · rw [if_neg h4, pure_eq_ok] at h
          exact Or.inr (Or.inr (Or.inr (Or.inr ⟨rfl, rfl, rfl, h4, h.symm⟩)))

theorem arbitrateShape_refl (w : World Mat) (frame : Eid) : ArbitrateShape w w frame :=
  ⟨w.objects, w.physicsSystem, w.ownershipClaims, w.NetworkedMediaFrame, rfl,
    fun _ _ => ⟨rfl, rfl⟩⟩

theorem arbitrate_shape (T : Three Mat) (w w1 : World Mat) (fuel : Nat) (frame : Eid)
    (h : arbitrate T w fuel frame = .ok w1) : ArbitrateShape w w1 frame := by
  rcases arbitrate_cases T w w1 fuel frame h with
    ⟨_, f, t, b, _, _, _, h1⟩ | ⟨_, _, h1⟩ | ⟨_, _, _, h1⟩ | ⟨_, _, _, _, hn⟩ | ⟨_, _, _, _, h1⟩
  · rw [h1]
    exact ⟨_, _, _, _, rfl, fun _ _ => ⟨rfl, rfl⟩⟩
  · rw [h1]
    refine ⟨_, _, _, _, rfl, fun g hg => ?_⟩
    simp [clearCaptured, takeOwnership, Function.update_noteq hg]
  · rw [h1]
    refine ⟨_, _, _, _, rfl, fun g hg => ?_⟩
    simp [clearCaptured, Function.update_noteq hg]
  · rcases newCapture_cases T w w1 fuel frame hn with ⟨h1, _⟩ | ⟨c, _, _, _, hc⟩
    · rw [h1]
      exact arbitrateShape_refl w frame
    · rw [capture_eq_ok] at hc
      obtain ⟨o, f, b, _, _, _, h1⟩ := hc
      rw [h1]
      refine ⟨_, _, _, _, rfl, fun g hg => ?_⟩
      simp [recordCapture, withMatrix, updateRigidBodyOptions, Function.update_noteq hg]
  · rw [h1]
    exact arbitrateShape_refl w frame

theorem reconcile_shape (T : Three Mat) (w w1 : World Mat) (frame captured : Eid)
    (isCapturedOwned : Bool) (h : reconcile T w frame captured isCapturedOwned = .ok w1) :
    ∃ (objs : ObjId → Object3D Mat) (ps : PhysicsSystem),
      w1 = { w with objects := objs, physicsSystem := ps } := by
  unfold reconcile at h
  split at h
  · simp only [setMatrixScale, bind_eq_ok, deref_eq_ok, pure_eq_ok, setMatrixWorld_eq_ok] at h
    obtain ⟨w2, ⟨o, ho, o2, ho2, h2⟩, h1⟩ := h
    rw [← h1, h2]
    exact ⟨_, _, rfl⟩
  · rw [pure_eq_ok] at h
    rw [← h]
    exact ⟨_, _, rfl⟩

theorem reconcile_cases (T : Three Mat) (w w1 : World Mat) (frame captured : Eid)
    (isCapturedOwned : Bool) (h : reconcile T w frame captured isCapturedOwned = .ok w1) :
    (w1 = w ∧ (w.NetworkedMediaFrame.capturedNid frame != w.MediaFrame.capturedNid frame
          && captured != 0 && w.entityExists captured && isCapturedOwned) = false)
    ∨ ((w.NetworkedMediaFrame.capturedNid frame != w.MediaFrame.capturedNid frame
          && captured != 0 && w.entityExists captured && isCapturedOwned) = true
        ∧ ∃ o, w.eid2obj captured = some o
          ∧ w1 = updateBodyOptions
              (withMatrix w o (T.compose (T.decompose (w.objects o).matrixWorld).1
                (T.decompose (w.objects o).matrixWorld).2.1 (w.MediaFrame.scale frame)))
              captured BodyType.dynamic) := by
  unfold reconcile at h
  split at h
  · rename_i hc
    simp only [setMatrixScale, bind_eq_ok, deref_eq_ok, pure_eq_ok, setMatrixWorld_eq_ok] at h
    obtain ⟨w2, ⟨o, ho, o2, ho2, rfl⟩, rfl⟩ := h
    cases ho2
    exact Or.inr ⟨hc, o, ho, rfl⟩
  · rename_i hc
    rw [pure_eq_ok] at h
    exact Or.inl ⟨h.symm, by simpa using hc⟩

/-! ### One frame, and the loop over the frames -/

theorem processFrame_stages (T : Three Mat) (fuel heldMediaTypes : Nat) (w w3 : World Mat)
    (frame : Eid) (h : processFrame T fuel heldMediaTypes w frame = .ok w3) :
    ∃ w1 w2, arbitrate T w fuel frame = .ok w1
      ∧ reconcile T w1 frame (capturedOf w frame) (w.Owned (capturedOf w frame)) = .ok w2
      ∧ display T (syncLocal w2 frame) fuel frame (capturedOf w frame) heldMediaTypes = .ok w3 := by
  simp only [processFrame, bind_eq_ok] at h
  obtain ⟨w1, h1, w2, h2, h3⟩ := h
  exact ⟨w1, w2, h1, h2, h3⟩

theorem processFrame_frame (T : Three Mat) (fuel heldMediaTypes : Nat) (w w3 : World Mat)
    (frame : Eid) (h : processFrame T fuel heldMediaTypes w frame = .ok w3) :
    w3.mediaFramesQuery = w.mediaFramesQuery ∧ w3.Networked = w.Networked
      ∧ w3.MediaFrame.capturedNid frame = w3.NetworkedMediaFrame.capturedNid frame
      ∧ w3.MediaFrame.scale frame = w3.NetworkedMediaFrame.scale frame
      ∧ ∀ g, g ≠ frame →
          w3.MediaFrame.capturedNid g = w.MediaFrame.capturedNid g
          ∧ w3.MediaFrame.scale g = w.MediaFrame.scale g
          ∧ w3.NetworkedMediaFrame.capturedNid g = w.NetworkedMediaFrame.capturedNid g
          ∧ w3.NetworkedMediaFrame.scale g = w.NetworkedMediaFrame.scale g := by
  obtain ⟨w1, w2, h1, h2, h3⟩ := processFrame_stages T fuel heldMediaTypes w w3 frame h
  obtain ⟨objs, ps, claims, nmf, e1, hoff⟩ := arbitrate_shape T w w1 fuel frame h1
  obtain ⟨objs2, ps2, e2⟩ := reconcile_shape T w1 w2 frame _ _ h2
  obtain ⟨objs3, no, mx, ne, ee, e2o, pv, pn, e3, _⟩ := display_shape T _ w3 fuel frame _ _ h3
  subst e1
  subst e2
  subst e3
  refine ⟨rfl, rfl, ?_, ?_, ?_⟩
  · simp [syncLocal]
  · simp [syncLocal]
  · intro g hg
    simp [syncLocal, Function.update_noteq hg, hoff g hg]

theorem foldlM_processFrame_synced (T : Three Mat) (fuel heldMediaTypes : Nat) :
    ∀ (frames : List Eid) (w w1 : World Mat),
      frames.foldlM (processFrame T fuel heldMediaTypes) w = .ok w1 →
      ∀ frame ∈ frames,
        w1.MediaFrame.capturedNid frame = w1.NetworkedMediaFrame.capturedNid frame
          ∧ w1.MediaFrame.scale frame = w1.NetworkedMediaFrame.scale frame := by
  intro frames
  induction frames with
  | nil => intro w w1 _ frame hf; cases hf
  | cons f rest ih =>
    intro w w1 h frame hf
    rw [List.foldlM_cons, bind_eq_ok] at h
    obtain ⟨wf, hstep, hrest⟩ := h
    by_cases hin : frame ∈ rest
    · exact ih wf w1 hrest frame hin
    · have hff : frame = f := by
        rcases List.mem_cons.mp hf with h1 | h1
        · exact h1
        · exact absurd h1 hin
      subst hff
      obtain ⟨_, _, h3, h4, _⟩ := processFrame_frame T fuel heldMediaTypes w wf frame hstep
      have hkeep : ∀ (l : List Eid) (u u1 : World Mat),
          l.foldlM (processFrame T fuel heldMediaTypes) u = .ok u1 → frame ∉ l →
          u1.MediaFrame.capturedNid frame = u.MediaFrame.capturedNid frame
            ∧ u1.MediaFrame.scale frame = u.MediaFrame.scale frame
            ∧ u1.NetworkedMediaFrame.capturedNid frame = u.NetworkedMediaFrame.capturedNid frame
            ∧ u1.NetworkedMediaFrame.scale frame = u.NetworkedMediaFrame.scale frame := by
        intro l
        induction l with
        | nil =>
          intro u u1 hu _
          rw [List.foldlM_nil, pure_eq_ok] at hu
          subst hu
          exact ⟨rfl, rfl, rfl, rfl⟩
        | cons g l2 ih2 =>
          intro u u1 hu hnot
          rw [List.foldlM_cons, bind_eq_ok] at hu
          obtain ⟨ug, hg1, hg2⟩ := hu
          have hne : frame ≠ g := fun e => hnot (by rw [e]; exact List.mem_cons_self _ _)
          obtain ⟨_, _, _, _, hoff⟩ := processFrame_frame T fuel heldMediaTypes u ug g hg1
          obtain ⟨a1, a2, a3, a4⟩ := hoff frame hne
          obtain ⟨b1, b2, b3, b4⟩ := ih2 ug u1 hg2 (fun hm => hnot (List.mem_cons_of_mem _ hm))
          exact ⟨b1.trans a1, b2.trans a2, b3.trans a3, b4.trans a4⟩
      obtain ⟨b1, b2, b3, b4⟩ := hkeep rest wf w1 hrest hin
      exact ⟨by rw [b1, b3, h3], by rw [b2, b4, h4]⟩

/-- What the two `forEach` loops that precede the frame loop may change. -/
theorem onEntered_shape (w w1 : World Mat) (eid : Eid) (h : onEntered w eid = .ok w1) :
    PreludeShape w w1 := by
  simp only [onEntered, bind_eq_ok, deref_eq_ok] at h
  obtain ⟨fo, _, h⟩ := h
  split at h
  · split at h
    · rw [pure_eq_ok] at h
      rw [← h]
      split <;> exact ⟨_, _, _, _, rfl⟩
    · rw [pure_eq_ok] at h
      rw [← h]
      split <;> exact ⟨_, _, _, _, rfl⟩
  · rw [pure_eq_ok] at h
    rw [← h]
    split <;> exact ⟨_, _, _, _, rfl⟩

theorem onExited_shape (w : World Mat) (eid : Eid) : PreludeShape w (onExited w eid) := by
  unfold onExited
  split
  · split <;> exact ⟨_, _, _, _, rfl⟩
  · exact ⟨_, _, _, _, rfl⟩

theorem preludeShape_trans {w w1 w2 : World Mat} (h1 : PreludeShape w w1)
    (h2 : PreludeShape w1 w2) : PreludeShape w w2 := by
  obtain ⟨a, b, c, d, rfl⟩ := h1
  obtain ⟨a2, b2, c2, d2, rfl⟩ := h2
  exact ⟨_, _, _, _, rfl⟩

theorem foldlM_onEntered_shape : ∀ (l : List Eid) (w w1 : World Mat),
    l.foldlM onEntered w = .ok w1 → PreludeShape w w1 := by
  intro l
  induction l with
  | nil =>
    intro w w1 h
    rw [List.foldlM_nil, pure_eq_ok] at h
    rw [← h]
    exact ⟨_, _, _, _, rfl⟩
  | cons e rest ih =>
    intro w w1 h
    rw [List.foldlM_cons, bind_eq_ok] at h
    obtain ⟨we, h1, h2⟩ := h
    exact preludeShape_trans (onEntered_shape w we e h1) (ih we w1 h2)

theorem foldl_onExited_shape : ∀ (l : List Eid) (w : World Mat),
    PreludeShape w (l.foldl onExited w) := by
  intro l
  induction l with
  | nil => intro w; exact ⟨_, _, _, _, rfl⟩
  | cons e rest ih =>
    intro w
    rw [List.foldl_cons]
    exact preludeShape_trans (onExited_shape w e) (ih _)

theorem mediaFramesSystem_loop (T : Three Mat) (w w1 : World Mat) (fuel : Nat)
    (h : mediaFramesSystem T w fuel = .ok w1) :
    ∃ w2 heldMediaTypes, PreludeShape w w2 ∧ mediaTypesOf w2 w2.heldQuery = .ok heldMediaTypes
      ∧ w2.mediaFramesQuery.foldlM (processFrame T fuel heldMediaTypes) w2 = .ok w1 := by
  simp only [mediaFramesSystem, bind_eq_ok] at h
  obtain ⟨we, h1, held, h2, h3⟩ := h
  exact ⟨_, held, preludeShape_trans (foldlM_onEntered_shape _ w we h1)
    (foldl_onExited_shape _ we), h2, h3⟩

/-! ### Uniqueness of the confirmed captured id -/

theorem inOtherFrameLoop_false_iff (w : World Mat) (ignoredFrame eid : Eid) :
    ∀ frames : List Eid, inOtherFrameLoop w ignoredFrame eid frames = false ↔
      ∀ g ∈ frames, g ≠ ignoredFrame →
        w.MediaFrame.capturedNid g ≠ w.Networked.id eid
          ∧ w.MediaFrame.previewingNid g ≠ w.Networked.id eid := by
  intro frames
  induction frames with
  | nil => simp [inOtherFrameLoop]
  | cons f rest ih =>
    simp only [inOtherFrameLoop, List.mem_cons, forall_eq_or_imp]
    by_cases hf : f = ignoredFrame
    · rw [if_pos hf, ih]
      simp [hf]
    · rw [if_neg hf]
      by_cases hc : w.MediaFrame.capturedNid f = w.Networked.id eid
          ∨ w.MediaFrame.previewingNid f = w.Networked.id eid
      · rw [if_pos hc]
        simp only [Bool.true_eq_false, false_iff, not_and]
        intro h1
        have := h1 hf
        tauto
      · rw [if_neg hc, ih]
        have hc2 := not_or.mp hc
        constructor
        · intro h
          exact ⟨fun _ => hc2, h⟩
        · intro h
          exact h.2

theorem captureGuard_true (w : World Mat) (frame c : Eid)
    (h : captureGuard w frame c = .ok true) :
    w.Held c = false ∧ inOtherFrame w frame c = false
      ∧ (w.Owned c = true ∨ (isOwnedByRet w c = .ok true ∧ w.Owned frame = true)) := by
  simp only [captureGuard, bind_eq_ok, pure_eq_ok] at h
  obtain ⟨standing, hs, h⟩ := h
  simp only [Bool.and_eq_true, Bool.not_eq_true'] at h
  refine ⟨h.1.2, h.2, ?_⟩
  have hst : standing = true := h.1.1
  subst hst
  unfold ownershipStanding at hs
  by_cases ho : w.Owned c = true
  · exact Or.inl ho
  · rw [if_neg ho] at hs
    simp only [bind_eq_ok, pure_eq_ok] at hs
    obtain ⟨ret, hret, hand⟩ := hs
    simp only [Bool.and_eq_true] at hand
    right
    rw [hret, hand.1]
    exact ⟨rfl, hand.2⟩

theorem captureGuard_of (w : World Mat) (frame c : Eid)
    (hstand : w.Owned c = true ∨ (isOwnedByRet w c = .ok true ∧ w.Owned frame = true))
    (hheld : w.Held c = false) (hother : inOtherFrame w frame c = false) :
    captureGuard w frame c = .ok true := by
  simp only [captureGuard, bind_eq_ok, pure_eq_ok]
  refine ⟨true, ?_, by simp [hheld, hother]⟩
  unfold ownershipStanding
  by_cases ho : w.Owned c = true
  · rw [if_pos ho]; rfl
  · rw [if_neg ho]
    rcases hstand with h | ⟨h1, h2⟩
    · exact absurd h ho
    · simp only [bind_eq_ok, pure_eq_ok]
      exact ⟨true, h1, by simp [h2]⟩

theorem processFrame_confirmed (T : Three Mat) (fuel heldMediaTypes : Nat) (w w3 : World Mat)
    (frame : Eid) (h : processFrame T fuel heldMediaTypes w frame = .ok w3) :
    w3.NetworkedMediaFrame.capturedNid frame = w.NetworkedMediaFrame.capturedNid frame
      ∨ w3.NetworkedMediaFrame.capturedNid frame = 0
      ∨ ∃ c, w3.NetworkedMediaFrame.capturedNid frame = w.Networked.id c
          ∧ inOtherFrame w frame c = false := by
  obtain ⟨w1, w2, h1, h2, h3⟩ := processFrame_stages T fuel heldMediaTypes w w3 frame h
  obtain ⟨objs2, ps2, e2⟩ := reconcile_shape T w1 w2 frame _ _ h2
  obtain ⟨objs3, no, mx, ne, ee, e2o, pv, pn, e3, _⟩ := display_shape T _ w3 fuel frame _ _ h3
  have hkeep : w3.NetworkedMediaFrame.capturedNid frame = w1.NetworkedMediaFrame.capturedNid frame := by
    rw [e3, e2]
    rfl
  rw [hkeep]
  rcases arbitrate_cases T w w1 fuel frame h1 with
    ⟨_, f, t, b, _, _, _, e⟩ | ⟨_, _, e⟩ | ⟨_, _, _, e⟩ | ⟨_, _, _, _, hn⟩ | ⟨_, _, _, _, e⟩
  · left; rw [e]; rfl
  · right; left; rw [e]; simp [clearCaptured, takeOwnership]
  · right; left; rw [e]; simp [clearCaptured]
  · rcases newCapture_cases T w w1 fuel frame hn with ⟨e, _⟩ | ⟨c, _, _, hg, hc⟩
    · left; rw [e]
    · right; right
      rw [capture_eq_ok] at hc
      obtain ⟨o, f, b, _, _, _, e⟩ := hc
      refine ⟨c, ?_, (captureGuard_true w frame c hg).2.1⟩
      rw [e]
      simp [updateRigidBodyOptions, withMatrix, recordCapture]
  · left; rw [e]

theorem processFrame_invariant (T : Three Mat) (fuel heldMediaTypes : Nat) (frames : List Eid)
    (w w3 : World Mat) (frame : Eid) (hq : w.mediaFramesQuery = frames) (hf : frame ∈ frames)
    (hsync : ∀ f ∈ frames, w.NetworkedMediaFrame.capturedNid f ≠ 0 →
      w.MediaFrame.capturedNid f = w.NetworkedMediaFrame.capturedNid f)
    (huniq : ∀ f ∈ frames, ∀ g ∈ frames,
      w.NetworkedMediaFrame.capturedNid f = w.NetworkedMediaFrame.capturedNid g →
      w.NetworkedMediaFrame.capturedNid f ≠ 0 → f = g)
    (h : processFrame T fuel heldMediaTypes w frame = .ok w3) :
    w3.mediaFramesQuery = frames ∧ w3.Networked = w.Networked
      ∧ (∀ f ∈ frames, w3.NetworkedMediaFrame.capturedNid f ≠ 0 →
          w3.MediaFrame.capturedNid f = w3.NetworkedMediaFrame.capturedNid f)
      ∧ (∀ f ∈ frames, ∀ g ∈ frames,
          w3.NetworkedMediaFrame.capturedNid f = w3.NetworkedMediaFrame.capturedNid g →
          w3.NetworkedMediaFrame.capturedNid f ≠ 0 → f = g) := by
  obtain ⟨a1, a2, a3, _, aoff⟩ := processFrame_frame T fuel heldMediaTypes w w3 frame h
  have hconf := processFrame_confirmed T fuel heldMediaTypes w w3 frame h
  refine ⟨a1.trans hq, a2, ?_, ?_⟩
  · intro f hfin hnz
    by_cases hff : f = frame
    · rw [hff]; exact a3
    · obtain ⟨b1, _, b3, _⟩ := aoff f hff
      rw [b3] at hnz
      rw [b1, b3]
      exact hsync f hfin hnz
  · have hother : ∀ g ∈ frames, g ≠ frame →
        w3.NetworkedMediaFrame.capturedNid frame = w3.NetworkedMediaFrame.capturedNid g →
        w3.NetworkedMediaFrame.capturedNid frame ≠ 0 → False := by
      intro g hg hne heq hnz
      obtain ⟨_, _, b3, _⟩ := aoff g hne
      rw [b3] at heq
      rcases hconf with e | e | ⟨c, e, hin⟩
      · rw [e] at heq hnz
        exact hne (huniq frame hf g hg heq hnz).symm
      · exact hnz e
      · unfold inOtherFrame at hin
        rw [inOtherFrameLoop_false_iff, hq] at hin
        have := (hin g hg hne).1
        rw [hsync g hg (by rw [← heq]; exact hnz)] at this
        exact this (heq.symm.trans e)
    intro f hfin g hgin heq hnz
    by_cases hff : f = frame
    · by_cases hgf : g = frame
      · rw [hff, hgf]
      · subst hff
        exact (hother g hgin hgf heq hnz).elim
    · by_cases hgf : g = frame
      · subst hgf
        exact (hother f hfin hff heq.symm (by rw [← heq]; exact hnz)).elim
      · obtain ⟨_, _, b3, _⟩ := aoff f hff
        obtain ⟨_, _, c3, _⟩ := aoff g hgf
        rw [b3, c3] at heq
        rw [b3] at hnz
        exact huniq f hfin g hgin heq hnz

theorem foldlM_processFrame_invariant (T : Three Mat) (fuel heldMediaTypes : Nat)
    (frames : List Eid) :
    ∀ (l : List Eid) (w w3 : World Mat), (∀ x ∈ l, x ∈ frames) → w.mediaFramesQuery = frames →
      (∀ f ∈ frames, w.NetworkedMediaFrame.capturedNid f ≠ 0 →
        w.MediaFrame.capturedNid f = w.NetworkedMediaFrame.capturedNid f) →
      (∀ f ∈ frames, ∀ g ∈ frames,
        w.NetworkedMediaFrame.capturedNid f = w.NetworkedMediaFrame.capturedNid g →
        w.NetworkedMediaFrame.capturedNid f ≠ 0 → f = g) →
      l.foldlM (processFrame T fuel heldMediaTypes) w = .ok w3 →
      w3.mediaFramesQuery = frames ∧ w3.Networked = w.Networked
        ∧ (∀ f ∈ frames, w3.NetworkedMediaFrame.capturedNid f ≠ 0 →
            w3.MediaFrame.capturedNid f = w3.NetworkedMediaFrame.capturedNid f)
        ∧ (∀ f ∈ frames, ∀ g ∈ frames,
            w3.NetworkedMediaFrame.capturedNid f = w3.NetworkedMediaFrame.capturedNid g →
            w3.NetworkedMediaFrame.capturedNid f ≠ 0 → f = g) := by
  intro l
  induction l with
  | nil =>
    intro w w3 _ hq hs hu h
    rw [List.foldlM_nil, pure_eq_ok] at h
    subst h
    exact ⟨hq, rfl, hs, hu⟩
  | cons x rest ih =>
    intro w w3 hsub hq hs hu h
    rw [List.foldlM_cons, bind_eq_ok] at h
    obtain ⟨wx, hstep, hrest⟩ := h
    obtain ⟨q1, n1, s1, u1⟩ := processFrame_invariant T fuel heldMediaTypes frames w wx x hq
      (hsub x (List.mem_cons_self _ _)) hs hu hstep
    obtain ⟨q2, n2, s2, u2⟩ := ih wx w3 (fun y hy => hsub y (List.mem_cons_of_mem _ hy)) q1 s1 u1 hrest
    exact ⟨q2, n2.trans n1, s2, u2⟩

theorem exists_ok_of_holdsAfter {α : Type} {r : Except Fault α} {P : α → Prop}
    (h : holdsAfter r P) : ∃ a, r = .ok a ∧ P a := by
  cases r with
  | ok a => exact ⟨a, rfl, h⟩
  | error e => exact h.elim

theorem processFrame_after (T : Three Mat) (fuel heldMediaTypes : Nat) (w w3 : World Mat)
    (frame : Eid) (h : processFrame T fuel heldMediaTypes w frame = .ok w3) :
    ∃ w1 w2, arbitrate T w fuel frame = .ok w1
      ∧ reconcile T w1 frame (capturedOf w frame) (w.Owned (capturedOf w frame)) = .ok w2
      ∧ w3.NetworkedMediaFrame = w1.NetworkedMediaFrame
      ∧ w3.ownershipClaims = w1.ownershipClaims
      ∧ w3.physicsSystem = w2.physicsSystem
      ∧ w3.MediaFrame.capturedNid frame = w1.NetworkedMediaFrame.capturedNid frame
      ∧ w3.MediaFrame.scale frame = w1.NetworkedMediaFrame.scale frame
      ∧ ∀ o, o ≠ w.nextObj → (w3.objects o).matrixWorld = (w2.objects o).matrixWorld := by
  obtain ⟨w1, w2, h1, h2, h3⟩ := processFrame_stages T fuel heldMediaTypes w w3 frame h
  refine ⟨w1, w2, h1, h2, ?_⟩
  obtain ⟨objs, ps, claims, nmf, e1, _⟩ := arbitrate_shape T w w1 fuel frame h1
  obtain ⟨objs2, ps2, e2⟩ := reconcile_shape T w1 w2 frame _ _ h2
  obtain ⟨objs3, no, mx, ne, ee, e2o, pv, pn, e3, hm⟩ := display_shape T _ w3 fuel frame _ _ h3
  subst e1
  subst e2
  subst e3
  refine ⟨rfl, rfl, rfl, by simp [syncLocal], by simp [syncLocal], ?_⟩
  intro o ho
  exact hm o ho

theorem preludeShape_fields {w w2 : World Mat} (h : PreludeShape w w2) :
    w2.mediaFramesQuery = w.mediaFramesQuery ∧ w2.MediaFrame = w.MediaFrame
      ∧ w2.NetworkedMediaFrame = w.NetworkedMediaFrame ∧ w2.Networked = w.Networked := by
  obtain ⟨_, _, _, _, e⟩ := h
  subst e
  exact ⟨rfl, rfl, rfl, rfl⟩

theorem isCollidingLoop_of_mem (w : World Mat) (eidB : Eid) :
    ∀ (cs : List Uuid) (c : Uuid), c ∈ cs → collidedEid w c = some eidB →
      isCollidingLoop w eidB cs = true := by
  intro cs
  induction cs with
  | nil => intro c hc; cases hc
  | cons x rest ih =>
    intro c hc hcol
    simp only [isCollidingLoop]
    by_cases hx : collidedEid w x = some eidB
    · rw [if_pos hx]
    · rw [if_neg hx]
      rcases List.mem_cons.mp hc with h | h
      · rw [h] at hcol
        exact absurd hcol hx
      · exact ih c h hcol

theorem getCapturableEntity_some (w : World Mat) (fuel : Nat) (frame c : Eid)
    (h : getCapturableEntity w fuel frame = .ok (some c)) :
    isColliding w frame c = true ∧ inOtherFrame w frame c = false := by
  obtain ⟨pre, c0, post, hsplit, ⟨bd, o, mask, fo, h1, h2, h3, _, _, _, h7, _, _⟩, _⟩ :=
    (getCapturableEntityLoop_spec w fuel frame _ _ h).1 c rfl
  refine ⟨?_, h7⟩
  unfold isColliding
  refine isCollidingLoop_of_mem w c _ c0 (by rw [hsplit]; simp) ?_
  simp [collidedEid, h1, h2, h3]

/-! ### More on the topology helpers -/

theorem inOtherFrameLoop_true_iff (w : World Mat) (ignoredFrame eid : Eid)
    (frames : List Eid) :
    inOtherFrameLoop w ignoredFrame eid frames = true ↔
      ∃ f ∈ frames, f ≠ ignoredFrame ∧
        (w.MediaFrame.capturedNid f = w.Networked.id eid
          ∨ w.MediaFrame.previewingNid f = w.Networked.id eid) := by
  constructor
  · intro h
    by_contra hne
    have hfalse : inOtherFrameLoop w ignoredFrame eid frames = false := by
      rw [inOtherFrameLoop_false_iff]
      intro g hg hgi
      constructor
      · intro hc
        exact hne ⟨g, hg, hgi, Or.inl hc⟩
      · intro hc
        exact hne ⟨g, hg, hgi, Or.inr hc⟩
    rw [h] at hfalse
    cases hfalse
  · rintro ⟨f, hf, hfi, hc⟩
    cases hb : inOtherFrameLoop w ignoredFrame eid frames with
    | true => rfl
    | false =>
      rw [inOtherFrameLoop_false_iff] at hb
      obtain ⟨h1, h2⟩ := hb f hf hfi
      rcases hc with hc | hc
      · exact absurd hc h1
      · exact absurd hc h2

theorem inOtherFrameLoop_withClaimedIds (w : World Mat) (ignoredFrame eid : Eid)
    (captured previewing : Nid) :
    ∀ frames : List Eid,
      inOtherFrameLoop (withClaimedIds w ignoredFrame captured previewing) ignoredFrame eid frames
        = inOtherFrameLoop w ignoredFrame eid frames := by
  intro frames
  induction frames with
  | nil => rfl
  | cons f rest ih =>
    simp only [inOtherFrameLoop]
    by_cases hf : f = ignoredFrame
    · rw [if_pos hf, if_pos hf, ih]
    · rw [if_neg hf, if_neg hf, ih]
      simp [withClaimedIds, Function.update_noteq hf]

theorem isProperAncestor_trans (objects : ObjId → Object3D Mat) {a b c : ObjId}
    (hab : IsProperAncestor objects a b) (hbc : IsProperAncestor objects b c) :
    IsProperAncestor objects a c := by
  induction hbc with
  | parent h => exact IsProperAncestor.step h hab
  | step h _ ih => exact IsProperAncestor.step h ih

theorem chainWithin_succ (objects : ObjId → Object3D Mat) :
    ∀ (n : Nat) (s : Option ObjId), chainWithin objects n s = true →
      chainWithin objects (n + 1) s = true := by
  intro n
  induction n with
  | zero =>
    intro s h
    cases s with
    | none => rfl
    | some p => simp [chainWithin] at h
  | succ k ih =>
    intro s h
    cases s with
    | none => rfl
    | some p =>
      simp only [chainWithin] at h
      simp only [chainWithin]
      exact ih _ h

theorem chainWithin_of_isProperAncestor (objects : ObjId → Object3D Mat) {a b : ObjId}
    (h : IsProperAncestor objects a b) :
    ∀ n, chainWithin objects n (objects b).parent = true →
      ∃ m, n = m + 1 ∧ chainWithin objects m (objects a).parent = true := by
  induction h with
  | parent hp =>
    intro n hn
    rw [hp] at hn
    cases n with
    | zero => simp [chainWithin] at hn
    | succ m => exact ⟨m, rfl, by simpa [chainWithin] using hn⟩
  | step hp _ ih =>
    intro n hn
    rw [hp] at hn
    cases n with
    | zero => simp [chainWithin] at hn
    | succ m =>
      simp only [chainWithin] at hn
      obtain ⟨k, hk, hc⟩ := ih m hn
      exact ⟨k + 1, by rw [hk], chainWithin_succ objects k _ hc⟩

theorem not_isProperAncestor_self (objects : ObjId → Object3D Mat) (a : ObjId) :
    ∀ n, chainWithin objects n (objects a).parent = true → ¬ IsProperAncestor objects a a := by
  intro n
  induction n with
  | zero =>
    intro hn h
    obtain ⟨m, hm, _⟩ := chainWithin_of_isProperAncestor objects h 0 hn
    cases hm
  | succ k ih =>
    intro hn h
    obtain ⟨m, hm, hc⟩ := chainWithin_of_isProperAncestor objects h (k + 1) hn
    have hmk : m = k := by omega
    rw [hmk] at hc
    exact ih hc h

/-! ### The preview -/

theorem showPreview_fields (T : Three Mat) (w w1 : World Mat) (frame capturable : Eid)
    (h : showPreview T w frame capturable = .ok w1) :
    w1.MediaFrame.preview frame = w.nextEid
      ∧ w1.MediaFrame.previewingNid frame = w.Networked.id capturable
      ∧ w1.nextEid = w.nextEid + 1 := by
  simp only [showPreview, bind_eq_ok] at h
  obtain ⟨⟨wc, obj⟩, hc, bounds, _, hs⟩ := h
  obtain ⟨hobj, o3, mixer, hwc⟩ := createPreviewMesh_eq_ok T w wc frame capturable obj hc
  subst hobj
  subst hwc
  rw [snapToFrame_eq_ok] at hs
  obtain ⟨f, t, b, _, _, _, hw1⟩ := hs
  subst hw1
  simp [withMatrix, addEntity, addObject3DComponent]

theorem displayGuide_shape (w w1 : World Mat) (frame : Eid) (capturable : Option Eid)
    (heldMediaTypes : Nat) (h : displayGuide w frame capturable heldMediaTypes = .ok w1) :
    ∃ objs : ObjId → Object3D Mat, w1 = { w with objects := objs } := by
  simp only [displayGuide, bind_eq_ok, deref_eq_ok, pure_eq_ok] at h
  obtain ⟨g, _, hw1⟩ := h
  exact ⟨_, hw1.symm⟩

theorem display_stages (T : Three Mat) (w w1 : World Mat) (fuel : Nat) (frame captured : Eid)
    (heldMediaTypes : Nat) (h : display T w fuel frame captured heldMediaTypes = .ok w1) :
    ∃ capturable w0, displayCapturable w fuel frame = .ok capturable
      ∧ displayPreview T w frame capturable captured = .ok w0
      ∧ w1.MediaFrame = w0.MediaFrame ∧ w1.nextEid = w0.nextEid := by
  simp only [display, bind_eq_ok] at h
  obtain ⟨capturable, hc, w0, hp, hg⟩ := h
  obtain ⟨objs, e⟩ := displayGuide_shape w0 w1 frame _ _ hg
  exact ⟨capturable, w0, hc, hp, by rw [e], by rw [e]⟩

theorem displayPreview_cases (T : Three Mat) (w w0 : World Mat) (frame : Eid)
    (capturable : Option Eid) (captured : Eid)
    (h : displayPreview T w frame capturable captured = .ok w0) :
    (shouldPreviewBeVisible w capturable captured = true ∧ w.MediaFrame.preview frame = 0
        ∧ showPreview T w frame (if truthy capturable then capturable.getD 0 else captured)
            = .ok w0)
    ∨ (shouldPreviewBeVisible w capturable captured = false ∧ w.MediaFrame.preview frame ≠ 0
        ∧ w0 = hidePreview w frame)
    ∨ (shouldPreviewBeVisible w capturable captured = true ∧ w.MediaFrame.preview frame ≠ 0
        ∧ w0 = w)
    ∨ (shouldPreviewBeVisible w capturable captured = false ∧ w.MediaFrame.preview frame = 0
        ∧ w0 = w) := by
  unfold displayPreview at h
  cases hv : shouldPreviewBeVisible w capturable captured with
  | true =>
    rw [hv] at h
    by_cases hp : w.MediaFrame.preview frame = 0
    · simp only [hp, beq_self_eq_true, Bool.and_self, if_true] at h
      exact Or.inl ⟨rfl, hp, h⟩
    · have hb : (w.MediaFrame.preview frame == 0) = false := by simpa using hp
      simp only [hb, Bool.and_false, Bool.false_eq_true, if_false, Bool.not_true,
        Bool.false_and, pure_eq_ok] at h
      exact Or.inr (Or.inr (Or.inl ⟨rfl, hp, h.symm⟩))
  | false =>
    rw [hv] at h
    by_cases hp : w.MediaFrame.preview frame = 0
    · simp only [hp, Bool.false_and, Bool.false_eq_true, if_false, Bool.not_false,
        bne_self_eq_false, Bool.and_false, pure_eq_ok] at h
      exact Or.inr (Or.inr (Or.inr ⟨rfl, hp, h.symm⟩))
    · have hb : (w.MediaFrame.preview frame != 0) = true := by simpa using hp
      simp only [Bool.false_and, Bool.false_eq_true, if_false, Bool.not_false, hb,
        Bool.and_self, if_true, pure_eq_ok] at h
      exact Or.inr (Or.inl ⟨rfl, hp, h.symm⟩)

theorem shouldPreviewBeVisible_iff (w : World Mat) (fuel : Nat) (frame captured : Eid)
    (capturable : Option Eid) (h : displayCapturable w fuel frame = .ok capturable) :
    shouldPreviewBeVisible w capturable captured = true ↔
      VisibilityPredicate w fuel frame captured := by
  unfold displayCapturable at h
  unfold shouldPreviewBeVisible VisibilityPredicate
  by_cases hz : w.MediaFrame.capturedNid frame = 0
  · rw [if_pos hz] at h
    cases capturable with
    | none => simp [truthy, hasComponentOpt, hz, h]
    | some e =>
      simp only [truthy, hasComponentOpt, hz, h, true_and, Bool.or_eq_true, Bool.and_eq_true,
        bne_iff_ne, ne_eq, Except.ok.injEq, Option.some.injEq, exists_eq_left']
  · rw [if_neg hz, pure_eq_ok] at h
    subst h
    simp [truthy, hasComponentOpt, hz]

/-! ### Ownership standing, and grasping a captured entity -/

theorem captureGuard_no_standing (w : World Mat) (frame c : Eid) (ret : Bool)
    (hown : w.Owned c = false) (hret : isOwnedByRet w c = .ok ret)
    (hno : ret = false ∨ w.Owned frame = false) :
    captureGuard w frame c = .ok false := by
  have hst : ownershipStanding w frame c = .ok false := by
    unfold ownershipStanding
    rw [hown]
    simp only [Bool.false_eq_true, if_false, bind_eq_ok, pure_eq_ok]
    refine ⟨ret, hret, ?_⟩
    rcases hno with h | h
    · rw [h]; rfl
    · rw [h]; simp
  simp only [captureGuard, bind_eq_ok, pure_eq_ok]
  exact ⟨false, hst, by simp⟩

theorem arbitrate_eq_newCapture (T : Three Mat) (w : World Mat) (fuel : Nat) (frame : Eid)
    (hconf : w.NetworkedMediaFrame.capturedNid frame = 0)
    (h1 : resnapCond w frame = false) (h2 : evictCond w frame = false)
    (h3 : staleCond w frame = false) :
    arbitrate T w fuel frame = newCapture T w fuel frame := by
  unfold arbitrate
  rw [h1, h2, h3]
  simp only [Bool.false_eq_true, if_false, hconf, if_true]

theorem newCapture_of_guard (T : Three Mat) (w : World Mat) (fuel : Nat) (frame c : Eid)
    (ok : Bool) (hcand : getCapturableEntity w fuel frame = .ok (some c)) (hc0 : c ≠ 0)
    (hguard : captureGuard w frame c = .ok ok) :
    newCapture T w fuel frame = if ok then capture T w frame c else .ok w := by
  unfold newCapture
  rw [hcand]
  have ht : truthy (some c) = true := by simp [truthy, hc0]
  simp only [bind, Except.bind, ht, if_true, Option.getD_some, hguard]
  cases ok <;> rfl

theorem display_shows_when_held (T : Three Mat) (w w1 : World Mat) (fuel : Nat)
    (frame captured : Eid) (heldMediaTypes : Nat) (hne : w.nextEid ≠ 0)
    (hc : captured ≠ 0) (hheld : w.Held captured = true)
    (h : display T w fuel frame captured heldMediaTypes = .ok w1) :
    w1.MediaFrame.preview frame ≠ 0 := by
  obtain ⟨capturable, w0, _, hp, e1, _⟩ := display_stages T w w1 fuel frame captured _ h
  have hv : shouldPreviewBeVisible w capturable captured = true := by
    simp [shouldPreviewBeVisible, hc, hheld]
  rw [e1]
  rcases displayPreview_cases T w w0 frame capturable captured hp with
    ⟨_, _, hs⟩ | ⟨hv2, _, _⟩ | ⟨_, hz, e⟩ | ⟨hv2, _, _⟩
  · rw [(showPreview_fields T w w0 frame _ hs).1]
    exact hne
  · rw [hv] at hv2; cases hv2
  · rw [e]; exact hz
  · rw [hv] at hv2; cases hv2

theorem display_not_visible (T : Three Mat) (w w1 : World Mat) (fuel : Nat)
    (frame captured : Eid) (heldMediaTypes : Nat)
    (hnz : w.MediaFrame.capturedNid frame ≠ 0)
    (hheld : captured = 0 ∨ w.Held captured = false)
    (h : display T w fuel frame captured heldMediaTypes = .ok w1) :
    w1.MediaFrame.preview frame = 0
      ∧ ∀ o, (w1.objects o).matrixWorld = (w.objects o).matrixWorld := by
  simp only [display, bind_eq_ok] at h
  obtain ⟨capturable, hc, w0, hp, hg⟩ := h
  have hcap : capturable = none := by
    unfold displayCapturable at hc
    rw [if_neg hnz, pure_eq_ok] at hc
    exact hc.symm
  subst hcap
  have hv : shouldPreviewBeVisible w none captured = false := by
    rcases hheld with h0 | h0
    · simp [shouldPreviewBeVisible, truthy, h0]
    · simp [shouldPreviewBeVisible, truthy, h0]
  simp only [displayGuide, bind_eq_ok, deref_eq_ok, pure_eq_ok] at hg
  obtain ⟨g, _, hw1⟩ := hg
  have hmat : ∀ o, (w1.objects o).matrixWorld = (w0.objects o).matrixWorld := by
    intro o
    rw [← hw1]
    by_cases hog : o = g
    · subst hog; simp
    · simp [Function.update_noteq hog]
  have hpv : w1.MediaFrame.preview frame = w0.MediaFrame.preview frame := by rw [← hw1]
  rw [hpv]
  rcases displayPreview_cases T w w0 frame none captured hp with
    ⟨hv2, _, _⟩ | ⟨_, _, e⟩ | ⟨hv2, _, _⟩ | ⟨_, hz, e⟩
  · rw [hv] at hv2; cases hv2
  · refine ⟨by rw [e]; simp [hidePreview], ?_⟩
    intro o
    rw [hmat o, e]
    cases hq : w.eid2obj (w.MediaFrame.preview frame) with
    | none => simp [hidePreview, hq]
    | some q =>
      by_cases hoq : o = q
      · subst hoq; simp [hidePreview, hq]
      · simp [hidePreview, hq, Function.update_noteq hoq]
  · rw [hv] at hv2; cases hv2
  · refine ⟨by rw [e]; exact hz, ?_⟩
    intro o
    rw [hmat o, e]

theorem isCollidingLoop_releaseHeld (w : World Mat) (e eidB : Eid) :
    ∀ cs : List Uuid, isCollidingLoop (releaseHeld w e) eidB cs = isCollidingLoop w eidB cs := by
  intro cs
  induction cs with
  | nil => rfl
  | cons c rest ih =>
    simp only [isCollidingLoop, ih]
    rfl

theorem isColliding_releaseHeld (w : World Mat) (e eidA eidB : Eid) :
    isColliding (releaseHeld w e) eidA eidB = isColliding w eidA eidB :=
  isCollidingLoop_releaseHeld w e eidB _

theorem arbitrate_of_resnap (T : Three Mat) (w w1 : World Mat) (fuel : Nat) (frame : Eid)
    (hres : resnapCond w frame = true) (h : arbitrate T w fuel frame = .ok w1) :
    ∃ f t b, w.eid2obj frame = some f ∧ w.eid2obj (capturedOf w frame) = some t
      ∧ getEntityBounds w (capturedOf w frame) = .ok (some b)
      ∧ w1 = updateRigidBodyOptions
          (withMatrix w t (snapMatrix T (w.objects f).matrixWorld
            (mathMin [(w.MediaFrame.bounds frame).x.div b.x,
              (w.MediaFrame.bounds frame).y.div b.y, (w.MediaFrame.bounds frame).z.div b.z])))
          (capturedOf w frame) BodyType.kinematic := by
  rcases arbitrate_cases T w w1 fuel frame h with
    ⟨_, f, t, b, hf, ht, hb, e⟩ | ⟨hx, _⟩ | ⟨hx, _⟩ | ⟨hx, _⟩ | ⟨hx, _⟩
  · exact ⟨f, t, b, hf, ht, hb, e⟩
  all_goals (rw [hres] at hx; cases hx)

/-! ### What a pass of the loop body leaves alone -/

theorem showPreview_alloc (T : Three Mat) (w w1 : World Mat) (frame capturable : Eid)
    (h : showPreview T w frame capturable = .ok w1) :
    w1.nextObj = w.nextObj + 1
      ∧ w1.eid2obj = Function.update w.eid2obj w.nextEid (some w.nextObj) := by
  simp only [showPreview, bind_eq_ok] at h
  obtain ⟨⟨wc, obj⟩, hc, bounds, _, hs⟩ := h
  obtain ⟨hobj, o3, mixer, hwc⟩ := createPreviewMesh_eq_ok T w wc frame capturable obj hc
  subst hobj
  subst hwc
  rw [snapToFrame_eq_ok] at hs
  obtain ⟨f, t, b, _, _, _, hw1⟩ := hs
  subst hw1
  simp [withMatrix, addEntity, addObject3DComponent]

theorem display_alloc (T : Three Mat) (w w1 : World Mat) (fuel : Nat) (frame captured : Eid)
    (heldMediaTypes : Nat) (h : display T w fuel frame captured heldMediaTypes = .ok w1) :
    w.nextObj ≤ w1.nextObj
      ∧ ∀ e o, o ≠ w.nextObj → w1.eid2obj e = some o → w.eid2obj e = some o := by
  simp only [display, bind_eq_ok] at h
  obtain ⟨capturable, _, w0, hp, hg⟩ := h
  obtain ⟨objs, e⟩ := displayGuide_shape w0 w1 frame _ _ hg
  have h1 : w1.nextObj = w0.nextObj := by rw [e]
  have h2 : w1.eid2obj = w0.eid2obj := by rw [e]
  rw [h1, h2]
  rcases displayPreview_cases T w w0 frame _ _ hp with
    ⟨_, _, hs⟩ | ⟨_, _, e0⟩ | ⟨_, _, e0⟩ | ⟨_, _, e0⟩
  · obtain ⟨a1, a2⟩ := showPreview_alloc T w w0 frame _ hs
    rw [a1, a2]
    refine ⟨Nat.le_succ _, ?_⟩
    intro e o ho he
    by_cases hee : e = w.nextEid
    · subst hee
      rw [Function.update_same] at he
      exact absurd (Option.some.inj he).symm ho
    · rw [Function.update_noteq hee] at he
      exact he
  · rw [e0]
    exact ⟨Nat.le_refl _, fun _ _ _ he => he⟩
  · rw [e0]
    exact ⟨Nat.le_refl _, fun _ _ _ he => he⟩
  · rw [e0]
    exact ⟨Nat.le_refl _, fun _ _ _ he => he⟩

theorem processFrame_alloc (T : Three Mat) (fuel heldMediaTypes : Nat) (w w3 : World Mat)
    (frame : Eid) (h : processFrame T fuel heldMediaTypes w frame = .ok w3) :
    w.nextObj ≤ w3.nextObj
      ∧ ∀ e o, o ≠ w.nextObj → w3.eid2obj e = some o → w.eid2obj e = some o := by
  obtain ⟨w1, w2, h1, h2, h3⟩ := processFrame_stages T fuel heldMediaTypes w w3 frame h
  obtain ⟨objs, ps, claims, nmf, e1, _⟩ := arbitrate_shape T w w1 fuel frame h1
  obtain ⟨objs2, ps2, e2⟩ := reconcile_shape T w1 w2 frame _ _ h2
  have ha := display_alloc T _ w3 fuel frame _ _ h3
  subst e1
  subst e2
  exact ha

theorem arbitrate_leaves (T : Three Mat) (w w1 : World Mat) (fuel : Nat) (frame target : Eid)
    (o : ObjId) (h : arbitrate T w fuel frame = .ok w1)
    (hcap : capturedOf w frame ≠ target)
    (hcand : getCapturableEntity w fuel frame ≠ .ok (some target))
    (hinj : ∀ e, w.eid2obj e = some o → e = target) :
    (w1.objects o).matrixWorld = (w.objects o).matrixWorld
      ∧ w1.physicsSystem.bodyType target = w.physicsSystem.bodyType target := by
  rcases arbitrate_cases T w w1 fuel frame h with
    ⟨_, f, t, b, _, ht, _, e⟩ | ⟨_, _, e⟩ | ⟨_, _, _, e⟩ | ⟨_, _, _, _, hn⟩ | ⟨_, _, _, _, e⟩
  · have hto : o ≠ t := by
      intro hot
      rw [← hot] at ht
      exact hcap (hinj _ ht)
    rw [e]
    simp [updateRigidBodyOptions, withMatrix, Function.update_noteq hto,
      Function.update_noteq (Ne.symm hcap)]
  · rw [e]
    exact ⟨rfl, rfl⟩
  · rw [e]
    exact ⟨rfl, rfl⟩
  · rcases newCapture_cases T w w1 fuel frame hn with ⟨e, _⟩ | ⟨c, hc, _, _, hcapt⟩
    · rw [e]
      exact ⟨rfl, rfl⟩
    · have hct : c ≠ target := by
        intro hct
        rw [hct] at hc
        exact hcand hc
      rw [capture_eq_ok] at hcapt
      obtain ⟨oc, f, b, hoc, _, _, e⟩ := hcapt
      have hto : o ≠ oc := by
        intro hot
        rw [← hot] at hoc
        exact hct (hinj _ hoc)
      rw [e]
      simp [updateRigidBodyOptions, withMatrix, recordCapture, Function.update_noteq hto,
        Function.update_noteq (Ne.symm hct)]
  · rw [e]
    exact ⟨rfl, rfl⟩

theorem reconcile_leaves (T : Three Mat) (w w1 : World Mat) (frame captured target : Eid)
    (isCapturedOwned : Bool) (o : ObjId)
    (h : reconcile T w frame captured isCapturedOwned = .ok w1)
    (hcap : captured ≠ target) (hinj : ∀ e, w.eid2obj e = some o → e = target) :
    (w1.objects o).matrixWorld = (w.objects o).matrixWorld
      ∧ w1.physicsSystem.bodyType target = w.physicsSystem.bodyType target := by
  rcases reconcile_cases T w w1 frame captured isCapturedOwned h with ⟨e, _⟩ | ⟨_, o2, ho2, e⟩
  · rw [e]
    exact ⟨rfl, rfl⟩
  · have hto : o ≠ o2 := by
      intro hot
      rw [← hot] at ho2
      exact hcap (hinj _ ho2)
    rw [e]
    simp [updateBodyOptions, withMatrix, Function.update_noteq hto,
      Function.update_noteq (Ne.symm hcap)]

theorem processFrame_leaves (T : Three Mat) (fuel heldMediaTypes : Nat) (w w3 : World Mat)
    (frame target : Eid) (o : ObjId)
    (h : processFrame T fuel heldMediaTypes w frame = .ok w3)
    (hcap : capturedOf w frame ≠ target)
    (hcand : getCapturableEntity w fuel frame ≠ .ok (some target))
    (hfresh : o < w.nextObj)
    (hinj : ∀ e, w.eid2obj e = some o → e = target) :
    (w3.objects o).matrixWorld = (w.objects o).matrixWorld
      ∧ w3.physicsSystem.bodyType target = w.physicsSystem.bodyType target
      ∧ o < w3.nextObj ∧ ∀ e, w3.eid2obj e = some o → e = target := by
  obtain ⟨hle, hold⟩ := processFrame_alloc T fuel heldMediaTypes w w3 frame h
  obtain ⟨w1, w2, h1, h2, _, _, e3, _, _, hm⟩ :=
    processFrame_after T fuel heldMediaTypes w w3 frame h
  obtain ⟨a1, a2⟩ := arbitrate_leaves T w w1 fuel frame target o h1 hcap hcand hinj
  obtain ⟨objs, ps, claims, nmf, e1, _⟩ := arbitrate_shape T w w1 fuel frame h1
  have he2o : w1.eid2obj = w.eid2obj := by rw [e1]
  obtain ⟨b1, b2⟩ := reconcile_leaves T w1 w2 frame _ target _ o h2 hcap
    (by rw [he2o]; exact hinj)
  refine ⟨?_, ?_, Nat.lt_of_lt_of_le hfresh hle, ?_⟩
  · rw [hm o (Nat.ne_of_lt hfresh), b1, a1]
  · rw [e3, b2, a2]
  · intro e he
    exact hinj e (hold e o (Nat.ne_of_lt hfresh) he)

theorem foldlM_processFrame_leaves (T : Three Mat) (fuel heldMediaTypes : Nat) (target : Eid)
    (o : ObjId) :
    ∀ (post : List Eid) (w w3 : World Mat),
      post.foldlM (processFrame T fuel heldMediaTypes) w = .ok w3 →
      LaterPassesLeave T fuel heldMediaTypes target post w →
      o < w.nextObj → (∀ e, w.eid2obj e = some o → e = target) →
      (w3.objects o).matrixWorld = (w.objects o).matrixWorld
        ∧ w3.physicsSystem.bodyType target = w.physicsSystem.bodyType target := by
  intro post
  induction post with
  | nil =>
    intro w w3 h _ _ _
    rw [List.foldlM_nil, pure_eq_ok] at h
    subst h
    exact ⟨rfl, rfl⟩
  | cons g rest ih =>
    intro w w3 h hl hfresh hinj
    rw [List.foldlM_cons, bind_eq_ok] at h
    obtain ⟨wg, hstep, hrest⟩ := h
    obtain ⟨l1, l2, l3⟩ := hl
    obtain ⟨a1, a2, a3, a4⟩ :=
      processFrame_leaves T fuel heldMediaTypes w wg g target o hstep l1 l2 hfresh hinj
    obtain ⟨b1, b2⟩ := ih wg w3 hrest (l3 wg hstep) a3 a4
    exact ⟨b1.trans a1, b2.trans a2⟩

theorem foldlM_processFrame_off (T : Three Mat) (fuel heldMediaTypes : Nat) (frame : Eid) :
    ∀ (l : List Eid) (u u1 : World Mat),
      l.foldlM (processFrame T fuel heldMediaTypes) u = .ok u1 → frame ∉ l →
      u1.MediaFrame.capturedNid frame = u.MediaFrame.capturedNid frame
        ∧ u1.MediaFrame.scale frame = u.MediaFrame.scale frame := by
  intro l
  induction l with
  | nil =>
    intro u u1 hu _
    rw [List.foldlM_nil, pure_eq_ok] at hu
    subst hu
    exact ⟨rfl, rfl⟩
  | cons g l2 ih2 =>
    intro u u1 hu hnot
    rw [List.foldlM_cons, bind_eq_ok] at hu
    obtain ⟨ug, hg1, hg2⟩ := hu
    have hne : frame ≠ g := fun e => hnot (by rw [e]; exact List.mem_cons_self _ _)
    obtain ⟨_, _, _, _, hoff⟩ := processFrame_frame T fuel heldMediaTypes u ug g hg1
    obtain ⟨a1, a2, _, _⟩ := hoff frame hne
    obtain ⟨b1, b2⟩ := ih2 ug u1 hg2 (fun hm => hnot (List.mem_cons_of_mem _ hm))
    exact ⟨b1.trans a1, b2.trans a2⟩

theorem runBefore_eq_ok (T : Three Mat) (w wF : World Mat) (fuel held : Nat) (pre : List Eid)
    (h : runBefore T w fuel pre = .ok (wF, held)) :
    ∃ w1, w.enteredMediaFramesQuery.foldlM onEntered w = .ok w1
      ∧ mediaTypesOf (w1.exitedMediaFramesQuery.foldl onExited w1)
          (w1.exitedMediaFramesQuery.foldl onExited w1).heldQuery = .ok held
      ∧ pre.foldlM (processFrame T fuel held) (w1.exitedMediaFramesQuery.foldl onExited w1)
          = .ok wF := by
  simp only [runBefore, bind_eq_ok, pure_eq_ok, Prod.mk.injEq] at h
  obtain ⟨w1, h1, held1, h2, wF1, h3, e1, e2⟩ := h
  subst e1
  subst e2
  exact ⟨w1, h1, h2, h3⟩

theorem mediaFramesSystem_split (T : Three Mat) (w wF wEnd : World Mat) (fuel held : Nat)
    (pre rest : List Eid) (hq : w.mediaFramesQuery = pre ++ rest)
    (hbefore : runBefore T w fuel pre = .ok (wF, held))
    (hrun : mediaFramesSystem T w fuel = .ok wEnd) :
    rest.foldlM (processFrame T fuel held) wF = .ok wEnd := by
  obtain ⟨w1, h1, h2, h3⟩ := runBefore_eq_ok T w wF fuel held pre hbefore
  simp only [mediaFramesSystem, bind_eq_ok] at hrun
  obtain ⟨w1b, g1, heldb, g2, g3⟩ := hrun
  rw [h1] at g1
  cases Except.ok.inj g1
  rw [h2] at g2
  cases Except.ok.inj g2
  have hshape := preludeShape_trans (foldlM_onEntered_shape _ w w1 h1)
    (foldl_onExited_shape w1.exitedMediaFramesQuery w1)
  obtain ⟨p1, _, _, _⟩ := preludeShape_fields hshape
  rw [p1, hq, List.foldlM_append, h3] at g3
  exact g3

theorem runBefore_scale (T : Three Mat) (w wF : World Mat) (fuel held : Nat) (pre : List Eid)
    (frame : Eid) (hbefore : runBefore T w fuel pre = .ok (wF, held)) (hnot : frame ∉ pre) :
    wF.MediaFrame.scale frame = w.MediaFrame.scale frame := by
  obtain ⟨w1, h1, _, h3⟩ := runBefore_eq_ok T w wF fuel held pre hbefore
  have hshape := preludeShape_trans (foldlM_onEntered_shape _ w w1 h1)
    (foldl_onExited_shape w1.exitedMediaFramesQuery w1)
  obtain ⟨_, p2, _, _⟩ := preludeShape_fields hshape
  rw [(foldlM_processFrame_off T fuel held frame pre _ wF h3 hnot).2, p2]

theorem processFrame_release (T : Three Mat) (fuel heldMediaTypes : Nat) (w w1 w3 : World Mat)
    (frame : Eid) (o : ObjId)
    (hcap : capturedOf w frame ≠ 0)
    (hexists : w.entityExists (capturedOf w frame) = true)
    (howned : w.Owned (capturedOf w frame) = true)
    (hobj : w.eid2obj (capturedOf w frame) = some o) (hfresh : o ≠ w.nextObj)
    (harb : arbitrate T w fuel frame = .ok w1)
    (hdiff : w1.NetworkedMediaFrame.capturedNid frame ≠ w.MediaFrame.capturedNid frame)
    (hrun : processFrame T fuel heldMediaTypes w frame = .ok w3) :
    (w3.objects o).matrixWorld
        = T.compose (T.decompose (w1.objects o).matrixWorld).1
            (T.decompose (w1.objects o).matrixWorld).2.1 (w.MediaFrame.scale frame)
      ∧ w3.physicsSystem.bodyType (capturedOf w frame) = BodyType.dynamic := by
  obtain ⟨w1b, w2, h1, h2, _, _, e3, _, _, hm⟩ :=
    processFrame_after T fuel heldMediaTypes w w3 frame hrun
  rw [harb] at h1
  cases Except.ok.inj h1
  obtain ⟨objs, ps, claims, nmf, e1, _⟩ := arbitrate_shape T w w1 fuel frame harb
  have hmf : w1.MediaFrame = w.MediaFrame := by rw [e1]
  have hex : w1.entityExists = w.entityExists := by rw [e1]
  have he2o : w1.eid2obj = w.eid2obj := by rw [e1]
  rcases reconcile_cases T w1 w2 frame _ _ h2 with ⟨_, hc⟩ | ⟨_, o2, ho2, e2⟩
  · rw [hmf, hex, hexists, howned] at hc
    simp [hdiff, hcap] at hc
  · rw [he2o, hobj] at ho2
    cases ho2
    rw [hm o hfresh, e3, e2, hmf]
    simp [updateBodyOptions, withMatrix]
/-! ## The claims -/

/-- Claim C7 (amended). For positive finite extents `scaleForAspectFit` returns the least of the
three binary64 quotients `W / w`, `H / h`, `D / d`: it is one of them and is `<=` each of them.
When the three quotients are exact (no rounding), the factor `s` is the exact minimum and
`s * w <= W`, `s * h <= H`, `s * d <= D` with equality on at least one axis. -/
theorem scaleForAspectFit_least_quotient (W H D w h d : ℚ)
    (hW : 0 < W) (hH : 0 < H) (hD : 0 < D) (hw : 0 < w) (hh : 0 < h) (hd : 0 < d) :
    ∃ s, scaleForAspectFit ⟨.fin W, .fin H, .fin D⟩ (some ⟨.fin w, .fin h, .fin d⟩) = .ok s
      ∧ (s = (JSNum.fin W).div (.fin w) ∨ s = (JSNum.fin H).div (.fin h)
          ∨ s = (JSNum.fin D).div (.fin d))
      ∧ s.le ((JSNum.fin W).div (.fin w)) = true
      ∧ s.le ((JSNum.fin H).div (.fin h)) = true
      ∧ s.le ((JSNum.fin D).div (.fin d)) = true
      ∧ ((JSNum.fin W).div (.fin w) = .fin (W / w) → (JSNum.fin H).div (.fin h) = .fin (H / h) →
          (JSNum.fin D).div (.fin d) = .fin (D / d) →
          ∃ r, s = .fin r ∧ r = min (min (W / w) (H / h)) (D / d)
            ∧ r * w ≤ W ∧ r * h ≤ H ∧ r * d ≤ D
            ∧ (r * w = W ∨ r * h = H ∨ r * d = D)) := by
  refine ⟨_, rfl, ?_⟩
  obtain ⟨c, l1, l2, l3⟩ :=
    mathMin_three (div_of_pos hW hw) (div_of_pos hH hh) (div_of_pos hD hd)
  refine ⟨c, l1, l2, l3, ?_⟩
  intro e1 e2 e3
  refine ⟨_, ?_, rfl, ?_, ?_, ?_, ?_⟩
  · simp only [e1, e2, e3]
    exact mathMin_three_fin _ _ _
  · calc min (min (W / w) (H / h)) (D / d) * w ≤ W / w * w :=
          mul_le_mul_of_nonneg_right (le_trans (min_le_left _ _) (min_le_left _ _)) hw.le
      _ = W := div_mul_cancel₀ W (ne_of_gt hw)
  · calc min (min (W / w) (H / h)) (D / d) * h ≤ H / h * h :=
          mul_le_mul_of_nonneg_right (le_trans (min_le_left _ _) (min_le_right _ _)) hh.le
      _ = H := div_mul_cancel₀ H (ne_of_gt hh)
  · calc min (min (W / w) (H / h)) (D / d) * d ≤ D / d * d :=
          mul_le_mul_of_nonneg_right (min_le_right _ _) hd.le
      _ = D := div_mul_cancel₀ D (ne_of_gt hd)
  · rcases min_choice (min (W / w) (H / h)) (D / d) with e | e
    · rcases min_choice (W / w) (H / h) with e' | e'
      · left; rw [e, e']; exact div_mul_cancel₀ W (ne_of_gt hw)
      · right; left; rw [e, e']; exact div_mul_cancel₀ H (ne_of_gt hh)
    · right; right; rw [e]; exact div_mul_cancel₀ D (ne_of_gt hd)

/-- Witness for claim C7: the theorem applied in a concrete room. -/
theorem scaleForAspectFit_least_quotient_witness :
    ∃ s, scaleForAspectFit ⟨.fin 2, .fin 1, .fin 1⟩ (some ⟨.fin 4, .fin 1, .fin 2⟩) = .ok s
      ∧ s = .fin (1 / 2) :=
  by
    obtain ⟨s, hs, _, _, _, _, hex⟩ := scaleForAspectFit_least_quotient 2 1 1 4 1 2
      (by norm_num) (by norm_num) (by norm_num) (by norm_num) (by norm_num) (by norm_num)
    obtain ⟨r, hr, hr2, _⟩ := hex (by decide!) (by decide!) (by decide!)
    refine ⟨s, hs, ?_⟩
    rw [hr, hr2]
    norm_num

/-- Claim C7 (counterexample). For the cube of side 1 and the item of side 49 the factor is the
binary64 quotient `1 / 49`, which is not the exact quotient, and on no axis does the factor times
the item extent give the container extent, neither exactly nor in binary64 arithmetic. For the
cube of side 30 and the item of side 794 the factor times the item extent exceeds the container
extent, exactly and in binary64 arithmetic. -/
theorem scaleForAspectFit_no_exact_axis :
    (scaleForAspectFit ⟨.fin 1, .fin 1, .fin 1⟩ (some ⟨.fin 49, .fin 49, .fin 49⟩)
        = .ok (.fin (5882252574524729 / 288230376151711744))
      ∧ (5882252574524729 / 288230376151711744 : ℚ) ≠ 1 / 49
      ∧ (5882252574524729 / 288230376151711744 : ℚ) * 49 ≠ 1
      ∧ (JSNum.fin (5882252574524729 / 288230376151711744)).mul (.fin 49) ≠ .fin 1)
    ∧ (scaleForAspectFit ⟨.fin 30, .fin 30, .fin 30⟩ (some ⟨.fin 794, .fin 794, .fin 794⟩)
        = .ok (.fin (2722579119820955 / 72057594037927936))
      ∧ ¬ ((2722579119820955 / 72057594037927936 : ℚ) * 794 ≤ 30)
      ∧ (JSNum.fin (2722579119820955 / 72057594037927936)).mul (.fin 794)
          = .fin (8444249301319681 / 281474976710656)
      ∧ ¬ ((8444249301319681 / 281474976710656 : ℚ) ≤ 30)) := by
  refine ⟨⟨by decide!, by norm_num, by norm_num, by decide!⟩,
    ⟨by decide!, by norm_num, by decide!, by norm_num⟩⟩

/-- Claim C8. The transform `snapToFrame` gives the target is
`compose(frame position, frame rotation, frame scale * aspect-fit factor)`; it is the same
whatever the target's previous world matrix was, and for a target other than the frame itself
a second call with unchanged inputs leaves the world as the first call left it. -/
theorem snapToFrame_pure_idempotent (T : Three Mat) (w : World Mat) (frame target : Eid)
    (f t : ObjId) (b : Vec3)
    (hf : w.eid2obj frame = some f) (ht : w.eid2obj target = some t) (hne : t ≠ f) :
    ∃ w1 factor, scaleForAspectFit (w.MediaFrame.bounds frame) (some b) = .ok factor
      ∧ snapToFrame T w frame target (some b) = .ok w1
      ∧ (w1.objects t).matrixWorld
          = T.compose (T.decompose (w.objects f).matrixWorld).1
              (T.decompose (w.objects f).matrixWorld).2.1
              ((T.decompose (w.objects f).matrixWorld).2.2.multiplyScalar factor)
      ∧ (∀ m w0, setMatrixWorld w (some t) m = .ok w0 →
          snapToFrame T w0 frame target (some b) = .ok w1)
      ∧ snapToFrame T w1 frame target (some b) = .ok w1 := by
  refine ⟨_, _, rfl, (snapToFrame_eq_ok T w _ frame target (some b)).2
    ⟨f, t, b, hf, ht, rfl, rfl⟩, ?_, ?_, ?_⟩
  · simp [snapMatrix, withMatrix]
  · intro m w0 h0
    rw [setMatrixWorld_some] at h0
    cases Except.ok.inj h0
    refine (snapToFrame_eq_ok T _ _ frame target (some b)).2 ⟨f, t, b, hf, ht, rfl, ?_⟩
    rw [withMatrix_idem]
    simp [withMatrix, Function.update_noteq (Ne.symm hne)]
  · refine (snapToFrame_eq_ok T _ _ frame target (some b)).2 ⟨f, t, b, hf, ht, rfl, ?_⟩
    rw [withMatrix_idem]
    simp [withMatrix, Function.update_noteq (Ne.symm hne)]

/-- Witness for claim C8: the theorem applied in a concrete room. -/
theorem snapToFrame_pure_idempotent_witness :
    ∃ w1, snapToFrame trsThree demoWorld 1 2 (some (v3 2 1 1)) = .ok w1
      ∧ (w1.objects 2).matrixWorld
          = (v3 1 0 0, 1, (v3 3 3 3).multiplyScalar (mathMin [(JSNum.fin 1).div (.fin 2),
              (JSNum.fin 1).div (.fin 1), (JSNum.fin 1).div (.fin 1)]))
      ∧ snapToFrame trsThree w1 1 2 (some (v3 2 1 1)) = .ok w1 := by
  obtain ⟨w1, factor, hfac, h1, h2, _, h3⟩ :=
    snapToFrame_pure_idempotent trsThree demoWorld 1 2 1 2 (v3 2 1 1)
      (by decide) (by decide) (by decide)
  cases Except.ok.inj hfac
  exact ⟨w1, h1, h2, h3⟩

/-- Claim C9. When `getCapturableEntity` returns, the entity it returns is carried by a body of
the frame's collision list that satisfies the four eligibility conditions (accepted media
type, so never mask zero; not loading; not listed by another frame; object not an ancestor of
the frame's object), no earlier body of the list satisfies them, and it returns `null` exactly
when no body of the list does. It does return when every colliding body resolves to an object
whose mask can be read, the frame has an object, and the fuel covers the frame's parent
chain. -/
theorem getCapturableEntity_eligibility (w : World Mat) (fuel : Nat) (frame : Eid) :
    (∀ r, getCapturableEntity w fuel frame = .ok r →
      (∀ e, r = some e → ∃ pre c post,
          w.physicsSystem.getCollisions (w.Rigidbody.bodyId frame) = pre ++ c :: post
          ∧ Eligible w frame c e ∧ ∀ c2 ∈ pre, ∀ e2, ¬ Eligible w frame c2 e2)
      ∧ (r = none ↔ ∀ c ∈ w.physicsSystem.getCollisions (w.Rigidbody.bodyId frame),
          ∀ e2, ¬ Eligible w frame c e2))
    ∧ (∀ fo, w.eid2obj frame = some fo →
        chainWithin w.objects fuel (w.objects fo).parent = true →
        (∀ c ∈ w.physicsSystem.getCollisions (w.Rigidbody.bodyId frame),
          ∃ bodyData o mask, w.physicsSystem.bodyUuidToData c = some bodyData
            ∧ bodyData.object3D = some o ∧ mediaTypeMaskFor w (w.objects o).eid = .ok mask) →
        ∃ r, getCapturableEntity w fuel frame = .ok r) := by
  constructor
  · intro r h
    obtain ⟨h1, h2⟩ := getCapturableEntityLoop_spec w fuel frame _ r h
    refine ⟨h1, h2, ?_⟩
    intro hall
    cases r with
    | none => rfl
    | some e =>
      obtain ⟨pre, c, post, hsplit, hel, _⟩ := h1 e rfl
      exact absurd hel (hall c (by rw [hsplit]; simp) e)
  · intro fo hfo hchain hres
    exact getCapturableEntityLoop_total w fuel frame fo hfo hchain _ hres

/-- Witness for claim C9: the theorem applied in a concrete room. -/
theorem getCapturableEntity_eligibility_witness :
    getCapturableEntity demoWorld 5 1 = .ok (some 2) ∧ Eligible demoWorld 1 12 2 := by
  have hrun : getCapturableEntity demoWorld 5 1 = .ok (some 2) := by decide
  obtain ⟨pre, c, post, hsplit, hel, _⟩ :=
    ((getCapturableEntity_eligibility demoWorld 5 1).1 (some 2) hrun).1 2 rfl
  refine ⟨hrun, ?_⟩
  have hc : c = 12 := by
    have hmem : c ∈ demoWorld.physicsSystem.getCollisions (demoWorld.Rigidbody.bodyId 1) := by
      rw [hsplit]; simp
    have hlist : demoWorld.physicsSystem.getCollisions (demoWorld.Rigidbody.bodyId 1) = [12] := by
      decide
    rw [hlist] at hmem
    simpa using hmem
  rw [← hc]
  exact hel

/-- Claim C10 (counterexample). In the demo room with the image object parented to frame 1, the
object is a descendant of the frame's object and `getCapturableEntity` returns it. -/
theorem getCapturableEntity_returns_descendant :
    getCapturableEntity childWorld 5 1 = .ok (some 2)
      ∧ childWorld.eid2obj 1 = some 1 ∧ childWorld.eid2obj 2 = some 2
      ∧ childWorld.physicsSystem.bodyUuidToData 12 = some ⟨some 2⟩
      ∧ IsProperAncestor childWorld.objects 1 2 := by
  refine ⟨by decide, by decide, by decide, by decide, IsProperAncestor.parent (by decide)⟩

/-- Claim C10 (amended). An entity `getCapturableEntity` returns is carried by a colliding body
whose object is not an ancestor of the frame's object. -/
theorem getCapturableEntity_not_ancestor (w : World Mat) (fuel : Nat) (frame e : Eid)
    (h : getCapturableEntity w fuel frame = .ok (some e)) :
    ∃ c bodyData o fo, c ∈ w.physicsSystem.getCollisions (w.Rigidbody.bodyId frame)
      ∧ w.physicsSystem.bodyUuidToData c = some bodyData ∧ bodyData.object3D = some o
      ∧ (w.objects o).eid = e ∧ w.eid2obj frame = some fo
      ∧ ¬ IsProperAncestor w.objects o fo := by
  obtain ⟨pre, c, post, hsplit, ⟨bd, o, mask, fo, h1, h2, h3, _, _, _, _, h8, h9⟩, _⟩ :=
    (getCapturableEntityLoop_spec w fuel frame _ _ h).1 e rfl
  exact ⟨c, bd, o, fo, by rw [hsplit]; simp, h1, h2, h3, h8, h9⟩

/-- Witness for claim C10: the theorem applied in a concrete room. -/
theorem getCapturableEntity_not_ancestor_witness :
    ∃ c bodyData o fo, c ∈ demoWorld.physicsSystem.getCollisions (demoWorld.Rigidbody.bodyId 1)
      ∧ demoWorld.physicsSystem.bodyUuidToData c = some bodyData ∧ bodyData.object3D = some o
      ∧ (demoWorld.objects o).eid = 2 ∧ demoWorld.eid2obj 1 = some fo
      ∧ ¬ IsProperAncestor demoWorld.objects o fo :=
  getCapturableEntity_not_ancestor demoWorld 5 1 2 (by decide)

/-- Claim C6. When the loop body has processed a frame, whichever clause fired, the frame's local
captured id and scale equal the confirmed ones; and when a run of the system returns, this holds
for every frame of the query. -/
theorem local_equals_confirmed_after_tick (T : Three Mat) (fuel : Nat) :
    (∀ (heldMediaTypes : Nat) (w w1 : World Mat) (frame : Eid),
      processFrame T fuel heldMediaTypes w frame = .ok w1 →
      w1.MediaFrame.capturedNid frame = w1.NetworkedMediaFrame.capturedNid frame
        ∧ w1.MediaFrame.scale frame = w1.NetworkedMediaFrame.scale frame)
    ∧ (∀ (w w1 : World Mat), mediaFramesSystem T w fuel = .ok w1 →
      ∀ frame ∈ w.mediaFramesQuery,
        w1.MediaFrame.capturedNid frame = w1.NetworkedMediaFrame.capturedNid frame
          ∧ w1.MediaFrame.scale frame = w1.NetworkedMediaFrame.scale frame) := by
  constructor
  · intro held w w1 frame h
    obtain ⟨_, _, h3, h4, _⟩ := processFrame_frame T fuel held w w1 frame h
    exact ⟨h3, h4⟩
  · intro w w1 h frame hf
    obtain ⟨w2, held, ⟨_, _, _, _, e⟩, _, hfold⟩ := mediaFramesSystem_loop T w w1 fuel h
    subst e
    exact foldlM_processFrame_synced T fuel held _ _ w1 hfold frame hf

/-- Witness for claim C6: the theorem applied in a concrete room. -/
theorem local_equals_confirmed_after_tick_witness :
    ∃ w1, mediaFramesSystem trsThree demoWorld 5 = .ok w1
      ∧ (w1.MediaFrame.capturedNid 1 = w1.NetworkedMediaFrame.capturedNid 1
        ∧ w1.MediaFrame.scale 1 = w1.NetworkedMediaFrame.scale 1)
      ∧ w1.NetworkedMediaFrame.capturedNid 1 = 42 := by
  obtain ⟨w1, hrun, h42⟩ := exists_ok_of_holdsAfter
    (by decide : holdsAfter (mediaFramesSystem trsThree demoWorld 5)
      (fun w1 => w1.NetworkedMediaFrame.capturedNid 1 = 42))
  exact ⟨w1, hrun,
    (local_equals_confirmed_after_tick trsThree 5).2 demoWorld w1 hrun 1 (by decide), h42⟩

/-- Claim C1 (counterexample). Frame 5 holds the confirmed id 42 but its local id is still 0;
frame 1, processed first, does not see the claim and captures the same object: after the run
both frames have confirmed id 42, the network id of entity 2. -/
theorem atMostOneOwner_broken_by_unsynced_frame :
    (∀ n, n ≠ 0 → ∀ f ∈ raceWorld.mediaFramesQuery, ∀ g ∈ raceWorld.mediaFramesQuery,
        raceWorld.NetworkedMediaFrame.capturedNid f = n →
        raceWorld.NetworkedMediaFrame.capturedNid g = n → f = g)
      ∧ holdsAfter (mediaFramesSystem trsThree raceWorld 5) (fun w1 =>
          w1.mediaFramesQuery = [1, 5] ∧ w1.Networked.id 2 = 42
            ∧ w1.NetworkedMediaFrame.capturedNid 1 = 42
            ∧ w1.NetworkedMediaFrame.capturedNid 5 = 42) := by
  refine ⟨?_, by decide⟩
  intro n hn f hf g hg h1 h2
  have hf2 : f = 1 ∨ f = 5 := by simpa [raceWorld] using hf
  have hg2 : g = 1 ∨ g = 5 := by simpa [raceWorld] using hg
  rcases hf2 with rfl | rfl <;> rcases hg2 with rfl | rfl
  · rfl
  · exact absurd (by simpa [raceWorld] using h1) (Ne.symm hn)
  · exact absurd (by simpa [raceWorld] using h2) (Ne.symm hn)
  · rfl

/-- Claim C1 (amended). If at the start of a run every frame whose confirmed captured id is
not zero has the same local captured id, and no non-zero network id is the confirmed captured
id of two frames, then after the run no non-zero network id is the confirmed captured id of two
frames; in particular every object with a non-zero network id is confirmed-captured by at most
one frame. A frame whose confirmed id is zero may start the run with any local id, as it does
after a release confirmed from outside. -/
theorem atMostOneOwner_preserved (T : Three Mat) (w w1 : World Mat) (fuel : Nat)
    (hrun : mediaFramesSystem T w fuel = .ok w1)
    (hsync : ∀ f ∈ w.mediaFramesQuery, w.NetworkedMediaFrame.capturedNid f ≠ 0 →
      w.MediaFrame.capturedNid f = w.NetworkedMediaFrame.capturedNid f)
    (huniq : ∀ n, n ≠ 0 → ∀ f ∈ w.mediaFramesQuery, ∀ g ∈ w.mediaFramesQuery,
      w.NetworkedMediaFrame.capturedNid f = n → w.NetworkedMediaFrame.capturedNid g = n → f = g) :
    w1.mediaFramesQuery = w.mediaFramesQuery
      ∧ (∀ n, n ≠ 0 → ∀ f ∈ w1.mediaFramesQuery, ∀ g ∈ w1.mediaFramesQuery,
          w1.NetworkedMediaFrame.capturedNid f = n →
          w1.NetworkedMediaFrame.capturedNid g = n → f = g)
      ∧ (∀ e, w1.Networked.id e ≠ 0 → ∀ f ∈ w1.mediaFramesQuery, ∀ g ∈ w1.mediaFramesQuery,
          w1.NetworkedMediaFrame.capturedNid f = w1.Networked.id e →
          w1.NetworkedMediaFrame.capturedNid g = w1.Networked.id e → f = g) := by
  obtain ⟨w2, held, hshape, _, hfold⟩ := mediaFramesSystem_loop T w w1 fuel hrun
  obtain ⟨p1, p2, p3, _⟩ := preludeShape_fields hshape
  rw [p1] at hfold
  obtain ⟨q, _, _, u⟩ := foldlM_processFrame_invariant T fuel held w.mediaFramesQuery
    w.mediaFramesQuery w2 w1 (fun _ hx => hx) p1 (by rw [p2, p3]; exact hsync)
    (by
      rw [p3]
      exact fun f hf g hg heq hnz => huniq _ hnz f hf g hg rfl heq.symm) hfold
  have hall : ∀ n, n ≠ 0 → ∀ f ∈ w1.mediaFramesQuery, ∀ g ∈ w1.mediaFramesQuery,
      w1.NetworkedMediaFrame.capturedNid f = n →
      w1.NetworkedMediaFrame.capturedNid g = n → f = g := by
    intro n hn f hf g hg h1 h2
    rw [q] at hf hg
    exact u f hf g hg (h1.trans h2.symm) (by rw [h1]; exact hn)
  exact ⟨q, hall, fun e he => hall _ he⟩

/-- Witness for claim C1: the theorem applied in a concrete room with two frames, in which
frame 1 still lists the image object locally (local id 42) after its release was confirmed
from outside (confirmed id 0). In the run frame 1 lets the object go and frame 5 captures it. -/
theorem atMostOneOwner_preserved_witness :
    releaseBothWorld.MediaFrame.capturedNid 1 = 42
      ∧ releaseBothWorld.NetworkedMediaFrame.capturedNid 1 = 0
      ∧ ∃ w1, mediaFramesSystem trsThree releaseBothWorld 5 = .ok w1
        ∧ w1.NetworkedMediaFrame.capturedNid 5 = 42
        ∧ ∀ g ∈ w1.mediaFramesQuery, w1.NetworkedMediaFrame.capturedNid g = 42 → 5 = g := by
  refine ⟨by decide, by decide, ?_⟩
  obtain ⟨w1, hrun, h42⟩ := exists_ok_of_holdsAfter
    (by decide : holdsAfter (mediaFramesSystem trsThree releaseBothWorld 5)
      (fun w1 => w1.NetworkedMediaFrame.capturedNid 5 = 42))
  obtain ⟨q, hall, _⟩ := atMostOneOwner_preserved trsThree releaseBothWorld w1 5 hrun
    (by
      intro f _ hnz
      exact absurd rfl hnz)
    (by
      intro n hn f _ g _ h1 _
      exact absurd h1.symm hn)
  refine ⟨w1, hrun, h42, ?_⟩
  intro g hg hg42
  exact hall 42 (by decide) 5 (by rw [q]; decide) g hg h42 hg42

/-- Claim C4. When the re-snap clause does not match and the frame is locally owned with its
captured network id in the deleted set, or the captured entity is resolvable, locally owned and
no longer colliding with the frame, or the frame is being torn down, the clause chain requests
ownership of the frame and clears the confirmed id and scale; when the loop body returns, the
frame's confirmed and local captured id are zero and both scales are `(0, 0, 0)`. -/
theorem evict_clears (T : Three Mat) (fuel heldMediaTypes : Nat) (w : World Mat) (frame : Eid)
    (hres : resnapCond w frame = false)
    (hev : (w.Owned frame = true ∧ w.MediaFrame.capturedNid frame ≠ 0
          ∧ w.deletedNids (w.MediaFrame.capturedNid frame) = true)
        ∨ (capturedOf w frame ≠ 0 ∧ w.Owned (capturedOf w frame) = true
          ∧ isColliding w frame (capturedOf w frame) = false)
        ∨ isFrameDeleting w frame = true) :
    arbitrate T w fuel frame = .ok (clearCaptured (takeOwnership w frame) frame)
      ∧ ∀ w3, processFrame T fuel heldMediaTypes w frame = .ok w3 →
          w3.ownershipClaims = w.ownershipClaims ++ [frame]
          ∧ w3.NetworkedMediaFrame.capturedNid frame = 0
          ∧ w3.MediaFrame.capturedNid frame = 0
          ∧ w3.NetworkedMediaFrame.scale frame = Vec3.zero
          ∧ w3.MediaFrame.scale frame = Vec3.zero := by
  have hev2 : evictCond w frame = true := by
    unfold evictCond
    rcases hev with ⟨h1, h2, h3⟩ | ⟨h1, h2, h3⟩ | h1
    · simp [h1, h2, h3]
    · simp [h1, h2, h3, collidingOf]
    · simp [h1]
  have harb : arbitrate T w fuel frame = .ok (clearCaptured (takeOwnership w frame) frame) := by
    unfold arbitrate
    rw [hres, hev2]
    rfl
  refine ⟨harb, ?_⟩
  intro w3 h
  obtain ⟨w1, w2, h1, _, e1, e2, _, e4, e5, _⟩ :=
    processFrame_after T fuel heldMediaTypes w w3 frame h
  rw [harb] at h1
  cases Except.ok.inj h1
  rw [e1, e2, e4, e5]
  simp [clearCaptured, takeOwnership]

/-- Witness for claim C4: the theorem applied in a concrete room. -/
theorem evict_clears_witness :
    arbitrate trsThree evictWorld 5 1 = .ok (clearCaptured (takeOwnership evictWorld 1) 1)
      ∧ ∃ w3, processFrame trsThree 5 0 evictWorld 1 = .ok w3
          ∧ w3.ownershipClaims = [1] ∧ w3.NetworkedMediaFrame.capturedNid 1 = 0 := by
  obtain ⟨harb, hall⟩ := evict_clears trsThree 5 0 evictWorld 1 (by decide)
    (Or.inr (Or.inl ⟨by decide, by decide, by decide⟩))
  obtain ⟨w3, hrun, _⟩ := exists_ok_of_holdsAfter
    (by decide : holdsAfter (processFrame trsThree 5 0 evictWorld 1) (fun _ => True))
  obtain ⟨h1, h2, _⟩ := hall w3 hrun
  exact ⟨harb, w3, hrun, h1, h2⟩

/-- Claim C5 (counterexample). Frame 1 is not locally owned and lists the unresolvable network id
77; after a run the confirmed and the local captured id are still 77. -/
theorem stale_reference_kept_by_non_owner :
    staleWorld.MediaFrame.capturedNid 1 = 77
      ∧ staleWorld.nid2eid (staleWorld.MediaFrame.capturedNid 1) = none
      ∧ holdsAfter (mediaFramesSystem trsThree staleWorld 5) (fun w1 =>
          w1.NetworkedMediaFrame.capturedNid 1 = 77 ∧ w1.MediaFrame.capturedNid 1 = 77) := by
  decide

/-- Claim C5 (amended). For a frame that is locally owned or being torn down, whose captured id
is non-zero and has no entry in `world.nid2eid`, the clause chain clears the confirmed id, and
when the loop body returns the frame's confirmed and local captured id are zero. -/
theorem stale_reference_cleared (T : Three Mat) (fuel heldMediaTypes : Nat) (w : World Mat)
    (frame : Eid)
    (hown : w.Owned frame = true ∨ isFrameDeleting w frame = true)
    (hn : w.MediaFrame.capturedNid frame ≠ 0)
    (hunres : w.nid2eid (w.MediaFrame.capturedNid frame) = none) :
    (∃ w1, arbitrate T w fuel frame = .ok w1 ∧ w1.NetworkedMediaFrame.capturedNid frame = 0)
      ∧ ∀ w3, processFrame T fuel heldMediaTypes w frame = .ok w3 →
          w3.NetworkedMediaFrame.capturedNid frame = 0 ∧ w3.MediaFrame.capturedNid frame = 0 := by
  have hcap : capturedOf w frame = 0 := by simp [capturedOf, hunres]
  have hres : resnapCond w frame = false := by simp [resnapCond, hcap]
  have harb : ∃ w1, arbitrate T w fuel frame = .ok w1
      ∧ w1.NetworkedMediaFrame.capturedNid frame = 0 := by
    unfold arbitrate
    rw [hres]
    cases hev : evictCond w frame with
    | true => exact ⟨_, rfl, by simp [clearCaptured, takeOwnership]⟩
    | false =>
      have hst : staleCond w frame = true := by
        rcases hown with ho | hd
        · simp [staleCond, ho, hn, hcap]
        · simp [evictCond, hd] at hev
      rw [hst]
      exact ⟨_, rfl, by simp [clearCaptured]⟩
  refine ⟨harb, ?_⟩
  intro w3 h
  obtain ⟨w1, harb1, hz⟩ := harb
  obtain ⟨w1b, w2, h1, _, e1, _, _, e4, _, _⟩ :=
    processFrame_after T fuel heldMediaTypes w w3 frame h
  rw [harb1] at h1
  cases Except.ok.inj h1
  rw [e1, e4]
  exact ⟨hz, hz⟩

/-- Witness for claim C5: the theorem applied in a concrete room. -/
theorem stale_reference_cleared_witness :
    ∃ w3, processFrame trsThree 5 0 staleOwnedWorld 1 = .ok w3
      ∧ w3.NetworkedMediaFrame.capturedNid 1 = 0 ∧ w3.MediaFrame.capturedNid 1 = 0 := by
  obtain ⟨w3, hrun, _⟩ := exists_ok_of_holdsAfter
    (by decide : holdsAfter (processFrame trsThree 5 0 staleOwnedWorld 1) (fun _ => True))
  exact ⟨w3, hrun, (stale_reference_cleared trsThree 5 0 staleOwnedWorld 1
    (Or.inl (by decide)) (by decide) (by decide)).2 w3 hrun⟩

/-- Claim C3 (counterexample). In the room in which frame 1 still lists the image object
locally (local id 42, remembered scale 2 x 2 x 2; the object exists and is locally owned) while
its confirmed id is 0, and the object touches frames 1 and 5: the pass for frame 1 restores the
scale 2 x 2 x 2 and makes the object dynamic, but frame 5, processed next in the same run,
captures the object, so at the end of the tick the object is kinematic and its world scale is
1.5 x 1.5 x 1.5, the snap scale for frame 5. -/
theorem release_undone_by_later_frame :
    releaseBothWorld.mediaFramesQuery = [1, 5]
      ∧ releaseBothWorld.MediaFrame.capturedNid 1 = 42 ∧ capturedOf releaseBothWorld 1 = 2
      ∧ releaseBothWorld.entityExists 2 = true ∧ releaseBothWorld.Owned 2 = true
      ∧ releaseBothWorld.MediaFrame.scale 1 = v3 2 2 2
      ∧ holdsAfter (arbitrate trsThree releaseBothWorld 5 1) (fun w1 =>
          w1.NetworkedMediaFrame.capturedNid 1 = 0)
      ∧ holdsAfter (processFrame trsThree 5 0 releaseBothWorld 1) (fun w3 =>
          trsThree.setFromMatrixScale (w3.objects 2).matrixWorld = v3 2 2 2
            ∧ w3.physicsSystem.bodyType 2 = BodyType.dynamic)
      ∧ holdsAfter (mediaFramesSystem trsThree releaseBothWorld 5) (fun wEnd =>
          wEnd.NetworkedMediaFrame.capturedNid 5 = 42
            ∧ trsThree.setFromMatrixScale (wEnd.objects 2).matrixWorld
                = v3 (3 / 2) (3 / 2) (3 / 2)
            ∧ trsThree.setFromMatrixScale (wEnd.objects 2).matrixWorld
                ≠ releaseBothWorld.MediaFrame.scale 1
            ∧ wEnd.physicsSystem.bodyType 2 = BodyType.kinematic) := by
  decide!

/-- Claim C3 (amended). Let a run of the system reach the pass of the loop body for a frame
in the state `wF`, the frames `post` following it in the query. If the frame's locally observed
captured id resolves to an existing, locally owned entity with object `o`, and after the clause
chain the confirmed captured id differs from the local one, then when the pass returns the
object's world matrix is `compose(position, rotation, MediaFrame.scale as it stood when the pass
began)`, position and rotation being those the object had after the clause chain (so also
after a re-snap by clause 1), and the entity's simulation mode is dynamic. If moreover no
frame of `post` has the entity as its captured entity or gets it from `getCapturableEntity`
when its own pass begins, the same holds at the end of the tick; for matrix operations with
`decompose (compose p q s) = (p, q, s)` the object's world scale is then exactly the
remembered scale and its position and rotation are unchanged by the restore. The remembered
scale is the one of tick start when the frame occurs once in the query. -/
theorem release_restores_scale (T : Three Mat) (fuel heldMediaTypes : Nat)
    (w wF w1 wF1 wEnd : World Mat) (pre post : List Eid) (frame : Eid) (o : ObjId)
    (hq : w.mediaFramesQuery = pre ++ frame :: post)
    (hbefore : runBefore T w fuel pre = .ok (wF, heldMediaTypes))
    (hcap : capturedOf wF frame ≠ 0)
    (hexists : wF.entityExists (capturedOf wF frame) = true)
    (howned : wF.Owned (capturedOf wF frame) = true)
    (hobj : wF.eid2obj (capturedOf wF frame) = some o) (hfresh : o < wF.nextObj)
    (hinj : ∀ e, wF.eid2obj e = some o → e = capturedOf wF frame)
    (harb : arbitrate T wF fuel frame = .ok w1)
    (hdiff : w1.NetworkedMediaFrame.capturedNid frame ≠ wF.MediaFrame.capturedNid frame)
    (hpass : processFrame T fuel heldMediaTypes wF frame = .ok wF1)
    (hlater : LaterPassesLeave T fuel heldMediaTypes (capturedOf wF frame) post wF1)
    (hrun : mediaFramesSystem T w fuel = .ok wEnd) :
    ((wF1.objects o).matrixWorld
          = T.compose (T.decompose (w1.objects o).matrixWorld).1
              (T.decompose (w1.objects o).matrixWorld).2.1 (wF.MediaFrame.scale frame)
        ∧ wF1.physicsSystem.bodyType (capturedOf wF frame) = BodyType.dynamic)
      ∧ ((wEnd.objects o).matrixWorld
          = T.compose (T.decompose (w1.objects o).matrixWorld).1
              (T.decompose (w1.objects o).matrixWorld).2.1 (wF.MediaFrame.scale frame)
        ∧ wEnd.physicsSystem.bodyType (capturedOf wF frame) = BodyType.dynamic)
      ∧ ((∀ p q s, T.decompose (T.compose p q s) = (p, q, s)) →
          T.decompose (wEnd.objects o).matrixWorld
            = ((T.decompose (w1.objects o).matrixWorld).1,
               (T.decompose (w1.objects o).matrixWorld).2.1, wF.MediaFrame.scale frame))
      ∧ (frame ∉ pre → wF.MediaFrame.scale frame = w.MediaFrame.scale frame) := by
  have hfold := mediaFramesSystem_split T w wF wEnd fuel heldMediaTypes pre (frame :: post)
    hq hbefore hrun
  rw [List.foldlM_cons, bind_eq_ok] at hfold
  obtain ⟨wx, hx, hrest⟩ := hfold
  rw [hpass] at hx
  cases Except.ok.inj hx
  have hne : o ≠ wF.nextObj := Nat.ne_of_lt hfresh
  obtain ⟨hmat, hdyn⟩ := processFrame_release T fuel heldMediaTypes wF w1 wF1 frame o
    hcap hexists howned hobj hne harb hdiff hpass
  obtain ⟨hle, hold⟩ := processFrame_alloc T fuel heldMediaTypes wF wF1 frame hpass
  obtain ⟨k1, k2⟩ := foldlM_processFrame_leaves T fuel heldMediaTypes (capturedOf wF frame) o
    post wF1 wEnd hrest hlater (Nat.lt_of_lt_of_le hfresh hle)
    (fun e he => hinj e (hold e o hne he))
  have hend : (wEnd.objects o).matrixWorld
      = T.compose (T.decompose (w1.objects o).matrixWorld).1
          (T.decompose (w1.objects o).matrixWorld).2.1 (wF.MediaFrame.scale frame) := by
    rw [k1, hmat]
  refine ⟨⟨hmat, hdyn⟩, ⟨hend, by rw [k2, hdyn]⟩, ?_, ?_⟩
  · intro hT
    rw [hend, hT]
  · exact runBefore_scale T w wF fuel heldMediaTypes pre frame hbefore

/-- Witness for claim C3: the theorem applied in a concrete room with two frames, the image
object touching frame 1 only; frame 5 is processed after frame 1 and leaves the object alone. -/
theorem release_restores_scale_witness :
    ∃ w1 wF1 wEnd, arbitrate trsThree releaseTwoWorld 5 1 = .ok w1
      ∧ processFrame trsThree 5 0 releaseTwoWorld 1 = .ok wF1
      ∧ mediaFramesSystem trsThree releaseTwoWorld 5 = .ok wEnd
      ∧ (wEnd.objects 2).matrixWorld = ((w1.objects 2).matrixWorld.1,
          (w1.objects 2).matrixWorld.2.1, v3 2 2 2)
      ∧ wEnd.physicsSystem.bodyType 2 = BodyType.dynamic := by
  obtain ⟨w1, harb, hd⟩ := exists_ok_of_holdsAfter
    (by decide : holdsAfter (arbitrate trsThree releaseTwoWorld 5 1)
      (fun w1 => w1.NetworkedMediaFrame.capturedNid 1 ≠ releaseTwoWorld.MediaFrame.capturedNid 1))
  obtain ⟨wF1, hpass, hl1, hl2⟩ := exists_ok_of_holdsAfter
    (by decide : holdsAfter (processFrame trsThree 5 0 releaseTwoWorld 1)
      (fun u => capturedOf u 5 ≠ 2 ∧ getCapturableEntity u 5 5 ≠ .ok (some 2)))
  obtain ⟨wEnd, hrun, _⟩ := exists_ok_of_holdsAfter
    (by decide : holdsAfter (mediaFramesSystem trsThree releaseTwoWorld 5) (fun _ => True))
  obtain ⟨_, ⟨h1, h2⟩, _, _⟩ := release_restores_scale trsThree 5 0 releaseTwoWorld
    releaseTwoWorld w1 wF1 wEnd [] [5] 1 2 rfl rfl
    (by decide) (by decide) (by decide) (by decide) (by decide)
    (by
      intro e he
      simp [releaseTwoWorld, releaseWorld, demoWorld] at he
      exact he.2)
    harb hd hpass ⟨hl1, hl2, fun _ _ => trivial⟩ hrun
  exact ⟨w1, wF1, wEnd, harb, hpass, hrun, h1, h2⟩

/-- Claim C2 (counterexample). In the demo room with the image object owned by another
participant, frame 1 has confirmed id 0, clauses 1 to 3 do not match, `getCapturableEntity`
returns the object, which is not held and not listed by another frame; after the run the
confirmed id is still 0, no ownership was requested and the object is still dynamic. And in
the demo room with the object locally owned and of world scale 0.1, where the same conditions
hold and the object is captured, the recorded scale is not the world scale the object had
before snapping but 13421773 / 134217728 = 0.100000001490116..., its rounding to float32. -/
theorem no_capture_without_ownership_standing :
    (unownedWorld.NetworkedMediaFrame.capturedNid 1 = 0
      ∧ resnapCond unownedWorld 1 = false ∧ evictCond unownedWorld 1 = false
      ∧ staleCond unownedWorld 1 = false
      ∧ getCapturableEntity unownedWorld 5 1 = .ok (some 2)
      ∧ unownedWorld.Held 2 = false ∧ inOtherFrame unownedWorld 1 2 = false
      ∧ holdsAfter (mediaFramesSystem trsThree unownedWorld 5) (fun w1 =>
          w1.NetworkedMediaFrame.capturedNid 1 = 0 ∧ w1.MediaFrame.capturedNid 1 = 0
            ∧ w1.ownershipClaims = [] ∧ w1.physicsSystem.bodyType 2 = BodyType.dynamic))
    ∧ (tenthWorld.NetworkedMediaFrame.capturedNid 1 = 0
      ∧ resnapCond tenthWorld 1 = false ∧ evictCond tenthWorld 1 = false
      ∧ staleCond tenthWorld 1 = false
      ∧ getCapturableEntity tenthWorld 5 1 = .ok (some 2)
      ∧ tenthWorld.Owned 2 = true
      ∧ tenthWorld.Held 2 = false ∧ inOtherFrame tenthWorld 1 2 = false
      ∧ trsThree.setFromMatrixScale (tenthWorld.objects 2).matrixWorld
          = v3 (3602879701896397 / 36028797018963968) (3602879701896397 / 36028797018963968)
              (3602879701896397 / 36028797018963968)
      ∧ holdsAfter (mediaFramesSystem trsThree tenthWorld 5) (fun w1 =>
          w1.NetworkedMediaFrame.capturedNid 1 = 42
            ∧ w1.NetworkedMediaFrame.scale 1
                = v3 (13421773 / 134217728) (13421773 / 134217728) (13421773 / 134217728)
            ∧ w1.MediaFrame.scale 1
                = v3 (13421773 / 134217728) (13421773 / 134217728) (13421773 / 134217728)
            ∧ w1.NetworkedMediaFrame.scale 1
                ≠ trsThree.setFromMatrixScale (tenthWorld.objects 2).matrixWorld)) := by
  refine ⟨by decide, by decide!⟩

/-- Claim C2 (amended). For a frame whose confirmed captured id is zero and for which clauses 1
to 3 do not match: if `getCapturableEntity` returns a candidate that is not held and that is
locally owned, or owned by the fallback identity while the frame is locally owned, then when
the loop body returns the frame's confirmed and local captured id equal the candidate's network
id, both scales equal the candidate's world scale as it was before snapping, each of its three
numbers rounded to float32, ownership of the frame and of the candidate has been requested, the
candidate's world matrix is the snap matrix for the frame's pose, the frame's bounds and the
candidate's content bounds, and the candidate's simulation mode is kinematic. -/
theorem new_capture (T : Three Mat) (fuel heldMediaTypes : Nat) (w w3 : World Mat)
    (frame c : Eid) (o f : ObjId) (b : Vec3)
    (hconf : w.NetworkedMediaFrame.capturedNid frame = 0)
    (h1 : resnapCond w frame = false) (h2 : evictCond w frame = false)
    (h3 : staleCond w frame = false)
    (hcand : getCapturableEntity w fuel frame = .ok (some c)) (hc0 : c ≠ 0)
    (hstand : w.Owned c = true ∨ (isOwnedByRet w c = .ok true ∧ w.Owned frame = true))
    (hheld : w.Held c = false)
    (hobj : w.eid2obj c = some o) (hfresh : o ≠ w.nextObj)
    (hinj : ∀ e, w.eid2obj e = some o → e = c)
    (hf : w.eid2obj frame = some f) (hb : getEntityBounds w c = .ok (some b))
    (hrun : processFrame T fuel heldMediaTypes w frame = .ok w3) :
    w3.NetworkedMediaFrame.capturedNid frame = w.Networked.id c
      ∧ w3.MediaFrame.capturedNid frame = w.Networked.id c
      ∧ w3.NetworkedMediaFrame.scale frame
          = (T.setFromMatrixScale (w.objects o).matrixWorld).toFloat32
      ∧ w3.MediaFrame.scale frame
          = (T.setFromMatrixScale (w.objects o).matrixWorld).toFloat32
      ∧ w3.ownershipClaims = w.ownershipClaims ++ [frame, c]
      ∧ (∃ factor, scaleForAspectFit (w.MediaFrame.bounds frame) (some b) = .ok factor
          ∧ (w3.objects o).matrixWorld = snapMatrix T (w.objects f).matrixWorld factor)
      ∧ w3.physicsSystem.bodyType c = BodyType.kinematic := by
  obtain ⟨hcol, hother⟩ := getCapturableEntity_some w fuel frame c hcand
  have hguard := captureGuard_of w frame c hstand hheld hother
  have hcapture := (capture_eq_ok T w _ frame c).2 ⟨o, f, b, hobj, hf, hb, rfl⟩
  have harb : arbitrate T w fuel frame = capture T w frame c := by
    unfold arbitrate
    rw [h1, h2, h3]
    simp only [Bool.false_eq_true, if_false, hconf, if_true]
    unfold newCapture
    rw [hcand]
    have ht : truthy (some c) = true := by simp [truthy, hc0]
    simp only [bind, Except.bind, ht, if_true, Option.getD_some, hguard]
  rw [hcapture] at harb
  obtain ⟨w1, w2, a1, a2, e1, e2, e3, e4, e5, hm⟩ :=
    processFrame_after T fuel heldMediaTypes w w3 frame hrun
  rw [harb] at a1
  cases Except.ok.inj a1
  have hne : w.Owned (capturedOf w frame) = true → capturedOf w frame ≠ c := by
    intro ho hcc
    rw [hcc] at ho
    cases hd : isFrameDeleting w frame with
    | true => simp [evictCond, hd] at h2
    | false => simp [resnapCond, collidingOf, hcc, hc0, ho, hheld, hd, hcol] at h1
  have hrec : (w2.objects o).matrixWorld
        = snapMatrix T (w.objects f).matrixWorld
            (mathMin [(w.MediaFrame.bounds frame).x.div b.x,
              (w.MediaFrame.bounds frame).y.div b.y, (w.MediaFrame.bounds frame).z.div b.z])
      ∧ w2.physicsSystem.bodyType c = BodyType.kinematic := by
    rcases reconcile_cases T _ w2 frame _ _ a2 with ⟨e, _⟩ | ⟨hc, o2, ho2, e⟩
    · rw [e]
      simp [updateRigidBodyOptions, withMatrix]
    · have hown : w.Owned (capturedOf w frame) = true := by
        simp only [Bool.and_eq_true] at hc
        exact hc.2
      have hcne := hne hown
      have ho2b : w.eid2obj (capturedOf w frame) = some o2 := ho2
      have hone : o ≠ o2 := by
        intro hoo
        rw [← hoo] at ho2b
        exact hcne (hinj _ ho2b)
      rw [e]
      simp [updateBodyOptions, updateRigidBodyOptions, withMatrix, recordCapture,
        Function.update_noteq hone, Function.update_noteq (Ne.symm hcne)]
  refine ⟨?_, ?_, ?_, ?_, ?_, ⟨_, rfl, ?_⟩, ?_⟩
  · rw [e1]; simp [updateRigidBodyOptions, withMatrix, recordCapture]
  · rw [e4]; simp [updateRigidBodyOptions, withMatrix, recordCapture]
  · rw [e1]; simp [updateRigidBodyOptions, withMatrix, recordCapture]
  · rw [e5]; simp [updateRigidBodyOptions, withMatrix, recordCapture]
  · rw [e2]; simp [updateRigidBodyOptions, withMatrix, recordCapture]
  · rw [hm o hfresh]; exact hrec.1
  · rw [e3]; exact hrec.2

/-- Witness for claim C2: the theorem applied in a concrete room. -/
theorem new_capture_witness :
    ∃ w3, processFrame trsThree 5 0 demoWorld 1 = .ok w3
      ∧ w3.NetworkedMediaFrame.capturedNid 1 = 42 ∧ w3.MediaFrame.capturedNid 1 = 42
      ∧ w3.NetworkedMediaFrame.scale 1 = v3 3 3 3
      ∧ w3.ownershipClaims = [1, 2]
      ∧ w3.physicsSystem.bodyType 2 = BodyType.kinematic := by
  obtain ⟨w3, hrun, _⟩ := exists_ok_of_holdsAfter
    (by decide : holdsAfter (processFrame trsThree 5 0 demoWorld 1) (fun _ => True))
  obtain ⟨a1, a2, a3, _, a5, _, a7⟩ := new_capture trsThree 5 0 demoWorld w3 1 2 2 1 (v3 2 1 1)
    (by decide) (by decide) (by decide) (by decide) (by decide) (by decide)
    (Or.inl (by decide)) (by decide) (by decide) (by decide)
    (by
      intro e he
      simp [demoWorld] at he
      exact he.2)
    (by decide) (by decide) hrun
  have hround : (trsThree.setFromMatrixScale (demoWorld.objects 2).matrixWorld).toFloat32
      = v3 3 3 3 := by decide!
  rw [hround] at a3
  exact ⟨w3, hrun, a1, a2, a3, a5, a7⟩

/-- Claim C11. The call `inOtherFrame(world, ignoredFrame, eid)` returns true exactly when some
frame of the query other than `ignoredFrame` has a captured id or a previewing id equal to the
network id of `eid`; whatever the ignored frame itself lists does not change the result. -/
theorem inOtherFrame_iff (w : World Mat) (ignoredFrame eid : Eid) :
    (inOtherFrame w ignoredFrame eid = true ↔
      ∃ f ∈ w.mediaFramesQuery, f ≠ ignoredFrame ∧
        (w.MediaFrame.capturedNid f = w.Networked.id eid
          ∨ w.MediaFrame.previewingNid f = w.Networked.id eid))
    ∧ ∀ captured previewing : Nid,
        inOtherFrame (withClaimedIds w ignoredFrame captured previewing) ignoredFrame eid
          = inOtherFrame w ignoredFrame eid := by
  constructor
  · exact inOtherFrameLoop_true_iff w ignoredFrame eid _
  · intro c p
    exact inOtherFrameLoop_withClaimedIds w ignoredFrame eid c p _

/-- Claim C12. When the parent chain that starts at `b` ends within the fuel, `isAncestor(a, b)`
returns, and returns true exactly when `a` is reached from `b` by one or more parent steps; on
such a chain `isAncestor(b, b)` is false, and a descendant of `b` is not reported as an ancestor
of `b`. -/
theorem isAncestor_correct (w : World Mat) (fuel : Nat) (a b : ObjId)
    (hchain : chainWithin w.objects fuel (w.objects b).parent = true) :
    (∃ r, isAncestor w fuel a b = .ok r ∧ (r = true ↔ IsProperAncestor w.objects a b))
      ∧ isAncestor w fuel b b = .ok false
      ∧ (IsProperAncestor w.objects b a → isAncestor w fuel a b = .ok false) := by
  have hret : ∀ x, ∃ r, isAncestor w fuel x b = .ok r
      ∧ (r = true ↔ IsProperAncestor w.objects x b) := by
    intro x
    obtain ⟨r, hr⟩ := isAncestorLoop_total w.objects x fuel _ hchain
    exact ⟨r, hr, isAncestor_sound w fuel x b r hr⟩
  have hself := not_isProperAncestor_self w.objects b fuel hchain
  refine ⟨hret a, ?_, ?_⟩
  · obtain ⟨r, hr, hiff⟩ := hret b
    cases r with
    | false => exact hr
    | true => exact absurd (hiff.1 rfl) hself
  · intro hdesc
    obtain ⟨r, hr, hiff⟩ := hret a
    cases r with
    | false => exact hr
    | true => exact absurd (isProperAncestor_trans w.objects hdesc (hiff.1 rfl)) hself

/-- Witness for claim C12: the theorem applied in a concrete room. -/
theorem isAncestor_correct_witness :
    isAncestor demoWorld 5 0 1 = .ok true ∧ isAncestor demoWorld 5 1 1 = .ok false
      ∧ isAncestor childWorld 5 2 1 = .ok false := by
  obtain ⟨⟨r, hr, hiff⟩, hself, _⟩ := isAncestor_correct demoWorld 5 0 1 (by decide)
  have hr2 : r = true := hiff.2 (IsProperAncestor.parent (by decide))
  rw [hr2] at hr
  exact ⟨hr, hself, (isAncestor_correct childWorld 5 2 1 (by decide)).2.2
    (IsProperAncestor.parent (by decide))⟩

/-- Claim C16 (failing input). Frame 1 enters the query while owned by the fallback identity
(timer 1 is armed); in a later run the enter and the exit query both report frame 1: the entry
is handled first and arms timer 2 over timer 1, the exit then cancels timer 2, so timer 1 is
still pending after the frame left the query and no entry for the frame remains in
`takeOwnershipOnTimeout`. When timer 1 fires, the owner is still the fallback identity and the
soft takeover is issued. -/
theorem watchdog_timer_survives_exit :
    holdsAfter (runEvents trsThree 5 watchdogWorld
        [WatchdogEvent.tick [1] [], WatchdogEvent.tick [1] [1]])
      (fun w => w.pendingTimeouts = [(1, 1)] ∧ w.takeOwnershipOnTimeout 1 = none
        ∧ w.softOwnershipClaims = [])
    ∧ holdsAfter (runEvents trsThree 5 watchdogWorld
        [WatchdogEvent.tick [1] [], WatchdogEvent.tick [1] [1], WatchdogEvent.timeout 1])
      (fun w => w.softOwnershipClaims = [1] ∧ w.pendingTimeouts = []) := by
  decide

/-- Claim C17 (failing input). In the demo room with no content bounds for the image object,
the object is returned by `getCapturableEntity` and passes the capture guard,
`getEntityBounds` yields no bounds, and the run of the system fails with a `TypeError`. -/
theorem unresolvable_bounds_throw :
    getCapturableEntity noBoundsWorld 5 1 = .ok (some 2)
      ∧ captureGuard noBoundsWorld 1 2 = .ok true
      ∧ getEntityBounds noBoundsWorld 2 = .ok none
      ∧ failsWith (capture trsThree noBoundsWorld 1 2) Fault.typeError
      ∧ failsWith (mediaFramesSystem trsThree noBoundsWorld 5) Fault.typeError := by
  decide

/-- Claim C18. The clause chain applies the first clause whose condition holds and no other:
re-snap when its condition holds, else evict, else stale cleanup, else new capture when the
confirmed captured id is zero, else nothing. In particular, when the re-snap condition holds the
confirmed captured id and scale, and the ownership requests, are left as they were, whatever the
ownership of the frame and the deleted set. -/
theorem first_matching_clause_wins (T : Three Mat) (w : World Mat) (fuel : Nat) (frame : Eid) :
    (resnapCond w frame = true → ∀ w1, arbitrate T w fuel frame = .ok w1 →
        (∃ f t b, w.eid2obj frame = some f ∧ w.eid2obj (capturedOf w frame) = some t
          ∧ getEntityBounds w (capturedOf w frame) = .ok (some b)
          ∧ w1 = updateRigidBodyOptions
              (withMatrix w t (snapMatrix T (w.objects f).matrixWorld
                (mathMin [(w.MediaFrame.bounds frame).x.div b.x,
                  (w.MediaFrame.bounds frame).y.div b.y,
                  (w.MediaFrame.bounds frame).z.div b.z])))
              (capturedOf w frame) BodyType.kinematic)
        ∧ w1.NetworkedMediaFrame.capturedNid frame = w.NetworkedMediaFrame.capturedNid frame
        ∧ w1.NetworkedMediaFrame.scale frame = w.NetworkedMediaFrame.scale frame
        ∧ w1.ownershipClaims = w.ownershipClaims)
    ∧ (resnapCond w frame = false → evictCond w frame = true →
        arbitrate T w fuel frame = .ok (clearCaptured (takeOwnership w frame) frame))
    ∧ (resnapCond w frame = false → evictCond w frame = false → staleCond w frame = true →
        arbitrate T w fuel frame = .ok (clearCaptured w frame))
    ∧ (resnapCond w frame = false → evictCond w frame = false → staleCond w frame = false →
        w.NetworkedMediaFrame.capturedNid frame = 0 →
        arbitrate T w fuel frame = newCapture T w fuel frame)
    ∧ (resnapCond w frame = false → evictCond w frame = false → staleCond w frame = false →
        w.NetworkedMediaFrame.capturedNid frame ≠ 0 →
        arbitrate T w fuel frame = .ok w) := by
  refine ⟨?_, ?_, ?_, ?_, ?_⟩
  · intro h1 w1 h
    rcases arbitrate_cases T w w1 fuel frame h with
      ⟨_, f, t, b, hf, ht, hb, e⟩ | ⟨h2, _⟩ | ⟨h2, _⟩ | ⟨h2, _⟩ | ⟨h2, _⟩
    · refine ⟨⟨f, t, b, hf, ht, hb, e⟩, ?_, ?_, ?_⟩ <;> rw [e] <;> rfl
    all_goals (rw [h1] at h2; cases h2)
  · intro h1 h2
    unfold arbitrate
    rw [h1, h2]
    rfl
  · intro h1 h2 h3
    unfold arbitrate
    rw [h1, h2, h3]
    rfl
  · intro h1 h2 h3 h4
    unfold arbitrate
    rw [h1, h2, h3]
    simp only [Bool.false_eq_true, if_false, h4, if_true]
  · intro h1 h2 h3 h4
    unfold arbitrate
    rw [h1, h2, h3]
    simp only [Bool.false_eq_true, if_false, h4]
    rfl

/-- Witness for claim C18: the theorem applied in a concrete room. -/
theorem first_matching_clause_wins_witness :
    resnapDeletedWorld.Owned 1 = true
      ∧ resnapDeletedWorld.deletedNids (resnapDeletedWorld.MediaFrame.capturedNid 1) = true
      ∧ ∃ w1, arbitrate trsThree resnapDeletedWorld 5 1 = .ok w1
          ∧ w1.NetworkedMediaFrame.capturedNid 1 = 42
          ∧ w1.ownershipClaims = [] := by
  refine ⟨by decide, by decide, ?_⟩
  obtain ⟨w1, hrun, _⟩ := exists_ok_of_holdsAfter
    (by decide : holdsAfter (arbitrate trsThree resnapDeletedWorld 5 1) (fun _ => True))
  obtain ⟨_, h2, _, h4⟩ :=
    (first_matching_clause_wins trsThree resnapDeletedWorld 5 1).1 (by decide) w1 hrun
  exact ⟨w1, hrun, h2, h4⟩

/-- Claim C13. When `display` returns (the entity store never hands out entity 0), the frame has
a preview exactly when the visibility predicate holds on the state and the `captured` entity
that `display` received: the frame's captured id is zero and `getCapturableEntity` yields a
held candidate, or the captured entity is non-zero and held. A call creates at most one entity,
creates none while the frame has a preview, and a preview that existed is either kept or
removed, never replaced. -/
theorem display_preview_lifecycle (T : Three Mat) (w w1 : World Mat) (fuel : Nat)
    (frame captured : Eid) (heldMediaTypes : Nat) (hne : w.nextEid ≠ 0)
    (h : display T w fuel frame captured heldMediaTypes = .ok w1) :
    (w1.MediaFrame.preview frame ≠ 0 ↔
        ((w.MediaFrame.capturedNid frame = 0
            ∧ ∃ e, getCapturableEntity w fuel frame = .ok (some e) ∧ e ≠ 0 ∧ w.Held e = true)
          ∨ (captured ≠ 0 ∧ w.Held captured = true)))
      ∧ (w1.nextEid = w.nextEid
          ∨ (w1.nextEid = w.nextEid + 1 ∧ w.MediaFrame.preview frame = 0))
      ∧ (w.MediaFrame.preview frame ≠ 0 →
          w1.nextEid = w.nextEid
            ∧ (w1.MediaFrame.preview frame = w.MediaFrame.preview frame
              ∨ w1.MediaFrame.preview frame = 0)) := by
  obtain ⟨capturable, w0, hc, hp, e1, e2⟩ := display_stages T w w1 fuel frame captured _ h
  have hvis := shouldPreviewBeVisible_iff w fuel frame captured capturable hc
  unfold VisibilityPredicate at hvis
  rw [e1, e2, ← hvis]
  rcases displayPreview_cases T w w0 frame capturable captured hp with
    ⟨hv, hz, hs⟩ | ⟨hv, hz, e⟩ | ⟨hv, hz, e⟩ | ⟨hv, hz, e⟩
  · obtain ⟨f1, _, f3⟩ := showPreview_fields T w w0 frame _ hs
    rw [f1, f3]
    exact ⟨⟨fun _ => hv, fun _ => hne⟩, Or.inr ⟨rfl, hz⟩, fun hnz => absurd hz hnz⟩
  · rw [e, hv]
    simp [hidePreview]
  · rw [e, hv]
    simp [hz]
  · rw [e, hv]
    simp [hz]

/-- Witness for claim C13: the theorem applied in a concrete room. -/
theorem display_preview_lifecycle_witness :
    ∃ w1, display trsThree hoverWorld 5 1 0 2 = .ok w1 ∧ w1.MediaFrame.preview 1 ≠ 0 := by
  obtain ⟨w1, hrun, _⟩ := exists_ok_of_holdsAfter
    (by decide : holdsAfter (display trsThree hoverWorld 5 1 0 2) (fun _ => True))
  refine ⟨w1, hrun, ?_⟩
  exact (display_preview_lifecycle trsThree hoverWorld w1 5 1 0 2 (by decide) hrun).1.2
    (Or.inl ⟨by decide, 2, by decide, by decide, by decide⟩)

/-- Claim C14 (counterexample). Frame 1 shows a preview made for the image object with network
id 42; the held eligible candidate is now another entity, with network id 43. After `display`,
and after a whole run of the system, the frame still has the same preview and its previewing id
is still 42. -/
theorem preview_kept_for_former_candidate :
    swapWorld.MediaFrame.preview 1 = 6 ∧ swapWorld.MediaFrame.previewingNid 1 = 42
      ∧ getCapturableEntity swapWorld 5 1 = .ok (some 7) ∧ swapWorld.Held 7 = true
      ∧ swapWorld.Networked.id 7 = 43
      ∧ holdsAfter (display trsThree swapWorld 5 1 0 2) (fun w1 =>
          w1.MediaFrame.preview 1 = 6 ∧ w1.MediaFrame.previewingNid 1 = 42
            ∧ w1.Networked.id 7 = 43)
      ∧ holdsAfter (mediaFramesSystem trsThree swapWorld 5) (fun w1 =>
          w1.MediaFrame.preview 1 = 6 ∧ w1.MediaFrame.previewingNid 1 = 42
            ∧ w1.Networked.id 7 = 43) := by
  decide

/-- Claim C14 (amended). For a frame that has a preview, `display` keeps the preview and its
previewing id as they are while the visibility predicate holds, whichever entity is now the
candidate, and removes the preview (preview and previewing id zero) when the predicate does not
hold. -/
theorem display_keeps_preview_while_visible (T : Three Mat) (w w1 : World Mat) (fuel : Nat)
    (frame captured : Eid) (heldMediaTypes : Nat)
    (hpre : w.MediaFrame.preview frame ≠ 0)
    (h : display T w fuel frame captured heldMediaTypes = .ok w1) :
    (VisibilityPredicate w fuel frame captured →
        w1.MediaFrame.preview frame = w.MediaFrame.preview frame
          ∧ w1.MediaFrame.previewingNid frame = w.MediaFrame.previewingNid frame)
      ∧ (¬ VisibilityPredicate w fuel frame captured →
        w1.MediaFrame.preview frame = 0 ∧ w1.MediaFrame.previewingNid frame = 0) := by
  obtain ⟨capturable, w0, hc, hp, e1, _⟩ := display_stages T w w1 fuel frame captured _ h
  have hvis := shouldPreviewBeVisible_iff w fuel frame captured capturable hc
  rw [e1, ← hvis]
  rcases displayPreview_cases T w w0 frame capturable captured hp with
    ⟨_, hz, _⟩ | ⟨hv, _, e⟩ | ⟨hv, _, e⟩ | ⟨_, hz, _⟩
  · exact absurd hz hpre
  · rw [e, hv]
    simp [hidePreview]
  · rw [e, hv]
    simp
  · exact absurd hz hpre

/-- Witness for claim C14: the theorem applied in a concrete room. -/
theorem display_keeps_preview_while_visible_witness :
    ∃ w1, display trsThree swapWorld 5 1 0 2 = .ok w1
      ∧ w1.MediaFrame.preview 1 = 6 ∧ w1.MediaFrame.previewingNid 1 = 42 := by
  obtain ⟨w1, hrun, _⟩ := exists_ok_of_holdsAfter
    (by decide : holdsAfter (display trsThree swapWorld 5 1 0 2) (fun _ => True))
  exact ⟨w1, hrun, (display_keeps_preview_while_visible trsThree swapWorld w1 5 1 0 2
    (by decide) hrun).1 (Or.inl ⟨by decide, 7, by decide, by decide, by decide⟩)⟩

/-- Claim C15. After `hidePreview` the frame's preview and previewing id are zero and the frame
has no mixer entry; when no object is registered for entity 0, a second call leaves the state
as the first call left it. The call cannot fail. -/
theorem hidePreview_idempotent (w : World Mat) (frame : Eid) :
    ((hidePreview w frame).MediaFrame.preview frame = 0
        ∧ (hidePreview w frame).MediaFrame.previewingNid frame = 0
        ∧ (hidePreview w frame).frame2mixer frame = false)
      ∧ (w.eid2obj 0 = none →
          hidePreview (hidePreview w frame) frame = hidePreview w frame) := by
  refine ⟨⟨by simp [hidePreview], by simp [hidePreview], by simp [hidePreview]⟩, ?_⟩
  intro h0
  have hp : (hidePreview w frame).MediaFrame.preview frame = 0 := by simp [hidePreview]
  have he : (hidePreview w frame).eid2obj = w.eid2obj := rfl
  conv_lhs => unfold hidePreview
  simp only [hp, he, h0]
  simp [hidePreview, h0]

/-- Witness for claim C15: the theorem applied in a concrete room. -/
theorem hidePreview_idempotent_witness :
    hidePreview (hidePreview swapWorld 1) 1 = hidePreview swapWorld 1 :=
  (hidePreview_idempotent swapWorld 1).2 (by decide)

/-- Claim C20 (counterexample). Frame 1 is being torn down, has confirmed id 0, and the image
object is an eligible candidate that is not held, not locally owned and not owned by the
fallback identity; the run of the system requests ownership of the frame. -/
theorem ownership_requested_for_frame_torn_down :
    teardownWorld.NetworkedMediaFrame.capturedNid 1 = 0
      ∧ getCapturableEntity teardownWorld 5 1 = .ok (some 2)
      ∧ teardownWorld.Held 2 = false ∧ teardownWorld.Owned 2 = false
      ∧ isOwnedByRet teardownWorld 2 = .ok false
      ∧ holdsAfter (mediaFramesSystem trsThree teardownWorld 5) (fun w1 =>
          w1.ownershipClaims = [1] ∧ w1.NetworkedMediaFrame.capturedNid 1 = 0) := by
  decide

/-- Claim C20 (amended). For a frame whose confirmed captured id is zero and for which clauses
1 to 3 do not match, with an eligible candidate that is not held: the clause chain captures
(sets the confirmed id or requests ownership) only if the candidate is locally owned, or owned
by the fallback identity while the frame is locally owned; when neither holds the clause chain
changes nothing, and when the loop body returns the confirmed captured id is still zero, no
ownership has been requested, and the candidate's world matrix and simulation mode are as they
were. -/
theorem capture_needs_ownership_standing (T : Three Mat) (fuel heldMediaTypes : Nat)
    (w : World Mat) (frame c : Eid)
    (hconf : w.NetworkedMediaFrame.capturedNid frame = 0)
    (h1 : resnapCond w frame = false) (h2 : evictCond w frame = false)
    (h3 : staleCond w frame = false)
    (hcand : getCapturableEntity w fuel frame = .ok (some c)) (hc0 : c ≠ 0) :
    (∀ w1, arbitrate T w fuel frame = .ok w1 →
        (w1.NetworkedMediaFrame.capturedNid frame ≠ 0
          ∨ w1.ownershipClaims ≠ w.ownershipClaims) →
        w.Owned c = true ∨ (isOwnedByRet w c = .ok true ∧ w.Owned frame = true))
    ∧ (w.Owned c = false → ∀ ret, isOwnedByRet w c = .ok ret →
        (ret = false ∨ w.Owned frame = false) →
        arbitrate T w fuel frame = .ok w
          ∧ ∀ w3, processFrame T fuel heldMediaTypes w frame = .ok w3 →
              w3.NetworkedMediaFrame.capturedNid frame = 0
              ∧ w3.ownershipClaims = w.ownershipClaims
              ∧ w3.physicsSystem.bodyType c = w.physicsSystem.bodyType c
              ∧ ∀ o, w.eid2obj c = some o → o ≠ w.nextObj →
                  (∀ e, w.eid2obj e = some o → e = c) →
                  (w3.objects o).matrixWorld = (w.objects o).matrixWorld) := by
  have harb := arbitrate_eq_newCapture T w fuel frame hconf h1 h2 h3
  constructor
  · intro w1 hw1 hchg
    rw [harb] at hw1
    rcases newCapture_cases T w w1 fuel frame hw1 with ⟨e, _⟩ | ⟨c2, hc2, _, hg, _⟩
    · rw [e] at hchg
      rcases hchg with hx | hx
      · exact absurd hconf hx
      · exact absurd rfl hx
    · rw [hcand] at hc2
      cases hc2
      exact (captureGuard_true w frame c hg).2.2
  · intro hown ret hret hno
    have hguard := captureGuard_no_standing w frame c ret hown hret hno
    have hnew := newCapture_of_guard T w fuel frame c false hcand hc0 hguard
    simp only [Bool.false_eq_true, if_false] at hnew
    rw [hnew] at harb
    refine ⟨harb, ?_⟩
    intro w3 hrun
    obtain ⟨w1, w2, a1, a2, e1, e2, e3, _, _, hm⟩ :=
      processFrame_after T fuel heldMediaTypes w w3 frame hrun
    rw [harb] at a1
    cases Except.ok.inj a1
    refine ⟨by rw [e1]; exact hconf, e2, ?_, ?_⟩
    · rw [e3]
      rcases reconcile_cases T w w2 frame _ _ a2 with ⟨e, _⟩ | ⟨hc, o2, _, e⟩
      · rw [e]
      · have hown2 : w.Owned (capturedOf w frame) = true := by
          simp only [Bool.and_eq_true] at hc
          exact hc.2
        have hne : capturedOf w frame ≠ c := by
          intro hcc
          rw [hcc, hown] at hown2
          cases hown2
        rw [e]
        simp [updateBodyOptions, withMatrix, Function.update_noteq (Ne.symm hne)]
    · intro o ho hfresh hinj
      rw [hm o hfresh]
      rcases reconcile_cases T w w2 frame _ _ a2 with ⟨e, _⟩ | ⟨hc, o2, ho2, e⟩
      · rw [e]
      · have hown2 : w.Owned (capturedOf w frame) = true := by
          simp only [Bool.and_eq_true] at hc
          exact hc.2
        have hne : o ≠ o2 := by
          intro hoo
          rw [← hoo] at ho2
          have := hinj _ ho2
          rw [this, hown] at hown2
          cases hown2
        rw [e]
        simp [updateBodyOptions, withMatrix, Function.update_noteq hne]

/-- Witness for claim C20: the theorem applied in a concrete room. -/
theorem capture_needs_ownership_standing_witness :
    ∃ w3, processFrame trsThree 5 0 unownedWorld 1 = .ok w3
      ∧ w3.NetworkedMediaFrame.capturedNid 1 = 0 ∧ w3.ownershipClaims = []
      ∧ w3.physicsSystem.bodyType 2 = BodyType.dynamic := by
  obtain ⟨w3, hrun, _⟩ := exists_ok_of_holdsAfter
    (by decide : holdsAfter (processFrame trsThree 5 0 unownedWorld 1) (fun _ => True))
  obtain ⟨a1, a2, a3, _⟩ := ((capture_needs_ownership_standing trsThree 5 0 unownedWorld 1 2
    (by decide) (by decide) (by decide) (by decide) (by decide) (by decide)).2
    (by decide) false (by decide) (Or.inl rfl)).2 w3 hrun
  exact ⟨w3, hrun, a1, a2, a3⟩

/-- Claim C19. For a frame whose captured entity resolves, is locally owned, held and still
colliding with the frame, with the frame not being torn down, the captured network id non-zero,
not deleted and equal to the confirmed id: when the loop body returns, the confirmed captured id
and scale, the entity's world matrix and its simulation mode are as they were, and the frame has
a preview. When the loop body then runs again with the entity no longer held and still
colliding, the preview is gone, the confirmed and local captured id are still the entity's, and
the entity's world matrix is the snap matrix for the frame's pose and bounds and the entity's
content bounds. -/
theorem grasp_does_not_release (T : Three Mat) (fuel held1 held2 : Nat)
    (w w1 w2 : World Mat) (frame : Eid)
    (hO : capturedOf w frame ≠ 0)
    (hlocal : w.MediaFrame.capturedNid frame ≠ 0)
    (howned : w.Owned (capturedOf w frame) = true)
    (hheld : w.Held (capturedOf w frame) = true)
    (hcol : isColliding w frame (capturedOf w frame) = true)
    (hdel : isFrameDeleting w frame = false)
    (hnotdeleted : w.deletedNids (w.MediaFrame.capturedNid frame) = false)
    (hsame : w.NetworkedMediaFrame.capturedNid frame = w.MediaFrame.capturedNid frame)
    (hne : w.nextEid ≠ 0)
    (hrun1 : processFrame T fuel held1 w frame = .ok w1)
    (hcol2 : isColliding w1 frame (capturedOf w frame) = true)
    (hrun2 : processFrame T fuel held2 (releaseHeld w1 (capturedOf w frame)) frame = .ok w2) :
    (w1.NetworkedMediaFrame.capturedNid frame = w.NetworkedMediaFrame.capturedNid frame
      ∧ w1.NetworkedMediaFrame.scale frame = w.NetworkedMediaFrame.scale frame
      ∧ w1.physicsSystem.bodyType (capturedOf w frame)
          = w.physicsSystem.bodyType (capturedOf w frame)
      ∧ (∀ o, w.eid2obj (capturedOf w frame) = some o → o ≠ w.nextObj →
          (w1.objects o).matrixWorld = (w.objects o).matrixWorld)
      ∧ w1.MediaFrame.preview frame ≠ 0)
    ∧ (w2.MediaFrame.preview frame = 0
      ∧ w2.NetworkedMediaFrame.capturedNid frame = w.NetworkedMediaFrame.capturedNid frame
      ∧ w2.MediaFrame.capturedNid frame = w.MediaFrame.capturedNid frame
      ∧ capturedOf w2 frame = capturedOf w frame
      ∧ ∃ f t b factor, w1.eid2obj frame = some f ∧ w1.eid2obj (capturedOf w frame) = some t
          ∧ getEntityBounds (releaseHeld w1 (capturedOf w frame)) (capturedOf w frame)
              = .ok (some b)
          ∧ scaleForAspectFit (w1.MediaFrame.bounds frame) (some b) = .ok factor
          ∧ (w2.objects t).matrixWorld = snapMatrix T (w1.objects f).matrixWorld factor) := by
  -- the first run: no clause matches, nothing to reconcile
  have hconfnz : w.NetworkedMediaFrame.capturedNid frame ≠ 0 := by rw [hsame]; exact hlocal
  have hres1 : resnapCond w frame = false := by simp [resnapCond, hheld]
  have hev1 : evictCond w frame = false := by
    simp [evictCond, collidingOf, hO, hcol, hdel, hnotdeleted]
  have hst1 : staleCond w frame = false := by simp [staleCond, hO]
  have harb1 : arbitrate T w fuel frame = .ok w := by
    unfold arbitrate
    rw [hres1, hev1, hst1]
    simp only [Bool.false_eq_true, if_false, hconfnz]
    rfl
  obtain ⟨wa, wb, a1, a2, a3⟩ := processFrame_stages T fuel held1 w w1 frame hrun1
  rw [harb1] at a1
  cases Except.ok.inj a1
  have hrec1 : wb = w := by
    rcases reconcile_cases T w wb frame _ _ a2 with ⟨e, _⟩ | ⟨hc, _⟩
    · exact e
    · simp [hsame] at hc
  subst hrec1
  obtain ⟨objs, no, mx, nE, ee, e2o, pv, pn, e1, hm1⟩ := display_shape T _ w1 fuel frame _ _ a3
  have hprev : w1.MediaFrame.preview frame ≠ 0 :=
    display_shows_when_held T (syncLocal wb frame) w1 fuel frame _ held1 hne hO hheld a3
  have hn1 : w1.NetworkedMediaFrame = wb.NetworkedMediaFrame := by rw [e1]; rfl
  have hp1 : w1.physicsSystem = wb.physicsSystem := by rw [e1]; rfl
  have hmc1 : w1.MediaFrame.capturedNid frame = wb.MediaFrame.capturedNid frame := by
    rw [e1]
    simp [syncLocal, hsame]
  have hnid1 : w1.nid2eid = wb.nid2eid := by rw [e1]; rfl
  have hown1 : w1.Owned = wb.Owned := by rw [e1]; rfl
  have hdel1 : w1.findAncestorWithDeleting = wb.findAncestorWithDeleting := by rw [e1]; rfl
  have hbnd1 : w1.MediaFrame.bounds = wb.MediaFrame.bounds := by rw [e1]; rfl
  refine ⟨⟨by rw [hn1], by rw [hn1], by rw [hp1], ?_, hprev⟩, ?_⟩
  · intro o _ hfresh
    rw [e1]
    exact hm1 o hfresh
  -- the second run: the re-snap clause matches
  have hcap2 : capturedOf (releaseHeld w1 (capturedOf wb frame)) frame = capturedOf wb frame := by
    simp only [capturedOf, releaseHeld, hmc1, hnid1]
  have hres2 : resnapCond (releaseHeld w1 (capturedOf wb frame)) frame = true := by
    have hc2 : isColliding (releaseHeld w1 (capturedOf wb frame)) frame (capturedOf wb frame)
        = true := by
      rw [isColliding_releaseHeld]
      exact hcol2
    have hd2 : isFrameDeleting (releaseHeld w1 (capturedOf wb frame)) frame = false := by
      simp only [isFrameDeleting, releaseHeld, hdel1]
      exact hdel
    simp only [resnapCond, collidingOf, hcap2, hc2, hd2]
    simp [releaseHeld, hown1, howned, hO]
  obtain ⟨wc, wd, b1, b2, b3⟩ := processFrame_stages T fuel held2 _ w2 frame hrun2
  rw [hcap2] at b2 b3
  obtain ⟨f, t, b, hf, ht, hb, ec⟩ := arbitrate_of_resnap T _ wc fuel frame hres2 b1
  rw [hcap2] at ht hb ec
  have hcn : wc.NetworkedMediaFrame.capturedNid frame = wc.MediaFrame.capturedNid frame := by
    rw [ec]
    show w1.NetworkedMediaFrame.capturedNid frame = w1.MediaFrame.capturedNid frame
    rw [hn1, hmc1, hsame]
  have hrec2 : wd = wc := by
    rcases reconcile_cases T wc wd frame _ _ b2 with ⟨e, _⟩ | ⟨hc, _⟩
    · exact e
    · simp [hcn] at hc
  subst hrec2
  have hnz2 : (syncLocal wd frame).MediaFrame.capturedNid frame ≠ 0 := by
    simp only [syncLocal, Function.update_same]
    rw [ec]
    show w1.NetworkedMediaFrame.capturedNid frame ≠ 0
    rw [hn1]
    exact hconfnz
  have hheld2 : (syncLocal wd frame).Held (capturedOf wb frame) = false := by
    rw [ec]
    simp [syncLocal, updateRigidBodyOptions, withMatrix, releaseHeld]
  obtain ⟨hpv2, hmat2⟩ := display_not_visible T _ w2 fuel frame _ held2 hnz2 (Or.inr hheld2) b3
  obtain ⟨objs2, no2, mx2, nE2, ee2, e2o2, pv2, pn2, e2, _⟩ :=
    display_shape T _ w2 fuel frame _ _ b3
  have hn2 : w2.NetworkedMediaFrame.capturedNid frame = wb.NetworkedMediaFrame.capturedNid frame := by
    rw [e2, ec]
    show w1.NetworkedMediaFrame.capturedNid frame = _
    rw [hn1]
  have hm2 : w2.MediaFrame.capturedNid frame = wb.MediaFrame.capturedNid frame := by
    rw [e2]
    simp only [syncLocal, Function.update_same]
    rw [ec]
    show w1.NetworkedMediaFrame.capturedNid frame = _
    rw [hn1, hsame]
  have hnid2 : w2.nid2eid = wb.nid2eid := by
    rw [e2, ec]
    show w1.nid2eid = _
    rw [hnid1]
  refine ⟨hpv2, hn2, hm2, by simp only [capturedOf, hm2, hnid2], f, t, b, _, hf, ht, hb, rfl, ?_⟩
  rw [hmat2 t, ec]
  simp [syncLocal, updateRigidBodyOptions, withMatrix, releaseHeld, snapMatrix, hbnd1]

/-- Witness for claim C19: the theorem applied in a concrete room. -/
theorem grasp_does_not_release_witness :
    ∃ w1 w2, processFrame trsThree 5 2 graspWorld 1 = .ok w1
      ∧ processFrame trsThree 5 0 (releaseHeld w1 2) 1 = .ok w2
      ∧ w1.NetworkedMediaFrame.capturedNid 1 = 42 ∧ w1.MediaFrame.preview 1 ≠ 0
      ∧ w2.MediaFrame.preview 1 = 0 ∧ w2.NetworkedMediaFrame.capturedNid 1 = 42 := by
  obtain ⟨w1, hrun1, hcol2, h2⟩ := exists_ok_of_holdsAfter
    (by decide : holdsAfter (processFrame trsThree 5 2 graspWorld 1) (fun w1 =>
      isColliding w1 1 2 = true
        ∧ holdsAfter (processFrame trsThree 5 0 (releaseHeld w1 2) 1) (fun _ => True)))
  obtain ⟨w2, hrun2, _⟩ := exists_ok_of_holdsAfter h2
  obtain ⟨⟨a1, _, _, _, a5⟩, b1, b2, _⟩ :=
    grasp_does_not_release trsThree 5 2 0 graspWorld w1 w2 1
      (by decide) (by decide) (by decide) (by decide) (by decide) (by decide) (by decide)
      (by decide) (by decide) hrun1 hcol2 hrun2
  exact ⟨w1, w2, hrun1, hrun2, a1, a5, b1, b2⟩

/-- Claim C21. For a frame that is not locally owned and not being torn down, whose confirmed
captured id is non-zero and whose captured entity (the one the local captured id resolves to) is
unresolvable or not locally owned: no clause matches and nothing is reconciled, so the loop body
is the copy of the confirmed id and scale into the local fields followed by `display`. When it
returns, the confirmed ids and scales, the ownership requests and the physics state are as they
were, the world matrix of every object that existed is as it was, and apart from the two local
fields of the frame the state differs only in what `display` may change. -/
theorem non_owner_is_passive (T : Three Mat) (fuel heldMediaTypes : Nat) (w : World Mat)
    (frame : Eid)
    (hfo : w.Owned frame = false) (hdel : isFrameDeleting w frame = false)
    (hconf : w.NetworkedMediaFrame.capturedNid frame ≠ 0)
    (hcap : capturedOf w frame = 0 ∨ w.Owned (capturedOf w frame) = false) :
    arbitrate T w fuel frame = .ok w
      ∧ reconcile T w frame (capturedOf w frame) (w.Owned (capturedOf w frame)) = .ok w
      ∧ processFrame T fuel heldMediaTypes w frame
          = display T (syncLocal w frame) fuel frame (capturedOf w frame) heldMediaTypes
      ∧ ∀ w3, processFrame T fuel heldMediaTypes w frame = .ok w3 →
          DisplayShape (syncLocal w frame) w3
          ∧ w3.NetworkedMediaFrame = w.NetworkedMediaFrame
          ∧ w3.ownershipClaims = w.ownershipClaims
          ∧ w3.softOwnershipClaims = w.softOwnershipClaims
          ∧ w3.physicsSystem = w.physicsSystem
          ∧ (∀ o, o ≠ w.nextObj → (w3.objects o).matrixWorld = (w.objects o).matrixWorld)
          ∧ w3.MediaFrame.capturedNid
              = Function.update w.MediaFrame.capturedNid frame
                  (w.NetworkedMediaFrame.capturedNid frame)
          ∧ w3.MediaFrame.scale
              = Function.update w.MediaFrame.scale frame (w.NetworkedMediaFrame.scale frame) := by
  have hres : resnapCond w frame = false := by
    rcases hcap with h | h <;> simp [resnapCond, h]
  have hev : evictCond w frame = false := by
    rcases hcap with h | h <;> simp [evictCond, hfo, hdel, h]
  have hst : staleCond w frame = false := by simp [staleCond, hfo]
  have harb : arbitrate T w fuel frame = .ok w := by
    unfold arbitrate
    rw [hres, hev, hst]
    simp only [Bool.false_eq_true, if_false, hconf]
    rfl
  have hrec : reconcile T w frame (capturedOf w frame) (w.Owned (capturedOf w frame)) = .ok w := by
    unfold reconcile
    have hc : (w.NetworkedMediaFrame.capturedNid frame != w.MediaFrame.capturedNid frame
        && capturedOf w frame != 0 && w.entityExists (capturedOf w frame)
        && w.Owned (capturedOf w frame)) = false := by
      rcases hcap with h | h <;> simp [h]
    rw [hc]
    rfl
  have hproc : processFrame T fuel heldMediaTypes w frame
      = display T (syncLocal w frame) fuel frame (capturedOf w frame) heldMediaTypes := by
    unfold processFrame
    rw [harb]
    simp only [bind, Except.bind, hrec]
  refine ⟨harb, hrec, hproc, ?_⟩
  intro w3 h
  rw [hproc] at h
  have hshape := display_shape T _ w3 fuel frame _ _ h
  obtain ⟨objs, no, mx, nE, ee, e2o, pv, pn, e, hm⟩ := hshape
  refine ⟨⟨objs, no, mx, nE, ee, e2o, pv, pn, e, hm⟩, ?_, ?_, ?_, ?_, ?_, ?_, ?_⟩
  · rw [e]; rfl
  · rw [e]; rfl
  · rw [e]; rfl
  · rw [e]; rfl
  · intro o ho
    rw [e]
    exact hm o ho
  · rw [e]; rfl
  · rw [e]; rfl

/-- Witness for claim C21: the theorem applied in a concrete room. -/
theorem non_owner_is_passive_witness :
    ∃ w3, processFrame trsThree 5 0 passiveWorld 1 = .ok w3
      ∧ w3.NetworkedMediaFrame = passiveWorld.NetworkedMediaFrame
      ∧ w3.ownershipClaims = passiveWorld.ownershipClaims
      ∧ w3.physicsSystem = passiveWorld.physicsSystem
      ∧ w3.MediaFrame.capturedNid 1 = 42 := by
  obtain ⟨w3, hrun, _⟩ := exists_ok_of_holdsAfter
    (by decide : holdsAfter (processFrame trsThree 5 0 passiveWorld 1) (fun _ => True))
  obtain ⟨_, a2, a3, _, a5, _, a7, _⟩ :=
    (non_owner_is_passive trsThree 5 0 passiveWorld 1 (by decide) (by decide) (by decide)
      (Or.inl (by decide))).2.2.2 w3 hrun
  refine ⟨w3, hrun, a2, a3, a5, ?_⟩
  rw [a7]
  decide

end MediaFrames
